import Mathlib

/-! # A distributed file store: gateway S1 and storage nodes S2, S3, S4

Shallow embedding of `S1.c`, `S2.c`, `S3.c` and `S4.c`.

* A C `char` is a Lean `Char`; a byte string (buffer contents, file contents,
  network payload) is a `List Char`.  A C string is the list of its bytes
  before the terminating NUL.
* A socket is a `Conn`: the reads that will arrive on it (one list element per
  `recv` that finds data; an empty element is a `recv` that returns `0` or
  `-1`; the end of the list is a closed peer), the messages sent on it, and
  what becomes of the further `send` calls: they succeed, return `-1`, or raise
  SIGPIPE, which ends the process (no program handles the signal).
* The file system is a finite map from canonical paths (lists of component
  names below the root) to nodes.  Path strings are resolved component by
  component, with `.` and `..`; a new name has at most `NAME_MAX` bytes;
  symbolic links and permissions are not modelled.
* Where the program writes past the end of a buffer (`strcpy` into `relative`
  in `dispfnames`), what it does next is a parameter of the environment.
* `long` values are integers; `atol` saturates at `LONG_MAX`/`LONG_MIN` as the
  glibc implementation does.
-/

set_option autoImplicit false

namespace DFS

/-- Byte strings. -/
abbrev Bytes := List Char

/-! ## libc: strings and numbers -/

/-- The NUL byte. -/
def NUL : Char := Char.ofNat 0

/-- The C string stored in a buffer: its bytes before the first NUL. -/
def cstr (buf : Bytes) : Bytes :=
  buf.takeWhile (fun ch => ch != NUL)

/-- What `snprintf(buf, size, ...)` leaves in `buf` for the formatted text
`text`: at most `size - 1` bytes (the rest is cut off). -/
def snprintf (size : Nat) (text : Bytes) : Bytes :=
  text.take (size - 1)

/-- The C call `strrchr(s, ch)`: the part of `s` from the last occurrence of
`ch` on, or `none` (a NULL pointer) when `ch` does not occur. -/
def strrchr : Bytes → Char → Option Bytes
  | [], _ => none
  | x :: xs, ch =>
    match strrchr xs ch with
    | some r => some r
    | none => if x = ch then some (x :: xs) else none

/-- Whether `strncmp(s, lit, n) == 0` holds, for C strings `s` and `lit`. -/
def strncmp_eq (s lit : Bytes) (n : Nat) : Bool :=
  s.take n == lit.take n

/-- The C classification `isspace` in the "C" locale. -/
def isspace (ch : Char) : Bool :=
  ch == ' ' || ch == '\t' || ch == '\n' || ch == Char.ofNat 11 || ch == Char.ofNat 12 || ch == '\r'

/-- Value of a decimal digit character. -/
def digitVal (ch : Char) : Nat := ch.toNat - 48

/-- Value of the leading run of decimal digits of `s` (0 when there is none). -/
def digitsVal (s : Bytes) : Nat :=
  (s.takeWhile Char.isDigit).foldl (fun acc ch => 10 * acc + digitVal ch) 0

/-- Largest `long` (64-bit). -/
def LONG_MAX : Int := 2 ^ 63 - 1

/-- Smallest `long` (64-bit). -/
def LONG_MIN : Int := -(2 ^ 63)

/-- The libc function `atol`: skips white space, reads an optional sign and the
digits that follow, stops at the first other byte (a NUL included), and
saturates at the ends of the `long` range. -/
def atol (s : Bytes) : Int :=
  let t := s.dropWhile isspace
  if t.head? = some '-' then max LONG_MIN (-(digitsVal t.tail : Int))
  else if t.head? = some '+' then min LONG_MAX (digitsVal t.tail : Int)
  else min LONG_MAX (digitsVal t : Int)

/-- Decimal digits of `n`, least significant first (`fuel` bounds the number
of digits). -/
def digitsRev : Nat → Nat → Bytes
  | 0, _ => []
  | fuel + 1, n =>
    Nat.digitChar (n % 10) :: (if n / 10 = 0 then [] else digitsRev fuel (n / 10))

/-- The text `snprintf` produces for the conversion `%ld` applied to a
non-negative value: its decimal digits, most significant first. -/
def fmt_ld (n : Nat) : Bytes :=
  (digitsRev (n + 1) n).reverse

/-! ## Sockets -/

/-- What becomes of the `send` calls on a socket whose peer stops taking data. -/
inductive Wlim where
  /-- The next `k` calls succeed; the call after them returns `-1` (the connection was
  reset), and so does every later one. -/
  | fails (k : Nat)
  /-- The next `k` calls succeed; the call after them finds the connection closed by the peer
  and raises SIGPIPE.  No program of the repository handles or ignores the signal, and no
  `send` passes `MSG_NOSIGNAL`: the process ends in that call. -/
  | sigpipe (k : Nat)
  /-- SIGPIPE was raised on the socket: the process that owned it has ended. -/
  | ended
deriving DecidableEq

/-- One end of a TCP connection, as the program sees it. -/
structure Conn where
  /-- Reads still to come: each element is what one `recv` finds; `[]` as an
  element is a `recv` returning `0` or `-1`; no element left is a closed peer (or a process
  that has ended and reads no more). -/
  inp : List Bytes
  /-- Messages passed to `send` so far, oldest first. -/
  out : List Bytes
  /-- What the further `send` calls do (`none`: all of them succeed). -/
  wlim : Option Wlim
deriving DecidableEq

/-- Whether SIGPIPE has ended the process that owns the socket. -/
def Conn.ended (c : Conn) : Bool :=
  match c.wlim with
  | some Wlim.ended => true
  | _ => false

/-- The call `recv(sock, buf, cap, 0)`: the bytes stored in `buf` (`[]` when the
call returns a value `<= 0`) and the connection afterwards.  Bytes of the
arriving data beyond `cap` stay queued for the next call. -/
def recv (c : Conn) (cap : Nat) : Bytes × Conn :=
  match c.inp with
  | [] => ([], c)
  | ch :: rest =>
    if ch.length ≤ cap then (ch, { c with inp := rest })
    else (ch.take cap, { c with inp := ch.drop cap :: rest })

/-- The call `send(sock, msg, len, 0)`: `false` when it returns a negative
value (nothing is sent then).  A call that raises SIGPIPE does not return: the process has
ended, which the connection records (`Conn.ended`); it reads nothing further, and whatever it
would have sent afterwards is not sent. -/
def send (c : Conn) (msg : Bytes) : Bool × Conn :=
  match c.wlim with
  | none => (true, { c with out := c.out ++ [msg] })
  | some (Wlim.fails 0) => (false, c)
  | some (Wlim.fails (k + 1)) =>
    (true, { c with out := c.out ++ [msg], wlim := some (Wlim.fails k) })
  | some (Wlim.sigpipe 0) => (false, { c with inp := [], wlim := some Wlim.ended })
  | some (Wlim.sigpipe (k + 1)) =>
    (true, { c with out := c.out ++ [msg], wlim := some (Wlim.sigpipe k) })
  | some Wlim.ended => (false, c)

/-- All bytes sent on a connection, in order. -/
def Conn.sent (c : Conn) : Bytes := c.out.flatten

/-! ## File system -/

/-- Canonical path: the component names from the root down. -/
abbrev CPath := List Bytes

/-- A node of the file system. -/
inductive Node where
  | dir
  | file (data : Bytes)
deriving DecidableEq

/-- File system: the nodes below the root, by canonical path (the first entry
for a path counts).  The root itself always exists and is a directory. -/
abbrev FS := List (CPath × Node)

/-- Node at a canonical path. -/
def FS.get (fs : FS) (p : CPath) : Option Node :=
  if p = [] then some Node.dir
  else (fs.find? (fun e => e.1 == p)).map (fun e => e.2)

/-- File system with the node at `p` replaced by (or created as) `n`. -/
def FS.set (fs : FS) (p : CPath) (n : Node) : FS :=
  (p, n) :: fs.filter (fun e => e.1 != p)

/-- File system without the node at `p`. -/
def FS.erase (fs : FS) (p : CPath) : FS :=
  fs.filter (fun e => e.1 != p)

/-- Whether some node lies directly below `p`. -/
def FS.hasChild (fs : FS) (p : CPath) : Bool :=
  fs.any (fun e => e.1 != [] && e.1.dropLast == p)

/-- The pieces of a path string between its slashes (empty pieces included). -/
def splitSlash : Bytes → List Bytes
  | [] => [[]]
  | ch :: rest =>
    match splitSlash rest with
    | [] => [[ch]]
    | piece :: more => if ch = '/' then [] :: piece :: more else (ch :: piece) :: more

/-- The components of a path string: its non-empty pieces. -/
def components (path : Bytes) : List Bytes :=
  (splitSlash path).filter (fun piece => piece != [])

/-- Directory reached from `cur` by one component. -/
def stepComp (cur : CPath) (comp : Bytes) : CPath :=
  if comp = ['.'] then cur
  else if comp = ['.', '.'] then cur.dropLast
  else cur ++ [comp]

/-- Walk the components from `cur`: every component is looked up in a
directory that must exist; the node reached by the last one need not. -/
def walk (fs : FS) : CPath → List Bytes → Option CPath
  | cur, [] => some cur
  | cur, comp :: more =>
    if fs.get cur = some Node.dir then walk fs (stepComp cur comp) more else none

/-- Canonical path a path string resolves to (`cwd` is the working directory,
used for relative paths); `none` when a directory on the way is missing or the
string is empty. -/
def resolve (cwd : CPath) (fs : FS) (path : Bytes) : Option CPath :=
  if path = [] then none
  else walk fs (if path.head? = some '/' then [] else cwd) (components path)

/-- Whether a path string ends in a slash (it can then only name a directory). -/
def trailingSlash (path : Bytes) : Bool :=
  path.getLast? == some '/'

/-- The call `stat(path, &st)`: the node found, `none` when the call fails. -/
def stat (cwd : CPath) (fs : FS) (path : Bytes) : Option Node :=
  match resolve cwd fs path with
  | none => none
  | some p =>
    match fs.get p with
    | some Node.dir => some Node.dir
    | some (Node.file d) => if trailingSlash path then none else some (Node.file d)
    | none => none

/-- The call `access(path, F_OK) == 0`. -/
def access (cwd : CPath) (fs : FS) (path : Bytes) : Bool :=
  (stat cwd fs path).isSome

/-- Longest name of a directory entry: the constant `NAME_MAX` of Linux. -/
def NAME_MAX : Nat := 255

/-- The call `mkdir(path, 0755)`: the new file system, `none` when it fails
(the path exists already, its parent is missing or not a directory, or the new name has more
than `NAME_MAX` bytes). -/
def mkdir (cwd : CPath) (fs : FS) (path : Bytes) : Option FS :=
  match resolve cwd fs path with
  | none => none
  | some p =>
    match fs.get p with
    | some _ => none
    | none =>
      if fs.get p.dropLast = some Node.dir ∧ (p.getLastD []).length ≤ NAME_MAX then
        some (fs.set p Node.dir)
      else none

/-- The call `fopen(path, "wb")`: the file is created or emptied; the result is
the new file system and the canonical path of the open file, `none` when the
call fails (directory, trailing slash, missing parent, or a new name of more than `NAME_MAX`
bytes). -/
def fopen_wb (cwd : CPath) (fs : FS) (path : Bytes) : Option (FS × CPath) :=
  if trailingSlash path then none
  else
    match resolve cwd fs path with
    | none => none
    | some p =>
      match fs.get p with
      | some Node.dir => none
      | some (Node.file _) => some (fs.set p (Node.file []), p)
      | none =>
        if fs.get p.dropLast = some Node.dir ∧ (p.getLastD []).length ≤ NAME_MAX then
          some (fs.set p (Node.file []), p)
        else none

/-- The call `fopen(path, "rb")` with the bytes the stream then yields, for the paths the
servers open for reading: what `stat` has reported as a regular file, what `receive_file` has
just written, and the archive a `tar` command has just written.  The result is `none` when the
path does not name a regular file. -/
def fopen_rb (cwd : CPath) (fs : FS) (path : Bytes) : Option Bytes :=
  match stat cwd fs path with
  | some (Node.file d) => some d
  | _ => none

/-- The call `remove(path) == 0`: a regular file is unlinked, an empty
directory is removed; `none` when the call fails. -/
def remove (cwd : CPath) (fs : FS) (path : Bytes) : Option FS :=
  match resolve cwd fs path with
  | none => none
  | some p =>
    if p = [] then none
    else
      match fs.get p with
      | some (Node.file _) => if trailingSlash path then none else some (fs.erase p)
      | some Node.dir => if fs.hasChild p then none else some (fs.erase p)
      | none => none

/-! ## Transfer protocol (`send_file`, `receive_file`; the same text in S1 to S4) -/

/-- Size of the data buffers: the constant `BUFFER_SIZE`. -/
def BUFFER_SIZE : Nat := 1024

/-- The loop `while (!feof(fp))` of `send_file`: `rest` is the unread part of
the file, `eof` the end-of-file indicator of the stream.  Each round reads up
to `BUFFER_SIZE` bytes and sends them when there are any; a failing `send`
ends the function with `-1` (result `false`). -/
def send_loop : Nat → Bytes → Bool → Conn → Bool × Conn
  | 0, _, _, c => (true, c)
  | fuel + 1, rest, eof, c =>
    if eof then (true, c)
    else
      let chunk := rest.take BUFFER_SIZE
      let eof1 := decide (chunk.length < BUFFER_SIZE)
      if chunk.length > 0 then
        match send c chunk with
        | (false, c1) => (false, c1)
        | (true, c1) => send_loop fuel (rest.drop BUFFER_SIZE) eof1 c1
      else send_loop fuel (rest.drop BUFFER_SIZE) eof1 c

/-- The function `send_file(client_sock, filepath)`: return value and
connection afterwards. -/
def send_file (cwd : CPath) (fs : FS) (c : Conn) (filepath : Bytes) : Int × Conn :=
  match fopen_rb cwd fs filepath with
  | none => (-1, c)
  | some data =>
    let size_str := snprintf 64 (fmt_ld data.length)
    match send c size_str with
    | (false, c1) => (-1, c1)
    | (true, c1) =>
      match send_loop (data.length + 2) data false c1 with
      | (false, c2) => (-1, c2)
      | (true, c2) => (0, c2)

/-- The loop `while (remaining > 0)` of `receive_file`: whether it ran to the
end (`false`: a `recv` returned `<= 0`), the bytes written to the file, and the
connection afterwards. -/
def recv_loop : Nat → Nat → Conn → Bytes → Bool × Bytes × Conn
  | 0, _, c, acc => (true, acc, c)
  | fuel + 1, remaining, c, acc =>
    if remaining = 0 then (true, acc, c)
    else
      let to_read := if remaining < BUFFER_SIZE then remaining else BUFFER_SIZE
      let r := recv c to_read
      if r.1 = [] then (false, acc, r.2)
      else recv_loop fuel (remaining - r.1.length) r.2 (acc ++ r.1)

/-- Result of a function that returns an `int` and may change the file system
and use a connection. -/
structure Res where
  ret : Int
  fs : FS
  conn : Conn
deriving DecidableEq

/-- The function `receive_file(client_sock, filepath)`. -/
def receive_file (cwd : CPath) (fs : FS) (c : Conn) (filepath : Bytes) : Res :=
  let r := recv c 63
  if r.1 = [] then ⟨-1, fs, r.2⟩
  else
    let file_size := atol r.1
    if file_size ≤ 0 then ⟨-1, fs, r.2⟩
    else
      match fopen_wb cwd fs filepath with
      | none => ⟨-1, fs, r.2⟩
      | some (fs1, fp) =>
        let l := recv_loop file_size.toNat file_size.toNat r.2 []
        ⟨if l.1 then 0 else -1, fs1.set fp (Node.file l.2.1), l.2.2⟩

/-! ## Process environment -/

/-- What a server process finds around it. -/
structure Env where
  /-- Value of `getenv("HOME")`; `none` is a NULL pointer (the variable is not set). -/
  home : Option Bytes
  /-- Working directory of the process. -/
  cwd : CPath
  /-- Bytes of the program image that follow the terminator of a string literal: `rodata lit i`
  is the byte at offset `i` after the NUL that ends `lit`.  A `send` whose length argument
  exceeds the literal reads them. -/
  rodata : Bytes → Nat → Char
  /-- Effect of `system(cmd)`: exit status and file system afterwards. -/
  system : Bytes → FS → Int × FS
  /-- What the process does once `strcpy` has written past the end of its destination buffer.
  The program does not define it: from the text copied and the state at the copy, the file
  system and the connection the process leaves behind. -/
  overrun : Bytes → FS → Conn → FS × Conn

/-- The variable `home_dir`: `getenv("HOME")`, or `"."` when that is NULL. -/
def home_dir (env : Env) : Bytes :=
  match env.home with
  | some h => h
  | none => ".".toList

/-- What `printf`-style `%s` prints for `getenv("HOME")` used directly: glibc prints `(null)`
for a NULL pointer. -/
def getenv_HOME (env : Env) : Bytes :=
  match env.home with
  | some h => h
  | none => "(null)".toList

/-- The `n` bytes a call `send(sock, "lit", n, 0)` transmits: the first `n` bytes found at the
address of the literal (its text, its terminator, then what follows in memory). -/
def lit_bytes (env : Env) (lit : Bytes) (n : Nat) : Bytes :=
  (lit ++ NUL :: (List.range (n - (lit.length + 1))).map (env.rodata lit)).take n

/-- A call `send(sock, "lit", n, 0)` whose result is not checked. -/
def send_lit (env : Env) (c : Conn) (lit : String) (n : Nat) : Conn :=
  (send c (lit_bytes env lit.toList n)).2

/-- A call `send(sock, buf, strlen(buf), 0)` whose result is not checked. -/
def send_str (c : Conn) (msg : Bytes) : Conn :=
  (send c msg).2

/-! ## Command line -/

/-- The statement `buffer[strcspn(buffer, "\r\n")] = 0` on a zero-filled buffer that received
`buf`: the command line is the C string up to the first CR or LF. -/
def command_line (buf : Bytes) : Bytes :=
  (cstr buf).takeWhile (fun ch => ch != '\r' && ch != '\n')

/-- The call `strtok(s, " ")`, and `strtok(NULL, " ")` on the text left over by the previous
call: the next token and the text after the delimiter that ends it; `none` when no token is
left. -/
def strtok (s : Bytes) : Option (Bytes × Bytes) :=
  let t := s.dropWhile (fun ch => ch == ' ')
  if t = [] then none
  else some (t.takeWhile (fun ch => ch != ' '), (t.dropWhile (fun ch => ch != ' ')).tail)

/-! ## `create_directories` (the same text in S1 to S4) -/

/-- The prefixes of `tmp` that end just before a slash at an index `>= 1`: the values of `tmp`
at the `access` calls inside the loop `for (p = tmp + 1; *p; p++)`. -/
def slashCuts (tmp : Bytes) : List Bytes :=
  ((List.range tmp.length).filter (fun i => decide (1 ≤ i) && (tmp.get? i == some '/'))).map
    (fun i => tmp.take i)

/-- For each path in turn: `if (access(p, F_OK) != 0) { if (mkdir(p, 0755) != 0) return -1; }`.
The result is `false` at the first failing `mkdir`, with the directories made so far. -/
def ensure_dirs (cwd : CPath) : FS → List Bytes → Bool × FS
  | fs, [] => (true, fs)
  | fs, p :: ps =>
    if access cwd fs p then ensure_dirs cwd fs ps
    else
      match mkdir cwd fs p with
      | none => (false, fs)
      | some fs1 => ensure_dirs cwd fs1 ps

/-- The function `create_directories(path)`: return value and file system afterwards. -/
def create_directories (env : Env) (fs : FS) (path : Bytes) : Int × FS :=
  let full_path := snprintf 512 (home_dir env ++ '/' :: path)
  let tmp := if full_path.getLast? = some '/' then full_path.dropLast else full_path
  let r := ensure_dirs env.cwd fs (slashCuts tmp ++ [tmp])
  (if r.1 then 0 else -1, r.2)

/-- The path `snprintf(local_filepath, 512, "%s/%s/%s", home_dir, destination, filename)`
builds in the `uploadf` branch of every server. -/
def local_path (env : Env) (destination filename : Bytes) : Bytes :=
  snprintf 512 (home_dir env ++ '/' :: destination ++ '/' :: filename)

/-! ## Storage nodes S2, S3, S4 (`prcclient` of `S2.c`, `S3.c`, `S4.c`) -/

/-- What distinguishes the three storage node programs. -/
structure NodeCfg where
  /-- Name of the node: `S2`, `S3` or `S4`. -/
  id : String
  /-- The extension it stores. -/
  ext : String
  /-- File name of its archive, for the nodes that serve `downltar` (S4 does not). -/
  tar : Option String

/-- Node S2: `.pdf` files. -/
def S2 : NodeCfg := ⟨"S2", ".pdf", some "pdf.tar"⟩

/-- Node S3: `.txt` files. -/
def S3 : NodeCfg := ⟨"S3", ".txt", some "text.tar"⟩

/-- Node S4: `.zip` files. -/
def S4 : NodeCfg := ⟨"S4", ".zip", none⟩

namespace Node

/-- The `uploadf` branch of a storage node; `args` is the command line after the verb. -/
def uploadf (cfg : NodeCfg) (env : Env) (fs : FS) (c : Conn) (args : Bytes) : FS × Conn :=
  match strtok args with
  | none => (fs, send_lit env c "ERROR: Invalid uploadf command format.\n" 41)
  | some (filename, args1) =>
    match strtok args1 with
    | none => (fs, send_lit env c "ERROR: Invalid uploadf command format.\n" 41)
    | some (destination, _) =>
      if strrchr filename '.' ≠ some cfg.ext.toList then
        (fs, send_lit env c ("ERROR: Only " ++ cfg.ext ++ " files allowed in " ++ cfg.id ++ ".\n") 38)
      else
        let cd := create_directories env fs destination
        if cd.1 ≠ 0 then
          (cd.2, send_lit env c "ERROR: Failed to create directory structure.\n" 48)
        else
          let local_filepath := local_path env destination filename
          let c1 := send_lit env c "READY\n" 6
          let r := receive_file env.cwd cd.2 c1 local_filepath
          if r.ret = 0 then
            (r.fs, send_lit env r.conn ("File uploaded successfully to " ++ cfg.id ++ ".\n") 34)
          else
            (r.fs, send_lit env r.conn ("ERROR: Failed to receive file in " ++ cfg.id ++ ".\n") 38)

/-- The `downltar` branch of nodes S2 and S3; `tarname` is the archive file name. -/
def downltar (cfg : NodeCfg) (tarname : String) (env : Env) (fs : FS) (c : Conn) (args : Bytes) :
    FS × Conn :=
  let bad := send_lit env c
    ("ERROR: Invalid downltar command for " ++ cfg.id ++ ". Expected: downltar " ++ cfg.ext ++ "\n") 64
  match strtok args with
  | none => (fs, bad)
  | some (filetype, _) =>
    if filetype ≠ cfg.ext.toList then (fs, bad)
    else
      let tar_path := snprintf 256 (home_dir env ++ '/' :: tarname.toList)
      let cmd := snprintf 1024 ("tar -cf ".toList ++ tar_path ++ " --wildcards '*".toList ++
        cfg.ext.toList ++ "' -C \"".toList ++ home_dir env ++ '/' :: cfg.id.toList ++ "\" .".toList)
      let sys := env.system cmd fs
      if sys.1 ≠ 0 then
        (sys.2, send_lit env c
          ("ERROR: Failed to create tar file for " ++ cfg.ext ++ " files.\n") 50)
      else
        let s := send_file env.cwd sys.2 c tar_path
        if s.1 = 0 then
          match remove env.cwd sys.2 tar_path with
          | some fs1 => (fs1, s.2)
          | none => (sys.2, s.2)
        else (sys.2, send_lit env s.2 "ERROR: Failed to send tar file.\n" 31)

/-- One round of the loop `while (1)` of `prcclient`: whether the round ends in `continue`
rather than `break`, the file system and the connection afterwards.  (A process that SIGPIPE
ended during the round is recorded in the connection, `Conn.ended`; it finds no further
read.) -/
def prcclient_step (cfg : NodeCfg) (env : Env) (fs : FS) (c : Conn) : Bool × FS × Conn :=
  let r := recv c 1023
  if r.1 = [] then (false, fs, r.2)
  else
    match strtok (command_line r.1) with
    | none => (true, fs, r.2)
    | some (command, args) =>
      if command = "uploadf".toList then (true, uploadf cfg env fs r.2 args)
      else if command = "downltar".toList ∧ cfg.tar ≠ none then
        (true, downltar cfg (cfg.tar.getD "") env fs r.2 args)
      else if command = "exit".toList then (false, fs, r.2)
      else (true, fs, send_lit env r.2 ("ERROR: Unknown command in " ++ cfg.id ++ ".\n") 30)

/-- The loop of `prcclient`, at most `fuel` rounds. -/
def prcclient_loop (cfg : NodeCfg) (env : Env) : Nat → FS → Conn → FS × Conn
  | 0, fs, c => (fs, c)
  | fuel + 1, fs, c =>
    let s := prcclient_step cfg env fs c
    if s.1 then prcclient_loop cfg env fuel s.2.1 s.2.2 else s.2

end Node

/-- Number of rounds that exhaust the reads of a connection: every round consumes a byte or a
read. -/
def Conn.rounds (c : Conn) : Nat :=
  (c.inp.map (fun ch => ch.length + 1)).sum + 1

/-- The function `prcclient(client_sock)` of a storage node: it serves the connection until the
peer closes it or says `exit`. -/
def Node.prcclient (cfg : NodeCfg) (env : Env) (fs : FS) (c : Conn) : FS × Conn :=
  Node.prcclient_loop cfg env c.rounds fs c

/-! ## Gateway S1 (`S1.c`) -/

/-- A server process that accepts connections on a port of the same machine: from the file
system at the time it accepts a connection and the reads that arrive on that connection (then
the end of the stream), the file system it leaves and the messages it sends back. -/
abbrev Target := FS → List Bytes → FS × List Bytes

/-- An outbound connection of the gateway. -/
structure Link where
  /-- The server at the other end. -/
  server : Target
  /-- How the messages sent so far reach the reads of the server (message boundaries need not
  survive the network). -/
  deliver : List Bytes → List Bytes
  /-- Number of `send` calls on the connection that succeed (`none`: all); the call after
  them returns `-1`. -/
  wlim : Option Nat

/-- State of the other end once it has processed everything sent so far on the socket. -/
def Link.peer (lk : Link) (fs : FS) (sock : Conn) : FS × List Bytes :=
  lk.server fs (lk.deliver sock.out)

/-- Outcome of `forward_file`. -/
structure Fwd where
  /-- The return value. -/
  ret : Int
  /-- Whether `socket`, `inet_pton` and `connect` succeeded. -/
  connected : Bool
  /-- What the first `recv` on the socket stored in `response` (`[]` when it returned a value
  `<= 0` or was not reached). -/
  response : Bytes
  /-- File system afterwards (the target server may have changed it). -/
  fs : FS
  /-- Messages sent to the target server, oldest first. -/
  sent : List Bytes
  /-- The final response read from the target server (only printed), `[]` when none was read. -/
  status : Bytes

/-- The function `forward_file(local_filepath, filename, target_dest, target_ip, target_port)`.
`lk` is what `socket`, `inet_pton` and `connect` yield for the target address: `none` when one
of them fails.  The local file is read as it is when it is opened. -/
def forward_file (cwd : CPath) (fs : FS) (lk : Option Link)
    (local_filepath filename target_dest : Bytes) : Fwd :=
  match fopen_rb cwd fs local_filepath with
  | none => ⟨-1, false, [], fs, [], []⟩
  | some data =>
    match lk with
    | none => ⟨-1, false, [], fs, [], []⟩
    | some lk =>
      let cmd := snprintf 1024 ("uploadf ".toList ++ filename ++ ' ' :: target_dest)
      let s1 := send ⟨[], [], lk.wlim.map Wlim.fails⟩ cmd
      if s1.1 = false then ⟨-1, true, [], (lk.peer fs s1.2).1, s1.2.out, []⟩
      else
        let response := ((lk.peer fs s1.2).2.headD []).take 1023
        if response = [] ∨ strncmp_eq (cstr response) "READY".toList 5 = false then
          ⟨-1, true, response, (lk.peer fs s1.2).1, s1.2.out, []⟩
        else
          let size_str := snprintf 64 (fmt_ld data.length)
          let s2 := send s1.2 size_str
          if s2.1 = false then ⟨-1, true, response, (lk.peer fs s2.2).1, s2.2.out, []⟩
          else
            let s3 := send_loop (data.length + 2) data false s2.2
            if s3.1 = false then ⟨-1, true, response, (lk.peer fs s3.2).1, s3.2.out, []⟩
            else
              ⟨0, true, response, (lk.peer fs s3.2).1, s3.2.out,
                (((lk.peer fs s3.2).2.drop 1).headD []).take 1023⟩

/-- The port of S2. -/
def PORT_S2 : Nat := 4642

/-- The port of S3. -/
def PORT_S3 : Nat := 4643

/-- The port of S4. -/
def PORT_S4 : Nat := 4644

namespace S1

/-- Outcome of one command of the gateway. -/
structure Out where
  /-- File system afterwards. -/
  fs : FS
  /-- Client connection afterwards. -/
  conn : Conn
  /-- Outcome of `forward_file`, when the command called it. -/
  relay : Option Fwd

/-- The variable `target` the `uploadf` branch fills in for the extension `ext`: the identifier
and the port of the owning node (the address is always 127.0.0.1); `none` is the final `else`,
which sends the unsupported-type error. -/
def relay_target (ext : Bytes) : Option (String × Nat) :=
  if ext = ".pdf".toList then some ("S2", PORT_S2)
  else if ext = ".txt".toList then some ("S3", PORT_S3)
  else if ext = ".zip".toList then some ("S4", PORT_S4)
  else none

/-- The buffer `target_dest`: a leading `S1` of the destination is replaced by the identifier
of the target server (`snprintf` into 512 bytes); another destination is copied with
`strncpy`. -/
def target_dest (server_id : String) (destination : Bytes) : Bytes :=
  if strncmp_eq destination "S1".toList 2 then
    snprintf 512 (server_id.toList ++ destination.drop 2)
  else destination.take 512

/-- The `uploadf` branch of the gateway; `args` is the command line after the verb, `net` gives
the outcome of connecting to a port of 127.0.0.1. -/
def uploadf (env : Env) (net : Nat → Option Link) (fs : FS) (c : Conn) (args : Bytes) : Out :=
  match strtok args with
  | none => ⟨fs, send_lit env c "ERROR: Invalid uploadf command format.\n" 41, none⟩
  | some (filename, args1) =>
    match strtok args1 with
    | none => ⟨fs, send_lit env c "ERROR: Invalid uploadf command format.\n" 41, none⟩
    | some (destination, _) =>
      match strrchr filename '.' with
      | none => ⟨fs, send_lit env c "ERROR: File has no extension.\n" 30, none⟩
      | some ext =>
        if strncmp_eq destination "S1/".toList 3 = false then
          ⟨fs, send_lit env c "ERROR: Path must start with 'S1/'.\n" 34, none⟩
        else
          let cd := create_directories env fs destination
          if cd.1 ≠ 0 then
            ⟨cd.2, send_lit env c "ERROR: Failed to create local directory structure.\n" 52, none⟩
          else
            let local_filepath := local_path env destination filename
            if ext = ".c".toList then
              let c1 := send_lit env c "READY\n" 6
              let r := receive_file env.cwd cd.2 c1 local_filepath
              if r.ret = 0 then
                ⟨r.fs, send_lit env r.conn "File uploaded successfully in S1.\n" 34, none⟩
              else ⟨r.fs, send_lit env r.conn "ERROR: Failed to receive .c file.\n" 34, none⟩
            else if ext = ".pdf".toList ∨ ext = ".txt".toList ∨ ext = ".zip".toList then
              let c1 := send_lit env c "READY\n" 6
              let r := receive_file env.cwd cd.2 c1 local_filepath
              if r.ret ≠ 0 then
                ⟨r.fs, send_lit env r.conn "ERROR: Failed to receive file for forwarding.\n" 48, none⟩
              else
                match relay_target ext with
                | none => ⟨r.fs, send_lit env r.conn "ERROR: Unsupported file type.\n" 31, none⟩
                | some (server_id, port) =>
                  let f := forward_file env.cwd r.fs (net port) local_filepath filename
                    (target_dest server_id destination)
                  if f.ret = 0 then
                    match remove env.cwd f.fs local_filepath with
                    | some fs1 => ⟨fs1, send_lit env r.conn "File created successfully.\n" 27, some f⟩
                    | none =>
                      ⟨f.fs, send_lit env r.conn "Success but local deletion in S1 failed.\n" 50,
                        some f⟩
                  else ⟨f.fs, send_lit env r.conn "ERROR: Forwarding failed.\n" 26, some f⟩
            else ⟨cd.2, send_lit env c "ERROR: Unsupported file type.\n" 31, none⟩

/-- The physical path the branches `downlf` and `removef` build for `filepath_arg` with the
extension `ext` (`home` is what `%s` prints for the home directory there); `none` for an
extension outside `.c`, `.pdf`, `.txt`, `.zip`. -/
def full_filepath (home : Bytes) (filepath_arg ext : Bytes) : Option Bytes :=
  let subpath :=
    if strncmp_eq filepath_arg "S1/".toList 3 then filepath_arg.drop 3 else filepath_arg
  if ext = ".c".toList then some (snprintf 512 (home ++ '/' :: filepath_arg))
  else if ext = ".pdf".toList then some (snprintf 512 (home ++ "/S2/".toList ++ subpath))
  else if ext = ".txt".toList then some (snprintf 512 (home ++ "/S3/".toList ++ subpath))
  else if ext = ".zip".toList then some (snprintf 512 (home ++ "/S4/".toList ++ subpath))
  else none

/-- The `downlf` branch of the gateway. -/
def downlf (env : Env) (fs : FS) (c : Conn) (args : Bytes) : Out :=
  match strtok args with
  | none =>
    ⟨fs, send_lit env c "ERROR: Invalid downlf command format. Expected: downlf <filepath>\n" 68,
      none⟩
  | some (filepath_arg, _) =>
    match strrchr filepath_arg '.' with
    | none => ⟨fs, send_lit env c "ERROR: File has no extension.\n" 30, none⟩
    | some ext =>
      if strncmp_eq filepath_arg "S1/".toList 3 = false then
        ⟨fs, send_lit env c "ERROR: Path must start with 'S1/'.\n" 34, none⟩
      else if ext ≠ ".c".toList ∧ ext ≠ ".pdf".toList ∧ ext ≠ ".txt".toList ∧
          ext ≠ ".zip".toList then
        ⟨fs, send_lit env c "ERROR: Unsupported file extension for download.\n" 50, none⟩
      else
        match full_filepath (getenv_HOME env) filepath_arg ext with
        | none => ⟨fs, send_lit env c "ERROR: Unsupported file type for download.\n" 45, none⟩
        | some path =>
          match stat env.cwd fs path with
          | some (Node.file _) =>
            let s := send_file env.cwd fs c path
            if s.1 ≠ 0 then
              ⟨fs, send_lit env s.2 "ERROR: Failed to send file. File may not exist.\n" 49, none⟩
            else ⟨fs, s.2, none⟩
          | _ => ⟨fs, send_lit env c "ERROR: Specified path is not a file.\n" 38, none⟩

/-- The `removef` branch of the gateway. -/
def removef (env : Env) (fs : FS) (c : Conn) (args : Bytes) : Out :=
  match strtok args with
  | none =>
    ⟨fs, send_lit env c "ERROR: Invalid removef command format. Expected: removef <filepath>\n" 69,
      none⟩
  | some (filepath_arg, _) =>
    if strncmp_eq filepath_arg "S1/".toList 3 = false then
      ⟨fs, send_lit env c "ERROR: Path must start with 'S1/'.\n" 34, none⟩
    else
      match strrchr filepath_arg '.' with
      | none => ⟨fs, send_lit env c "ERROR: File has no extension.\n" 30, none⟩
      | some ext =>
        match full_filepath (home_dir env) filepath_arg ext with
        | none => ⟨fs, send_lit env c "ERROR: Unsupported file type for removal.\n" 44, none⟩
        | some path =>
          match stat env.cwd fs path with
          | some (Node.file _) =>
            match remove env.cwd fs path with
            | some fs1 => ⟨fs1, send_lit env c "File removed successfully.\n" 29, none⟩
            | none =>
              ⟨fs, send_lit env c "ERROR: Failed to remove file. File may not exist.\n" 51, none⟩
          | _ => ⟨fs, send_lit env c "ERROR: Specified path or file is not valid.\n" 55, none⟩

end S1

/-- Sign of the libc `strcmp(a, b)`: bytes compare as unsigned values. -/
def strcmp : Bytes → Bytes → Int
  | [], [] => 0
  | [], _ :: _ => -1
  | _ :: _, [] => 1
  | x :: xs, y :: ys => if x = y then strcmp xs ys else if x.toNat < y.toNat then -1 else 1

/-- The comparator `compare_string` of `S1.c`. -/
def compare_string (a b : Bytes) : Int := strcmp a b

/-- The call `qsort(files, count, sizeof(char *), compare_string)`. -/
def qsort (files : List Bytes) : List Bytes :=
  files.insertionSort (fun a b => compare_string a b ≤ 0)

/-- The call `strncat(dst, src, n)`. -/
def strncat (dst src : Bytes) (n : Nat) : Bytes := dst ++ src.take n

/-- The names `readdir` yields for the directory at `p`: `.`, `..` and the entries directly
below `p`, in the order the file system keeps them. -/
def FS.readdir (fs : FS) (p : CPath) : List Bytes :=
  ".".toList :: "..".toList ::
    (fs.filter (fun e => e.1 != [] && e.1.dropLast == p)).map (fun e => e.1.getLastD [])

namespace S1

/-- The buffer `dir_path` of `dispfnames` for the group stored under `base`:
`snprintf(dir_path, 512, "%s/%s/%s", home_dir, bases[i], relative)`. -/
def group_dir (env : Env) (relative : Bytes) (base : String) : Bytes :=
  snprintf 512 (home_dir env ++ '/' :: base.toList ++ '/' :: relative)

/-- The sorted names one group of `dispfnames` collects: the entries of
`$HOME/<base>/<relative>` whose last extension is `ext`; nothing when that is not a directory. -/
def group_files (env : Env) (fs : FS) (relative : Bytes) (base ext : String) : List Bytes :=
  let dir_path := group_dir env relative base
  match stat env.cwd fs dir_path with
  | some Node.dir =>
    match resolve env.cwd fs dir_path with
    | none => []
    | some p =>
      qsort ((fs.readdir p).filter (fun name =>
        name != ".".toList && name != "..".toList && (strrchr name '.' == some ext.toList)))
  | _ => []

/-- The loop that appends the names of a group, each followed by a newline, to the buffer
`combined` of 8192 bytes. -/
def append_names : Bytes → List Bytes → Bytes
  | combined, [] => combined
  | combined, name :: more =>
    let c1 := strncat combined name (8192 - combined.length - 1)
    let c2 := strncat c1 "\n".toList (8192 - c1.length - 1)
    append_names c2 more

/-- The `dispfnames` branch of the gateway.  The statement `strcpy(relative, dir_arg + 3)`
copies the argument after `S1/` and a NUL into `char relative[512]`: with more than 511 bytes
the copy runs past the end of the buffer, and what the process does from there on is the
environment's `overrun`. -/
def dispfnames (env : Env) (fs : FS) (c : Conn) (args : Bytes) : Out :=
  match strtok args with
  | none =>
    ⟨fs, send_lit env c
      "ERROR: Invalid dispfnames command format. Expected: dispfnames <directory>\n" 70, none⟩
  | some (dir_arg, _) =>
    if strncmp_eq dir_arg "S1/".toList 3 = false then
      ⟨fs, send_lit env c "ERROR: Path must start with 'S1/'.\n" 34, none⟩
    else if 512 ≤ (dir_arg.drop 3).length then
      ⟨(env.overrun (dir_arg.drop 3) fs c).1, (env.overrun (dir_arg.drop 3) fs c).2, none⟩
    else
      let relative := dir_arg.drop 3
      let check_path := snprintf 512 (home_dir env ++ "/S1/".toList ++ relative)
      match stat env.cwd fs check_path with
      | some Node.dir =>
        let combined :=
          [("S1", ".c"), ("S2", ".pdf"), ("S3", ".txt"), ("S4", ".zip")].foldl
            (fun acc g => append_names acc (group_files env fs relative g.1 g.2)) []
        ⟨fs, send_str c (if combined = [] then "No files found.\n".toList else combined), none⟩
      | _ => ⟨fs, send_lit env c "ERROR: Path does not exist.\n" 29, none⟩

/-- The `downltar` branch of the gateway. -/
def downltar (env : Env) (fs : FS) (c : Conn) (args : Bytes) : Out :=
  match strtok args with
  | none =>
    ⟨fs, send_lit env c
      "ERROR: Invalid downltar command format. Expected: downltar <filetype>\n" 68, none⟩
  | some (filetype, _) =>
    let arch : Option (String × String × String) :=
      if filetype = ".c".toList then some ("S1", ".c", "cfiles.tar")
      else if filetype = ".pdf".toList then some ("S2", ".pdf", "pdf.tar")
      else if filetype = ".txt".toList then some ("S3", ".txt", "text.tar")
      else none
    match arch with
    | none => ⟨fs, send_lit env c "ERROR: Unsupported filetype for downltar.\n" 44, none⟩
    | some (base, ext, tarname) =>
      let tar_path := snprintf 256 (home_dir env ++ '/' :: tarname.toList)
      let cmd := snprintf 2048 ("find \"".toList ++ home_dir env ++ '/' :: base.toList ++
        "\" -type f -name \"*".toList ++ ext.toList ++ "\" | tar -cf ".toList ++ tar_path ++
        " -T -".toList)
      let sys := env.system cmd fs
      if sys.1 ≠ 0 then
        ⟨sys.2, send_lit env c ("ERROR: Failed to create tar file for " ++ ext ++ " files.\n") 48,
          none⟩
      else
        let s := send_file env.cwd sys.2 c tar_path
        if s.1 = 0 then
          match remove env.cwd sys.2 tar_path with
          | some fs1 => ⟨fs1, s.2, none⟩
          | none => ⟨sys.2, s.2, none⟩
        else ⟨sys.2, send_lit env s.2 "ERROR: Failed to send tar file.\n" 31, none⟩

/-- One round of the loop `while (1)` of `prcclient` in the gateway: whether the round ends in
`continue` rather than `break`, and the outcome of the command.  (A process that SIGPIPE ended
during the round is recorded in the connection, `Conn.ended`; it finds no further read.) -/
def prcclient_step (env : Env) (net : Nat → Option Link) (fs : FS) (c : Conn) : Bool × Out :=
  let r := recv c 1023
  if r.1 = [] then (false, ⟨fs, r.2, none⟩)
  else
    match strtok (command_line r.1) with
    | none => (true, ⟨fs, r.2, none⟩)
    | some (command, args) =>
      if command = "uploadf".toList then (true, uploadf env net fs r.2 args)
      else if command = "downlf".toList then (true, downlf env fs r.2 args)
      else if command = "removef".toList then (true, removef env fs r.2 args)
      else if command = "dispfnames".toList then (true, dispfnames env fs r.2 args)
      else if command = "downltar".toList then (true, downltar env fs r.2 args)
      else if command = "exit".toList then (false, ⟨fs, r.2, none⟩)
      else (true, ⟨fs, send_lit env r.2 "ERROR: Invalid command. Try again!\n" 35, none⟩)

/-- The loop of `prcclient`, at most `fuel` rounds. -/
def prcclient_loop (env : Env) (net : Nat → Option Link) : Nat → FS → Conn → FS × Conn
  | 0, fs, c => (fs, c)
  | fuel + 1, fs, c =>
    let s := prcclient_step env net fs c
    if s.1 then prcclient_loop env net fuel s.2.fs s.2.conn else (s.2.fs, s.2.conn)

/-- The function `prcclient(client_sock)` of the gateway. -/
def prcclient (env : Env) (net : Nat → Option Link) (fs : FS) (c : Conn) : FS × Conn :=
  prcclient_loop env net c.rounds fs c

end S1

/-- A storage node as the server behind a port: it runs `prcclient` on the accepted
connection. -/
def Node.server (cfg : NodeCfg) (env : Env) : Target :=
  fun fs reads => ((Node.prcclient cfg env fs ⟨reads, [], none⟩).1,
    (Node.prcclient cfg env fs ⟨reads, [], none⟩).2.out)

/-- The network when the three storage nodes run with environment `env` and every message
arrives as one read. -/
def nodes_up (env : Env) (port : Nat) : Option Link :=
  if port = PORT_S2 then some ⟨Node.server S2 env, id, none⟩
  else if port = PORT_S3 then some ⟨Node.server S3 env, id, none⟩
  else if port = PORT_S4 then some ⟨Node.server S4 env, id, none⟩
  else none

/-! ## Notions used to state the properties -/

/-- Bytes a connection delivers before a `recv` returns `0` or `-1`. -/
def avail (inp : List Bytes) : Bytes :=
  (inp.takeWhile (fun ch => ch != [])).flatten


/-- The part of a length header after its leading white space and optional sign. -/
def headerBody (h : Bytes) : Bytes :=
  let t := h.dropWhile isspace
  if t.head? = some '-' ∨ t.head? = some '+' then t.tail else t

/-- The header carries a minus sign: it denotes a negative number. -/
def headerNegative (h : Bytes) : Prop :=
  (h.dropWhile isspace).head? = some '-'

/-- The header is not numeric: no digit follows its white space and sign. -/
def headerNonNumeric (h : Bytes) : Prop :=
  (headerBody h).takeWhile Char.isDigit = []

/-- The header denotes zero: its digits are all `0`. -/
def headerZero (h : Bytes) : Prop :=
  (headerBody h).takeWhile Char.isDigit ≠ [] ∧ ∀ ch ∈ (headerBody h).takeWhile Char.isDigit, ch = '0'

instance (h : Bytes) : Decidable (headerNegative h) := by
  unfold headerNegative; infer_instance

instance (h : Bytes) : Decidable (headerNonNumeric h) := by
  unfold headerNonNumeric; infer_instance

instance (h : Bytes) : Decidable (headerZero h) := by
  unfold headerZero; infer_instance


/-- Example file system: directories `/h` and `/h/S1`, and a stored file `/h/S1/a.c`. -/
def exFS : FS :=
  [ (["h".toList], Node.dir),
    (["h".toList, "S1".toList], Node.dir),
    (["h".toList, "S1".toList, "a.c".toList], Node.file "old".toList) ]

/-- The call of `receive_file` the gateway makes for an upload: into the local path, after
`create_directories` and `READY`. -/
def S1.staged (env : Env) (fs : FS) (c : Conn) (destination filename : Bytes) : Res :=
  receive_file env.cwd (create_directories env fs destination).2 (send_lit env c "READY\n" 6)
    (local_path env destination filename)

/-- What the gateway does after `forward_file` returned `f`. -/
def S1.relay_end (env : Env) (conn : Conn) (local_filepath : Bytes) (f : Fwd) : S1.Out :=
  if f.ret = 0 then
    match remove env.cwd f.fs local_filepath with
    | some fs1 => ⟨fs1, send_lit env conn "File created successfully.\n" 27, some f⟩
    | none => ⟨f.fs, send_lit env conn "Success but local deletion in S1 failed.\n" 50, some f⟩
  else ⟨f.fs, send_lit env conn "ERROR: Forwarding failed.\n" 26, some f⟩


/-- Canonical path a path string denotes, by its text alone: what `resolve` yields when every
directory on the way exists. -/
def canon (cwd : CPath) (path : Bytes) : CPath :=
  (components path).foldl stepComp (if path.head? = some '/' then [] else cwd)

/-- A token of a command line: non-empty, without space, CR, LF or NUL. -/
def Token (t : Bytes) : Prop :=
  t ≠ [] ∧ ∀ ch ∈ t, ch ≠ ' ' ∧ ch ≠ '\r' ∧ ch ≠ '\n' ∧ ch ≠ NUL

instance (t : Bytes) : Decidable (Token t) := by
  unfold Token; infer_instance

/-- The gateway's round for the command `uploadf F D` sent as one message, followed by the
length token and the reads `cs`, with the three storage nodes running in the same environment. -/
def S1.upload_round (env : Env) (fs : FS) (F D : Bytes) (n : Nat) (cs : List Bytes) : S1.Out :=
  (S1.prcclient_step env (nodes_up env) fs
    ⟨("uploadf ".toList ++ F ++ ' ' :: D) :: fmt_ld n :: cs, [], none⟩).2

/-- The gateway's round for the command `downlf D/F` sent as one message. -/
def S1.download_round (env : Env) (fs : FS) (F D : Bytes) : S1.Out :=
  (S1.prcclient_step env (nodes_up env) fs ⟨["downlf ".toList ++ D ++ '/' :: F], [], none⟩).2

/-- Identifier of the node that owns an extension (`S1` for an extension that is not relayed). -/
def S1.owner (ext : Bytes) : String :=
  match S1.relay_target ext with
  | some (sid, _) => sid
  | none => "S1"

/-- The upload `up` of `F` (last extension `ext`) to `D` was successful: for `.c` the gateway
answered `READY` and its success line; for `.pdf`, `.txt` and `.zip` it answered `READY` and
`File created successfully.`, the final status of the owning node was its success line, and the
copy staged by the gateway and the file written by the node are different files. -/
def S1.upload_succeeded (env : Env) (up : S1.Out) (F D ext : Bytes) : Prop :=
  if ext = ".c".toList then
    up.conn.out = ["READY\n".toList, "File uploaded successfully in S1.\n".toList]
  else
    (S1.relay_target ext).isSome = true ∧
    up.conn.out = ["READY\n".toList, "File created successfully.\n".toList] ∧
    up.relay.map Fwd.status =
      some ("File uploaded successfully to " ++ S1.owner ext ++ ".\n").toList ∧
    canon env.cwd (local_path env D F) ≠
      canon env.cwd (local_path env (S1.target_dest (S1.owner ext) D) F)

instance (env : Env) (up : S1.Out) (F D ext : Bytes) :
    Decidable (S1.upload_succeeded env up F D ext) := by
  unfold S1.upload_succeeded; infer_instance


/-- Example environment: `HOME=/h`, working directory `/`. -/
def exEnv : Env :=
  ⟨some "/h".toList, [], fun _ _ => 'x', fun _ fs => (1, fs), fun _ fs c => (fs, c)⟩

/-- Example file system in which `/h/S2` is a regular file, so that node S2 cannot make its
directories. -/
def exFS_S2file : FS :=
  [ (["h".toList], Node.dir),
    (["h".toList, "S2".toList], Node.file "x".toList) ]


/-- A destination of 605 bytes: `S1/` followed by three components of 200 bytes each. -/
def longDest : Bytes :=
  "S1/".toList ++ List.replicate 200 'a' ++ '/' :: List.replicate 200 'b' ++
    '/' :: List.replicate 200 'c'

/-- A file system in which the first 511 bytes of `/h/` followed by `longDest` name an existing
regular file. -/
def longFS : FS :=
  [ (["h".toList], Node.dir),
    (["h".toList, "S1".toList], Node.dir),
    (["h".toList, "S1".toList, List.replicate 200 'a'], Node.dir),
    (["h".toList, "S1".toList, List.replicate 200 'a', List.replicate 200 'b'], Node.dir),
    (["h".toList, "S1".toList, List.replicate 200 'a', List.replicate 200 'b',
      List.replicate 103 'c'], Node.file "old".toList) ]

/-- A file system in which the path node S2 builds for `a.pdf` under `S2/x` is an existing
directory, so that the node cannot open it for writing. -/
def exFS_nodeDir : FS :=
  [ (["h".toList], Node.dir),
    (["h".toList, "S2".toList], Node.dir),
    (["h".toList, "S2".toList, "x".toList], Node.dir),
    (["h".toList, "S2".toList, "x".toList, "a.pdf".toList], Node.dir) ]

/-- A peer that answers the first message with `READY` and then closes the connection. -/
def readyThenClose : Link :=
  ⟨fun fs _ => (fs, ["READY\n".toList]), id, none⟩

/-- The verbs the gateway's `prcclient` has a branch for. -/
def S1.verbs : List Bytes :=
  ["uploadf".toList, "downlf".toList, "removef".toList, "dispfnames".toList,
    "downltar".toList, "exit".toList]

/-- The verbs the `prcclient` of a storage node has a branch for: the program without an
archive (S4) has no `downltar` branch. -/
def Node.verbs (cfg : NodeCfg) : List Bytes :=
  if cfg.tar = none then ["uploadf".toList, "exit".toList]
  else ["uploadf".toList, "downltar".toList, "exit".toList]

/-- Names of the entries directly below the canonical path `p` whose last extension is
`ext`, in the order the file system keeps them. -/
def FS.namesWithExt (fs : FS) (p : CPath) (ext : Bytes) : List Bytes :=
  ((fs.filter (fun e => e.1 != [] && e.1.dropLast == p)).map (fun e => e.1.getLastD [])).filter
    (fun name => strrchr name '.' == some ext)

/-- The matching entries of a group: the entries of the group's directory whose last
extension is the group's; none when that directory does not exist. -/
def S1.group_entries (env : Env) (fs : FS) (relative : Bytes) (base ext : String) :
    List Bytes :=
  match stat env.cwd fs (S1.group_dir env relative base) with
  | some Node.dir =>
    match resolve env.cwd fs (S1.group_dir env relative base) with
    | none => []
    | some p => fs.namesWithExt p ext.toList
  | _ => []

/-- The names of a list, each followed by one newline. -/
def lines (names : List Bytes) : Bytes :=
  (names.map (fun name => name ++ "\n".toList)).flatten

/-- No two entries of the file system have the same canonical path. -/
def FS.wf (fs : FS) : Prop := (fs.map Prod.fst).Nodup

instance (fs : FS) : Decidable fs.wf := by
  unfold FS.wf; infer_instance

/-- The text `dispfnames` sends once it has gone through the groups: the names appended to
`combined` group after group, or the sentinel when `combined` stayed empty. -/
def S1.listing_reply (groups : List (List Bytes)) : Bytes :=
  if groups.foldl S1.append_names [] = [] then "No files found.\n".toList
  else groups.foldl S1.append_names []

/-- A file system with `a.pdf` under `/h/S2/x` and no directory `/h/S1/x`. -/
def exFS_noS1dir : FS :=
  [ (["h".toList], Node.dir),
    (["h".toList, "S1".toList], Node.dir),
    (["h".toList, "S2".toList], Node.dir),
    (["h".toList, "S2".toList, "x".toList], Node.dir),
    (["h".toList, "S2".toList, "x".toList, "a.pdf".toList], Node.file "pdf".toList) ]

/-- A file system with entries for three groups under `x` (none for S3, whose directory
does not exist); `/h/S1/x` also holds a directory `d.c` with a file inside. -/
def exFS_list : FS :=
  [ (["h".toList], Node.dir),
    (["h".toList, "S1".toList], Node.dir),
    (["h".toList, "S1".toList, "x".toList], Node.dir),
    (["h".toList, "S1".toList, "x".toList, "b.c".toList], Node.file "b".toList),
    (["h".toList, "S1".toList, "x".toList, "a.c".toList], Node.file "a".toList),
    (["h".toList, "S1".toList, "x".toList, "notes.txt".toList], Node.file "n".toList),
    (["h".toList, "S1".toList, "x".toList, "d.c".toList], Node.dir),
    (["h".toList, "S1".toList, "x".toList, "d.c".toList, "inner.c".toList],
      Node.file "i".toList),
    (["h".toList, "S2".toList], Node.dir),
    (["h".toList, "S2".toList, "x".toList], Node.dir),
    (["h".toList, "S2".toList, "x".toList, "r.pdf".toList], Node.file "r".toList),
    (["h".toList, "S4".toList], Node.dir),
    (["h".toList, "S4".toList, "x".toList], Node.dir),
    (["h".toList, "S4".toList, "x".toList, "z.zip".toList], Node.file "z".toList) ]

/-- The buffer `tmp` of `create_directories(path)` when the loop starts: the first 511 bytes of
`$HOME/<path>`, without one trailing slash. -/
def create_directories_tmp (env : Env) (path : Bytes) : Bytes :=
  if (snprintf 512 (home_dir env ++ '/' :: path)).getLast? = some '/'
  then (snprintf 512 (home_dir env ++ '/' :: path)).dropLast
  else snprintf 512 (home_dir env ++ '/' :: path)

/-- The paths `create_directories(path)` tests with `access`, in order: `tmp` cut before each
slash after its first byte, then `tmp` itself. -/
def tested_paths (env : Env) (path : Bytes) : List Bytes :=
  slashCuts (create_directories_tmp env path) ++ [create_directories_tmp env path]

/-- An environment in which every command run by `system` succeeds and leaves the archive
`/h/pdf.tar` with the contents `TAR`. -/
def exEnvTar : Env :=
  ⟨some "/h".toList, [], fun _ _ => 'x',
    fun _ fs => (0, fs.set ["h".toList, "pdf.tar".toList] (Node.file "TAR".toList)),
    fun _ fs c => (fs, c)⟩

/-- A destination of 503 bytes: `S1/` followed by components of 200, 200 and 98 bytes. -/
def longDir : Bytes :=
  "S1/".toList ++ List.replicate 200 'a' ++ '/' :: List.replicate 200 'b' ++
    '/' :: List.replicate 98 'c'

/-- Example file system with a file beside the roots: directories `/h` and `/h/S1`, and a
regular file `/h/x.c`. -/
def exFS_outside : FS :=
  [ (["h".toList], Node.dir),
    (["h".toList, "S1".toList], Node.dir),
    (["h".toList, "x.c".toList], Node.file "secret".toList) ]

/-! ## The client (`s25client.c`): the arguments of a batch `uploadf` -/

namespace Client

/-- The constant `BUFFER_SIZE`. -/
def BUFFER_SIZE : Nat := 1024

/-- The call `sscanf(input, "%s", command)`: the first run of non-space bytes, `none` when the
line has none (the call does not return 1). -/
def sscanf_s (input : Bytes) : Option Bytes :=
  if (cstr input).dropWhile isspace = [] then none
  else some (((cstr input).dropWhile isspace).takeWhile (fun ch => !isspace ch))

/-- Whether a byte is one of the delimiters `" \t\r\n"`. -/
def isDelim (ch : Char) : Bool :=
  ch == ' ' || ch == '\t' || ch == '\r' || ch == '\n'

/-- The tokens that `strtok(tmp, " \t\r\n")` and the calls `strtok(NULL, " \t\r\n")` after it
return, in order, until a call returns NULL; `cur` is the token being read. -/
def strtok_all (cur : Bytes) : Bytes → List Bytes
  | [] => if cur = [] then [] else [cur]
  | ch :: rest =>
    if isDelim ch then (if cur = [] then strtok_all [] rest else cur :: strtok_all [] rest)
    else strtok_all (cur ++ [ch]) rest

/-- The buffer `tmp`: `strncpy(tmp, input, sizeof(tmp))` and a NUL in its last byte. -/
def uploadf_tmp (input : Bytes) : Bytes :=
  (cstr input).take (BUFFER_SIZE - 1)

/-- The array `args` after the loop `while ((tok = strtok(NULL, ...)) && n < 16)`: the tokens
after the first one, at most 16 of them. -/
def uploadf_args (input : Bytes) : List Bytes :=
  ((strtok_all [] (uploadf_tmp input)).drop 1).take 16

/-- The variable `n` after `if (n > 4) n = 4;`. -/
def uploadf_n (input : Bytes) : Nat :=
  if (uploadf_args input).length > 4 then 4 else (uploadf_args input).length

/-- The variable `dest`: `args[n-1]`. -/
def uploadf_dest (input : Bytes) : Bytes :=
  (uploadf_args input).getD (uploadf_n input - 1) []

/-- The values of `onefile` in the loop: `args[0]` to `args[files_cnt - 1]`, with
`files_cnt = n - 1`. -/
def uploadf_files (input : Bytes) : List Bytes :=
  (uploadf_args input).take (uploadf_n input - 1)

/-- The buffer `percmd`: `snprintf(percmd, sizeof(percmd), "uploadf %s %s", onefile, dest)`. -/
def percmd (onefile dest : Bytes) : Bytes :=
  snprintf BUFFER_SIZE ("uploadf ".toList ++ onefile ++ ' ' :: dest)

/-- The per-file commands the `uploadf` branch of the client builds for an input line, in the
order of the loop (the loop sends them one by one and stops at the first failed `send`, `recv`
or `fopen`); none when the command is not `uploadf` or has fewer than two arguments. -/
def uploadf_percmds (input : Bytes) : List Bytes :=
  if sscanf_s input = some "uploadf".toList ∧ 2 ≤ (uploadf_args input).length then
    (uploadf_files input).map (fun onefile => percmd onefile (uploadf_dest input))
  else []

end Client

/-- A `dispfnames` argument of 510 bytes: `S1/` followed by components of 200, 200 and 105
bytes. -/
def cutArg : Bytes :=
  "S1/".toList ++ List.replicate 200 'a' ++ '/' :: List.replicate 200 'b' ++
    '/' :: List.replicate 105 'c'

/-- A file system in which the directory `cutArg` names under `/h` holds `named.c`, and the
directory named by the first 511 bytes of `/h/<cutArg>` (its last component has 103 bytes)
holds `cut.c`. -/
def exFS_cut : FS :=
  [ (["h".toList], Node.dir),
    (["h".toList, "S1".toList], Node.dir),
    (["h".toList, "S1".toList, List.replicate 200 'a'], Node.dir),
    (["h".toList, "S1".toList, List.replicate 200 'a', List.replicate 200 'b'], Node.dir),
    (["h".toList, "S1".toList, List.replicate 200 'a', List.replicate 200 'b',
      List.replicate 103 'c'], Node.dir),
    (["h".toList, "S1".toList, List.replicate 200 'a', List.replicate 200 'b',
      List.replicate 103 'c', "cut.c".toList], Node.file "x".toList),
    (["h".toList, "S1".toList, List.replicate 200 'a', List.replicate 200 'b',
      List.replicate 105 'c'], Node.dir),
    (["h".toList, "S1".toList, List.replicate 200 'a', List.replicate 200 'b',
      List.replicate 105 'c', "named.c".toList], Node.file "y".toList) ]

/-! # Properties -/


/-! ## Facts about the libc models -/

theorem digitChar_isDigit (d : Nat) (h : d < 10) : (Nat.digitChar d).isDigit = true := by
  interval_cases d <;> decide

theorem digitVal_digitChar (d : Nat) (h : d < 10) : digitVal (Nat.digitChar d) = d := by
  interval_cases d <;> decide

theorem isDigit_not_space (ch : Char) (h : ch.isDigit = true) : isspace ch = false := by
  by_contra hs
  simp only [isspace, Bool.not_eq_false, Bool.or_eq_true, beq_iff_eq] at hs
  rcases hs with ((((hs | hs) | hs) | hs) | hs) | hs <;> (subst hs; revert h; decide)

theorem isDigit_not_sign (ch : Char) (h : ch.isDigit = true) : ch ≠ '-' ∧ ch ≠ '+' := by
  constructor <;> (intro hs; subst hs; revert h; decide)

theorem digitsRev_isDigit (fuel n : Nat) : ∀ ch ∈ digitsRev fuel n, ch.isDigit = true := by
  induction fuel generalizing n with
  | zero => intro ch h; simp [digitsRev] at h
  | succ f ih =>
    intro ch h
    simp only [digitsRev, List.mem_cons] at h
    rcases h with h | h
    · subst h; exact digitChar_isDigit _ (Nat.mod_lt _ (by norm_num))
    · split at h
      · simp at h
      · exact ih _ ch h

theorem digitsRev_length (fuel n k : Nat) (hk : 0 < k) (hn : n < 10 ^ k) :
    (digitsRev fuel n).length ≤ k := by
  induction fuel generalizing n k with
  | zero => simp [digitsRev]
  | succ f ih =>
    simp only [digitsRev, List.length_cons]
    split
    · simpa using hk
    · rename_i h0
      have hk2 : 2 ≤ k := by
        by_contra hlt
        have : k = 1 := by omega
        subst this
        have : n / 10 = 0 := Nat.div_eq_of_lt (by simpa using hn)
        exact h0 this
      have : n / 10 < 10 ^ (k - 1) := by
        rw [Nat.div_lt_iff_lt_mul (by norm_num)]
        calc n < 10 ^ k := hn
          _ = 10 ^ (k - 1 + 1) := by congr 1; omega
          _ = 10 ^ (k - 1) * 10 := by rw [pow_succ]
      have := ih (n / 10) (k - 1) (by omega) this
      omega

theorem digitsRev_value (fuel n : Nat) (h : n < fuel) :
    (digitsRev fuel n).foldr (fun ch acc => 10 * acc + digitVal ch) 0 = n := by
  induction fuel generalizing n with
  | zero => omega
  | succ f ih =>
    simp only [digitsRev, List.foldr_cons]
    rw [digitVal_digitChar _ (Nat.mod_lt _ (by norm_num))]
    split
    · rename_i h0
      simp only [List.foldr_nil]
      have := Nat.div_add_mod n 10
      omega
    · rename_i h0
      have hlt : n / 10 < f := by
        have : n / 10 < n := Nat.div_lt_self (by omega) (by norm_num)
        omega
      rw [ih _ hlt]
      have := Nat.div_add_mod n 10
      omega

theorem fmt_ld_isDigit (n : Nat) : ∀ ch ∈ fmt_ld n, ch.isDigit = true := by
  intro ch h
  exact digitsRev_isDigit _ _ ch (by simpa [fmt_ld] using h)

theorem fmt_ld_ne_nil (n : Nat) : fmt_ld n ≠ [] := by
  simp [fmt_ld, digitsRev]

theorem fmt_ld_length (n : Nat) (h : (n : Int) ≤ LONG_MAX) : (fmt_ld n).length ≤ 19 := by
  have hn : n < 10 ^ 19 := by
    have : (n : Int) < 10 ^ 19 := lt_of_le_of_lt h (by norm_num [LONG_MAX])
    exact_mod_cast this
  simpa [fmt_ld] using digitsRev_length (n + 1) n 19 (by norm_num) hn

theorem digitsVal_fmt_ld (n : Nat) : digitsVal (fmt_ld n) = n := by
  unfold digitsVal
  rw [List.takeWhile_eq_self_iff.mpr (fmt_ld_isDigit n)]
  rw [fmt_ld, List.foldl_reverse]
  exact digitsRev_value (n + 1) n (by omega)

theorem atol_fmt_ld (n : Nat) (h : (n : Int) ≤ LONG_MAX) : atol (fmt_ld n) = n := by
  have hd := fmt_ld_isDigit n
  have hne := fmt_ld_ne_nil n
  obtain ⟨x, xs, hx⟩ := List.exists_cons_of_ne_nil hne
  have hxd : x.isDigit = true := hd x (by simp [hx])
  have hdrop : (fmt_ld n).dropWhile isspace = fmt_ld n := by
    rw [hx, List.dropWhile_cons, isDigit_not_space x hxd]; simp
  unfold atol
  simp only [hdrop]
  have hs := isDigit_not_sign x hxd
  have h1 : (fmt_ld n).head? ≠ some '-' := by rw [hx]; simpa using hs.1
  have h2 : (fmt_ld n).head? ≠ some '+' := by rw [hx]; simpa using hs.2
  rw [if_neg h1, if_neg h2, digitsVal_fmt_ld]
  exact min_eq_right h

theorem snprintf_fmt_ld (n : Nat) (h : (n : Int) ≤ LONG_MAX) : snprintf 64 (fmt_ld n) = fmt_ld n := by
  have := fmt_ld_length n h
  simp only [snprintf]
  exact List.take_of_length_le (by omega)

theorem send_open (c : Conn) (msg : Bytes) (h : c.wlim = none) :
    send c msg = (true, { c with out := c.out ++ [msg] }) := by
  simp [send, h]

theorem send_loop_open (fuel : Nat) (rest : Bytes) (eof : Bool) (c : Conn)
    (hup : c.wlim = none) (hfuel : eof = true ∨ rest.length / BUFFER_SIZE + 2 ≤ fuel) :
    send_loop fuel rest eof c =
      (true, { c with out := (send_loop fuel rest eof c).2.out }) ∧
    (send_loop fuel rest eof c).2.out.flatten =
      c.out.flatten ++ (if eof then [] else rest) := by
  induction fuel generalizing rest eof c with
  | zero =>
    rcases hfuel with h | h
    · subst h; simp [send_loop]
    · exact absurd h (Nat.not_succ_le_zero _)
  | succ f ih =>
    unfold send_loop
    by_cases he : eof = true
    · subst he; simp
    · simp only [he, Bool.false_eq_true, if_false]
      have hfuel2 : rest.length / BUFFER_SIZE + 2 ≤ f + 1 := by
        rcases hfuel with h | h
        · exact absurd h he
        · exact h
      have hB : BUFFER_SIZE = 1024 := rfl
      by_cases hlen : (List.take BUFFER_SIZE rest).length > 0
      · simp only [hlen, if_true]
        rw [send_open c _ hup]
        simp only
        have hnext : (decide ((List.take BUFFER_SIZE rest).length < BUFFER_SIZE)) = true ∨
            (rest.drop BUFFER_SIZE).length / BUFFER_SIZE + 2 ≤ f := by
          by_cases hshort : rest.length < BUFFER_SIZE
          · left; simp [List.length_take]; omega
          · right
            simp only [List.length_drop]
            have : (rest.length - BUFFER_SIZE) / BUFFER_SIZE + 1 = rest.length / BUFFER_SIZE := by
              rw [hB] at hshort ⊢; omega
            omega
        obtain ⟨h1, h2⟩ := ih (rest.drop BUFFER_SIZE) _ { c with out := c.out ++ [rest.take BUFFER_SIZE] } hup hnext
        constructor
        · rw [h1]
        · rw [h2]
          simp only [List.flatten_append, List.flatten_cons, List.flatten_nil, List.append_nil,
            List.append_assoc]
          congr 1
          by_cases hshort : rest.length < BUFFER_SIZE
          · have : (List.take BUFFER_SIZE rest).length < BUFFER_SIZE := by
              simp [List.length_take]; omega
            simp only [this, decide_True, if_true, List.append_nil]
            exact List.take_of_length_le (by omega)
          · have : ¬ (List.take BUFFER_SIZE rest).length < BUFFER_SIZE := by
              simp [List.length_take]; omega
            simp only [this, decide_False, Bool.false_eq_true, if_false]
            exact List.take_append_drop _ _
      · simp only [hlen, if_false]
        have hnil : rest = [] := by
          have : (List.take BUFFER_SIZE rest).length = 0 := by omega
          simp [List.length_take, hB] at this
          exact this
        subst hnil
        have hnext : (decide ((List.take BUFFER_SIZE ([] : Bytes)).length < BUFFER_SIZE)) = true ∨
            (([] : Bytes).drop BUFFER_SIZE).length / BUFFER_SIZE + 2 ≤ f := by
          left; simp [hB]
        obtain ⟨h1, h2⟩ := ih (([] : Bytes).drop BUFFER_SIZE) _ c hup hnext
        constructor
        · rw [h1]
        · rw [h2]; simp [hB]

/-- C2. `send_file` on an existing regular file with contents `b` (whose size fits a `long`), over
a connection on which `send` does not fail, returns 0, and the bytes it puts on the connection are
the decimal digits of the length of `b` followed at once by `b`, and nothing else. -/
theorem send_file_framing (cwd : CPath) (fs : FS) (c : Conn) (filepath b : Bytes)
    (hfile : stat cwd fs filepath = some (Node.file b))
    (hsize : (b.length : Int) ≤ LONG_MAX)
    (hup : c.wlim = none) :
    (send_file cwd fs c filepath).1 = 0 ∧
    (send_file cwd fs c filepath).2.sent = c.sent ++ (fmt_ld b.length ++ b) := by
  have hopen : fopen_rb cwd fs filepath = some b := by simp [fopen_rb, hfile]
  unfold send_file
  simp only [hopen, snprintf_fmt_ld _ hsize, send_open c _ hup]
  have hfuel : false = true ∨ b.length / BUFFER_SIZE + 2 ≤ b.length + 2 := by
    right; have := Nat.div_le_self b.length BUFFER_SIZE; omega
  obtain ⟨h1, h2⟩ := send_loop_open (b.length + 2) b false
    { c with out := c.out ++ [fmt_ld b.length] } hup hfuel
  rw [h1]
  refine ⟨rfl, ?_⟩
  simp only [Conn.sent]
  rw [h2]
  simp [List.flatten_append]

/-- Witness for `send_file_framing`: a five-byte file. -/
theorem send_file_framing_witness :
    (send_file [] [(["f".toList], Node.file "hello".toList)] ⟨[], [], none⟩ "/f".toList).1 = 0 ∧
    (send_file [] [(["f".toList], Node.file "hello".toList)] ⟨[], [], none⟩ "/f".toList).2.sent
      = (⟨[], [], none⟩ : Conn).sent ++ (fmt_ld "hello".toList.length ++ "hello".toList) :=
  send_file_framing [] [(["f".toList], Node.file "hello".toList)] ⟨[], [], none⟩ "/f".toList
    "hello".toList (by decide) (by decide) rfl

/-! ## Facts about the file system -/

theorem FS.get_set_same (fs : FS) (p : CPath) (n : Node) (hp : p ≠ []) :
    (fs.set p n).get p = some n := by
  simp [FS.get, FS.set, hp]

theorem find_filter_ne (fs : FS) (p q : CPath) (hq : q ≠ p) :
    (fs.filter (fun e => e.1 != p)).find? (fun e => e.1 == q) = fs.find? (fun e => e.1 == q) := by
  induction fs with
  | nil => rfl
  | cons e es ih =>
    rcases e with ⟨k, v⟩
    by_cases hkp : k = p
    · subst hkp
      have hkq : ¬ k = q := fun h => hq h.symm
      simp [List.filter_cons, List.find?_cons, hkq, ih]
    · by_cases hkq : k = q
      · subst hkq
        simp [List.filter_cons, List.find?_cons, hkp]
      · simp [List.filter_cons, List.find?_cons, hkp, hkq, ih]

theorem FS.get_set_other (fs : FS) (p q : CPath) (n : Node) (hq : q ≠ p) :
    (fs.set p n).get q = fs.get q := by
  unfold FS.get FS.set
  by_cases hq0 : q = []
  · simp [hq0]
  · simp only [hq0, if_false]
    have hpq : ¬ p = q := fun h => hq h.symm
    have hb : (p == q) = false := by simpa using hpq
    rw [List.find?_cons]
    simp only [hb]
    rw [find_filter_ne fs p q hq]

theorem FS.get_erase_other (fs : FS) (p q : CPath) (hq : q ≠ p) :
    (fs.erase p).get q = fs.get q := by
  unfold FS.get FS.erase
  rw [find_filter_ne fs p q hq]

theorem FS.get_erase_same (fs : FS) (p : CPath) (hp : p ≠ []) :
    (fs.erase p).get p = none := by
  simp [FS.get, FS.erase, hp]

/-- A walk that succeeds still succeeds, with the same result, in a file system
that has kept every directory. -/
theorem walk_mono (fs fs1 : FS) (h : ∀ q, fs.get q = some Node.dir → fs1.get q = some Node.dir)
    (cur : CPath) (comps : List Bytes) (r : CPath) (hw : walk fs cur comps = some r) :
    walk fs1 cur comps = some r := by
  induction comps generalizing cur with
  | nil => simpa [walk] using hw
  | cons comp more ih =>
    simp only [walk] at hw ⊢
    split at hw
    · rename_i hd
      rw [if_pos (h _ hd)]
      exact ih _ hw
    · exact absurd hw (by simp)

theorem resolve_mono (cwd : CPath) (fs fs1 : FS)
    (h : ∀ q, fs.get q = some Node.dir → fs1.get q = some Node.dir)
    (path : Bytes) (r : CPath) (hr : resolve cwd fs path = some r) :
    resolve cwd fs1 path = some r := by
  unfold resolve at hr ⊢
  split at hr
  · exact absurd hr (by simp)
  · rename_i hne
    rw [if_neg hne]
    exact walk_mono fs fs1 h _ _ _ hr

/-! ## Facts about `recv` and the receive loop -/

theorem avail_nil : avail [] = [] := rfl

theorem avail_cons_nil (rest : List Bytes) : avail ([] :: rest) = [] := by
  simp [avail, List.takeWhile_cons]

theorem avail_cons (ch : Bytes) (rest : List Bytes) (h : ch ≠ []) :
    avail (ch :: rest) = ch ++ avail rest := by
  simp [avail, List.takeWhile_cons, h]

theorem recv_out (c : Conn) (cap : Nat) :
    (recv c cap).2.out = c.out ∧ (recv c cap).2.wlim = c.wlim := by
  unfold recv
  split
  · simp
  · split <;> simp

theorem recv_avail_nil (c : Conn) (cap : Nat) (h : avail c.inp = []) : (recv c cap).1 = [] := by
  unfold recv
  split
  · rfl
  · rename_i ch rest hinp
    by_cases hch : ch = []
    · subst hch; simp
    · rw [hinp, avail_cons ch rest hch] at h
      simp at h
      exact absurd h.1 hch

theorem recv_avail_cons (c : Conn) (cap : Nat) (hcap : 0 < cap) (h : avail c.inp ≠ []) :
    (recv c cap).1 ≠ [] ∧ (recv c cap).1.length ≤ cap ∧
    avail c.inp = (recv c cap).1 ++ avail (recv c cap).2.inp := by
  unfold recv
  split
  · rename_i hinp; rw [hinp] at h; exact absurd avail_nil h
  · rename_i ch rest hinp
    have hch : ch ≠ [] := by
      intro hnil; subst hnil; rw [hinp, avail_cons_nil] at h; exact h rfl
    rw [hinp, avail_cons ch rest hch]
    split
    · rename_i hle
      exact ⟨hch, hle, rfl⟩
    · rename_i hgt
      have hdrop : ch.drop cap ≠ [] := by
        intro hd
        have := congrArg List.length hd
        simp at this
        omega
      refine ⟨?_, ?_, ?_⟩
      · intro ht
        have := congrArg List.length ht
        simp only [List.length_take, List.length_nil] at this
        omega
      · exact List.length_take_le _ _
      · simp only
        rw [avail_cons _ rest hdrop, ← List.append_assoc, List.take_append_drop]

/-- The receive loop succeeds when the connection delivers at least `remaining`
bytes: it writes exactly the next `remaining` bytes and leaves the rest unread. -/
theorem recv_loop_ok (fuel remaining : Nat) (c : Conn) (acc : Bytes)
    (hfuel : remaining ≤ fuel) (hav : remaining ≤ (avail c.inp).length) :
    (recv_loop fuel remaining c acc).1 = true ∧
    (recv_loop fuel remaining c acc).2.1 = acc ++ (avail c.inp).take remaining ∧
    avail (recv_loop fuel remaining c acc).2.2.inp = (avail c.inp).drop remaining ∧
    (recv_loop fuel remaining c acc).2.2.out = c.out ∧
    (recv_loop fuel remaining c acc).2.2.wlim = c.wlim := by
  induction fuel generalizing remaining c acc with
  | zero =>
    have : remaining = 0 := by omega
    subst this
    simp [recv_loop]
  | succ f ih =>
    unfold recv_loop
    by_cases h0 : remaining = 0
    · subst h0; simp
    · simp only [h0, if_false]
      have hB : BUFFER_SIZE = 1024 := rfl
      have hcap : 0 < (if remaining < BUFFER_SIZE then remaining else BUFFER_SIZE) := by
        split <;> omega
      have hcaple : (if remaining < BUFFER_SIZE then remaining else BUFFER_SIZE) ≤ remaining := by
        split <;> omega
      have hne : avail c.inp ≠ [] := by
        intro hnil; rw [hnil] at hav; simp at hav; exact h0 hav
      obtain ⟨hgot, hlen, hsplit⟩ := recv_avail_cons c _ hcap hne
      obtain ⟨hout, hw⟩ := recv_out c (if remaining < BUFFER_SIZE then remaining else BUFFER_SIZE)
      generalize recv c (if remaining < BUFFER_SIZE then remaining else BUFFER_SIZE) = r at *
      simp only [hgot, if_false]
      have hgl : 0 < r.1.length := List.length_pos.mpr hgot
      have hav2 : remaining - r.1.length ≤ (avail r.2.inp).length := by
        rw [hsplit] at hav; simp at hav; omega
      obtain ⟨i1, i2, i3, i4, i5⟩ := ih (remaining - r.1.length) r.2 (acc ++ r.1) (by omega) hav2
      have hle : r.1.length ≤ remaining := by omega
      refine ⟨i1, ?_, ?_, by rw [i4, hout], by rw [i5, hw]⟩
      · rw [i2, hsplit, List.take_append_eq_append_take, List.append_assoc,
          List.take_of_length_le hle]
      · rw [i3, hsplit, List.drop_append_eq_append_drop, List.drop_of_length_le hle]
        simp

/-- The receive loop fails when the connection delivers fewer than `remaining`
bytes before a `recv` returns `0` or `-1`; it has then written all of them. -/
theorem recv_loop_short (fuel remaining : Nat) (c : Conn) (acc : Bytes)
    (hfuel : (avail c.inp).length < fuel) (hav : (avail c.inp).length < remaining) :
    (recv_loop fuel remaining c acc).1 = false ∧
    (recv_loop fuel remaining c acc).2.1 = acc ++ avail c.inp := by
  induction fuel generalizing remaining c acc with
  | zero => omega
  | succ f ih =>
    unfold recv_loop
    have h0 : remaining ≠ 0 := by omega
    simp only [h0, if_false]
    have hB : BUFFER_SIZE = 1024 := rfl
    have hcap : 0 < (if remaining < BUFFER_SIZE then remaining else BUFFER_SIZE) := by
      split <;> omega
    have hcaple : (if remaining < BUFFER_SIZE then remaining else BUFFER_SIZE) ≤ remaining := by
      split <;> omega
    by_cases hne : avail c.inp = []
    · have := recv_avail_nil c (if remaining < BUFFER_SIZE then remaining else BUFFER_SIZE) hne
      simp [this, hne]
    · obtain ⟨hgot, hlen, hsplit⟩ := recv_avail_cons c _ hcap hne
      generalize recv c (if remaining < BUFFER_SIZE then remaining else BUFFER_SIZE) = r at *
      simp only [hgot, if_false]
      have hgl : 0 < r.1.length := List.length_pos.mpr hgot
      have hl : (avail c.inp).length = r.1.length + (avail r.2.inp).length := by
        rw [hsplit]; simp
      obtain ⟨i1, i2⟩ := ih (remaining - r.1.length) r.2 (acc ++ r.1) (by omega) (by omega)
      refine ⟨i1, ?_⟩
      rw [i2, hsplit, List.append_assoc]

/-! ## Facts about `fopen` and `receive_file` -/

theorem fopen_wb_some (cwd : CPath) (fs fs1 : FS) (path : Bytes) (fp : CPath)
    (h : fopen_wb cwd fs path = some (fs1, fp)) :
    trailingSlash path = false ∧ resolve cwd fs path = some fp ∧
    fs.get fp ≠ some Node.dir ∧ fp ≠ [] ∧ fs1 = fs.set fp (Node.file []) := by
  unfold fopen_wb at h
  split at h
  · exact absurd h (by simp)
  · rename_i hts
    split at h
    · exact absurd h (by simp)
    · rename_i p hres
      have hroot : ∀ q : CPath, fs.get q ≠ some Node.dir → q ≠ [] := by
        intro q hq hnil; subst hnil; exact hq (by simp [FS.get])
      split at h
      · exact absurd h (by simp)
      · rename_i d hget
        simp only [Option.some.injEq, Prod.mk.injEq] at h
        obtain ⟨h1, h2⟩ := h
        subst h2
        have hnd : fs.get p ≠ some Node.dir := by rw [hget]; simp
        exact ⟨by simpa using hts, hres, hnd, hroot p hnd, h1.symm⟩
      · rename_i hget
        split at h
        · simp only [Option.some.injEq, Prod.mk.injEq] at h
          obtain ⟨h1, h2⟩ := h
          subst h2
          have hnd : fs.get p ≠ some Node.dir := by rw [hget]; simp
          exact ⟨by simpa using hts, hres, hnd, hroot p hnd, h1.symm⟩
        · exact absurd h (by simp)

/-- Reading back a file that was just opened for writing and filled with `data`. -/
theorem stat_after_write (cwd : CPath) (fs : FS) (path : Bytes) (fp : CPath) (d0 data : Bytes)
    (hts : trailingSlash path = false) (hres : resolve cwd fs path = some fp)
    (hnd : fs.get fp ≠ some Node.dir) (hfp : fp ≠ []) :
    stat cwd ((fs.set fp (Node.file d0)).set fp (Node.file data)) path = some (Node.file data) := by
  have hmono : ∀ q, fs.get q = some Node.dir →
      ((fs.set fp (Node.file d0)).set fp (Node.file data)).get q = some Node.dir := by
    intro q hq
    have hne : q ≠ fp := by intro h; subst h; exact hnd hq
    rw [FS.get_set_other _ _ _ _ hne, FS.get_set_other _ _ _ _ hne]
    exact hq
  unfold stat
  rw [resolve_mono cwd fs _ hmono path fp hres]
  simp only [FS.get_set_same _ _ _ hfp, hts]
  simp

/-- Receiving a header without a positive value fails before the file is opened. -/
theorem receive_file_nonpos (cwd : CPath) (fs : FS) (c : Conn) (filepath : Bytes)
    (h : atol (recv c 63).1 ≤ 0) :
    (receive_file cwd fs c filepath).ret = -1 ∧ (receive_file cwd fs c filepath).fs = fs := by
  unfold receive_file
  simp only
  split
  · exact ⟨rfl, rfl⟩
  · exact ⟨rfl, rfl⟩


/-- What `receive_file` does once the header has a positive value and the file is open. -/
theorem receive_file_open (cwd : CPath) (fs fs1 : FS) (c : Conn) (filepath : Bytes) (fp : CPath)
    (hpos : 0 < atol (recv c 63).1)
    (hopen : fopen_wb cwd fs filepath = some (fs1, fp)) :
    receive_file cwd fs c filepath =
      ⟨if (recv_loop (atol (recv c 63).1).toNat (atol (recv c 63).1).toNat (recv c 63).2 []).1
          then 0 else -1,
        fs1.set fp (Node.file
          (recv_loop (atol (recv c 63).1).toNat (atol (recv c 63).1).toNat (recv c 63).2 []).2.1),
        (recv_loop (atol (recv c 63).1).toNat (atol (recv c 63).1).toNat (recv c 63).2 []).2.2⟩ := by
  have hne : (recv c 63).1 ≠ [] := by
    intro h
    rw [h] at hpos
    exact absurd hpos (by decide)
  unfold receive_file
  simp only [hne, if_false, not_le.mpr hpos, hopen]

theorem foldl_zero_digits (l : Bytes) (h : ∀ ch ∈ l, ch = '0') :
    l.foldl (fun acc ch => 10 * acc + digitVal ch) 0 = 0 := by
  induction l with
  | nil => rfl
  | cons x xs ih =>
    have hx : x = '0' := h x (by simp)
    subst hx
    simp only [List.foldl_cons]
    have : 10 * 0 + digitVal '0' = 0 := by decide
    rw [this]
    exact ih (fun ch hch => h ch (by simp [hch]))

theorem atol_nonpos (h : Bytes)
    (hbad : headerNegative h ∨ headerNonNumeric h ∨ headerZero h) : atol h ≤ 0 := by
  unfold atol
  simp only
  by_cases hneg : (h.dropWhile isspace).head? = some '-'
  · rw [if_pos hneg]
    apply max_le
    · decide
    · omega
  · rw [if_neg hneg]
    have hz : ∀ ch ∈ (headerBody h).takeWhile Char.isDigit, ch = '0' := by
      rcases hbad with hb | hb | hb
      · exact absurd hb hneg
      · intro ch hch
        rw [hb] at hch
        simp at hch
      · exact hb.2
    have hv : digitsVal (headerBody h) = 0 := foldl_zero_digits _ hz
    by_cases hplus : (h.dropWhile isspace).head? = some '+'
    · rw [if_pos hplus]
      have hbody : headerBody h = (h.dropWhile isspace).tail := by
        simp [headerBody, hplus]
      rw [← hbody, hv]
      decide
    · rw [if_neg hplus]
      have hbody : headerBody h = h.dropWhile isspace := by
        simp [headerBody, hplus, hneg]
      rw [← hbody, hv]
      decide

/-- C3 (as amended). When the first read delivers exactly the decimal length token of a
non-empty payload `b` (whose length fits a `long`), the bytes of `b` follow on the connection,
split across reads in any way, and the destination can be opened for writing, `receive_file`
returns 0 and the destination file then holds exactly `b`. -/
theorem receive_file_header_alone (cwd : CPath) (fs : FS) (c : Conn) (filepath b : Bytes)
    (rest : List Bytes) (more : Bytes)
    (hb : b ≠ []) (hsize : (b.length : Int) ≤ LONG_MAX)
    (hin : c.inp = fmt_ld b.length :: rest)
    (hpay : avail rest = b ++ more)
    (hopen : (fopen_wb cwd fs filepath).isSome = true) :
    (receive_file cwd fs c filepath).ret = 0 ∧
    stat cwd (receive_file cwd fs c filepath).fs filepath = some (Node.file b) := by
  have hlen := fmt_ld_length b.length hsize
  have hrecv : recv c 63 = (fmt_ld b.length, { c with inp := rest }) := by
    unfold recv
    rw [hin]
    simp only
    rw [if_pos (by omega)]
  have hat : atol (recv c 63).1 = b.length := by rw [hrecv]; exact atol_fmt_ld _ hsize
  have hbl : 0 < b.length := List.length_pos.mpr hb
  obtain ⟨⟨fs1, fp⟩, hfo⟩ := Option.isSome_iff_exists.mp hopen
  obtain ⟨hts, hres, hnd, hfp, hfs1⟩ := fopen_wb_some cwd fs fs1 filepath fp hfo
  rw [receive_file_open cwd fs fs1 c filepath fp (by rw [hat]; exact_mod_cast hbl) hfo]
  simp only [hat, Int.toNat_ofNat]
  have hav : b.length ≤ (avail (recv c 63).2.inp).length := by
    rw [hrecv]; simp [hpay]
  obtain ⟨l1, l2, -, -, -⟩ := recv_loop_ok b.length b.length (recv c 63).2 [] le_rfl hav
  rw [l1, l2]
  have htake : (avail (recv c 63).2.inp).take b.length = b := by
    rw [hrecv]; simp [hpay]
  simp only [List.nil_append, htake, if_true, true_and]
  rw [hfs1]
  exact stat_after_write cwd fs filepath fp [] b hts hres hnd hfp

/-- C4. When the header declares a length `n > 0` and the connection delivers fewer than `n`
payload bytes before a read returns `0` or an error, `receive_file` returns `-1`. -/
theorem receive_file_truncated (cwd : CPath) (fs : FS) (c : Conn) (filepath : Bytes)
    (hpos : 0 < atol (recv c 63).1)
    (hshort : ((avail (recv c 63).2.inp).length : Int) < atol (recv c 63).1) :
    (receive_file cwd fs c filepath).ret = -1 := by
  cases hfo : fopen_wb cwd fs filepath with
  | none =>
    unfold receive_file
    simp only [hfo]
    split
    · rfl
    · split <;> rfl
  | some v =>
    obtain ⟨fs1, fp⟩ := v
    rw [receive_file_open cwd fs fs1 c filepath fp hpos hfo]
    have hlt : (avail (recv c 63).2.inp).length < (atol (recv c 63).1).toNat := by omega
    obtain ⟨l1, -⟩ := recv_loop_short _ _ (recv c 63).2 [] hlt hlt
    simp [l1]

/-- C5. When the length header denotes a negative number, is not numeric, or denotes zero,
`receive_file` returns `-1` and the file system is exactly as before: the destination is
neither created nor modified. -/
theorem receive_file_bad_framing (cwd : CPath) (fs : FS) (c : Conn) (filepath : Bytes)
    (hbad : headerNegative (recv c 63).1 ∨ headerNonNumeric (recv c 63).1 ∨
      headerZero (recv c 63).1) :
    (receive_file cwd fs c filepath).ret = -1 ∧ (receive_file cwd fs c filepath).fs = fs :=
  receive_file_nonpos cwd fs c filepath (atol_nonpos _ hbad)

/-- C6 (as amended). When `receive_file` returns `-1`, either the file system is exactly as
before (the failure came before the file was opened), or the destination file holds exactly
the payload bytes that arrived before the connection stopped delivering, fewer than the
declared length, and every other path is as before. -/
theorem receive_file_failure_effect (cwd : CPath) (fs : FS) (c : Conn) (filepath : Bytes)
    (hfail : (receive_file cwd fs c filepath).ret = -1) :
    (receive_file cwd fs c filepath).fs = fs ∨
    ∃ fp, resolve cwd fs filepath = some fp ∧
      (receive_file cwd fs c filepath).fs.get fp = some (Node.file (avail (recv c 63).2.inp)) ∧
      ((avail (recv c 63).2.inp).length : Int) < atol (recv c 63).1 ∧
      ∀ q, q ≠ fp → (receive_file cwd fs c filepath).fs.get q = fs.get q := by
  by_cases hpos : 0 < atol (recv c 63).1
  · cases hfo : fopen_wb cwd fs filepath with
    | none =>
      left
      unfold receive_file
      simp only [hfo]
      split
      · rfl
      · split <;> rfl
    | some v =>
      obtain ⟨fs1, fp⟩ := v
      right
      obtain ⟨hts, hres, hnd, hfp, hfs1⟩ := fopen_wb_some cwd fs fs1 filepath fp hfo
      rw [receive_file_open cwd fs fs1 c filepath fp hpos hfo] at hfail ⊢
      by_cases hlt : (avail (recv c 63).2.inp).length < (atol (recv c 63).1).toNat
      · obtain ⟨-, l2⟩ := recv_loop_short _ _ (recv c 63).2 [] hlt hlt
        refine ⟨fp, hres, ?_, by omega, ?_⟩
        · simp only [l2, List.nil_append]
          exact FS.get_set_same _ _ _ hfp
        · intro q hq
          simp only
          rw [FS.get_set_other _ _ _ _ hq, hfs1, FS.get_set_other _ _ _ _ hq]
      · obtain ⟨l1, -⟩ := recv_loop_ok (atol (recv c 63).1).toNat (atol (recv c 63).1).toNat
          (recv c 63).2 [] le_rfl (by omega)
        simp [l1] at hfail
  · left
    exact (receive_file_nonpos cwd fs c filepath (by omega)).2

/-- C3, counterexample.  The payload is `abc`; the first read delivers the token `3` together
with `ab`, and `c` follows.  If the sender then stops, `receive_file` returns `-1` and the file
holds `c`; if another message (`exit`) follows, it returns `0` and the file holds `cex`. -/
theorem receive_file_coalesced_header :
    (receive_file [] exFS ⟨[fmt_ld 3 ++ "ab".toList, "c".toList], [], none⟩ "/h/S1/b.c".toList).ret
      = -1 ∧
    stat [] (receive_file [] exFS ⟨[fmt_ld 3 ++ "ab".toList, "c".toList], [], none⟩
      "/h/S1/b.c".toList).fs "/h/S1/b.c".toList = some (Node.file "c".toList) ∧
    (receive_file [] exFS ⟨[fmt_ld 3 ++ "ab".toList, "c".toList, "exit".toList], [], none⟩
      "/h/S1/b.c".toList).ret = 0 ∧
    stat [] (receive_file [] exFS ⟨[fmt_ld 3 ++ "ab".toList, "c".toList, "exit".toList], [], none⟩
      "/h/S1/b.c".toList).fs "/h/S1/b.c".toList = some (Node.file "cex".toList) := by
  decide

/-- Witness for `receive_file_header_alone`: the token `3` alone, then `ab` and `c`. -/
theorem receive_file_header_alone_witness :
    (receive_file [] exFS ⟨["3".toList, "ab".toList, "c".toList], [], none⟩ "/h/S1/b.c".toList).ret
      = 0 ∧
    stat [] (receive_file [] exFS ⟨["3".toList, "ab".toList, "c".toList], [], none⟩
      "/h/S1/b.c".toList).fs "/h/S1/b.c".toList = some (Node.file "abc".toList) :=
  receive_file_header_alone [] exFS ⟨["3".toList, "ab".toList, "c".toList], [], none⟩
    "/h/S1/b.c".toList "abc".toList ["ab".toList, "c".toList] [] (by decide) (by decide)
    (by decide) (by decide) (by decide)

/-- Witness for `receive_file_truncated`: five bytes declared, two delivered. -/
theorem receive_file_truncated_witness :
    (receive_file [] exFS ⟨["5".toList, "ab".toList], [], none⟩ "/h/S1/b.c".toList).ret = -1 :=
  receive_file_truncated [] exFS ⟨["5".toList, "ab".toList], [], none⟩ "/h/S1/b.c".toList
    (by decide) (by decide)

/-- Witness for `receive_file_bad_framing`: the header `-7`. -/
theorem receive_file_bad_framing_witness :
    (receive_file [] exFS ⟨["-7".toList, "abcdefg".toList], [], none⟩ "/h/S1/a.c".toList).ret = -1 ∧
    (receive_file [] exFS ⟨["-7".toList, "abcdefg".toList], [], none⟩ "/h/S1/a.c".toList).fs
      = exFS :=
  receive_file_bad_framing [] exFS ⟨["-7".toList, "abcdefg".toList], [], none⟩ "/h/S1/a.c".toList
    (Or.inl (by decide))

/-- C6, counterexample.  The stored file `/h/S1/a.c` holds `old`; an upload declares five
bytes and the connection closes after `ab`.  `receive_file` returns `-1` and the file now
holds `ab`, a proper part of the declared payload. -/
theorem receive_file_leaves_partial_file :
    stat [] exFS "/h/S1/a.c".toList = some (Node.file "old".toList) ∧
    (receive_file [] exFS ⟨["5".toList, "ab".toList], [], none⟩ "/h/S1/a.c".toList).ret = -1 ∧
    stat [] (receive_file [] exFS ⟨["5".toList, "ab".toList], [], none⟩ "/h/S1/a.c".toList).fs
      "/h/S1/a.c".toList = some (Node.file "ab".toList) := by
  decide

/-- Witness for `receive_file_failure_effect`: the truncated upload above. -/
theorem receive_file_failure_effect_witness :
    (receive_file [] exFS ⟨["5".toList, "ab".toList], [], none⟩ "/h/S1/a.c".toList).fs = exFS ∨
    ∃ fp, resolve [] exFS "/h/S1/a.c".toList = some fp ∧
      (receive_file [] exFS ⟨["5".toList, "ab".toList], [], none⟩ "/h/S1/a.c".toList).fs.get fp
        = some (Node.file (avail (recv ⟨["5".toList, "ab".toList], [], none⟩ 63).2.inp)) ∧
      ((avail (recv ⟨["5".toList, "ab".toList], [], none⟩ 63).2.inp).length : Int)
        < atol (recv ⟨["5".toList, "ab".toList], [], none⟩ 63).1 ∧
      ∀ q, q ≠ fp →
        (receive_file [] exFS ⟨["5".toList, "ab".toList], [], none⟩ "/h/S1/a.c".toList).fs.get q
          = exFS.get q :=
  receive_file_failure_effect [] exFS ⟨["5".toList, "ab".toList], [], none⟩ "/h/S1/a.c".toList
    (by decide)

/-! ## Facts about replies -/

theorem lit_bytes_le (env : Env) (lit : Bytes) (n : Nat) (h : n ≤ lit.length) :
    lit_bytes env lit n = lit.take n := by
  unfold lit_bytes
  rw [List.take_append_of_le_length h]

theorem lit_bytes_exact (env : Env) (lit : Bytes) (n : Nat) (h : n = lit.length) :
    lit_bytes env lit n = lit := by
  rw [lit_bytes_le env lit n (by omega), h, List.take_length]

theorem send_lit_exact (env : Env) (c : Conn) (lit : String) (n : Nat) (h : n = lit.toList.length) :
    send_lit env c lit n = send_str c lit.toList := by
  unfold send_lit send_str
  rw [lit_bytes_exact env _ n h]

/-- C10. A storage node (S2 for `.pdf`, S3 for `.txt`, S4 for `.zip`) that receives
`uploadf <filename> <dest>` with a file name whose last extension is missing or is not the node's
own sends its only-`<ext>`-allowed error line as its one reply (so no `READY`), leaves the file
system exactly as it was (no directory made, no file written), and goes on to the next
command. -/
theorem node_rejects_foreign_type (cfg : NodeCfg) (env : Env) (fs : FS) (c : Conn)
    (args filename args1 destination args2 : Bytes)
    (hcfg : cfg = S2 ∨ cfg = S3 ∨ cfg = S4)
    (hcmd : strtok (command_line (recv c 1023).1) = some ("uploadf".toList, args))
    (hfile : strtok args = some (filename, args1))
    (hdest : strtok args1 = some (destination, args2))
    (hext : strrchr filename '.' ≠ some cfg.ext.toList) :
    Node.prcclient_step cfg env fs c =
      (true, fs, send_str (recv c 1023).2
        ("ERROR: Only " ++ cfg.ext ++ " files allowed in " ++ cfg.id ++ ".\n").toList) := by
  have hne : (recv c 1023).1 ≠ [] := by
    intro h
    rw [h] at hcmd
    have hn : strtok (command_line []) = none := by decide
    rw [hn] at hcmd
    exact absurd hcmd (by simp)
  have hlen : 38 = ("ERROR: Only " ++ cfg.ext ++ " files allowed in " ++ cfg.id ++ ".\n").toList.length := by
    rcases hcfg with h | h | h <;> (subst h; decide)
  unfold Node.prcclient_step
  simp only [hne, if_false, hcmd, if_true]
  unfold Node.uploadf
  simp only [hfile, hdest, hext, ne_eq, not_false_eq_true, if_true]
  rw [send_lit_exact env _ _ 38 hlen]

/-- Witness for `node_rejects_foreign_type`: node S2 is sent a `.txt` file. -/
theorem node_rejects_foreign_type_witness :
    Node.prcclient_step S2 exEnv exFS
        ⟨["uploadf a.txt S2/x".toList], [], none⟩ =
      (true, exFS, send_str (recv ⟨["uploadf a.txt S2/x".toList], [], none⟩ 1023).2
        ("ERROR: Only " ++ S2.ext ++ " files allowed in " ++ S2.id ++ ".\n").toList) :=
  node_rejects_foreign_type S2 exEnv exFS
    ⟨["uploadf a.txt S2/x".toList], [], none⟩ "a.txt S2/x".toList "a.txt".toList "S2/x".toList
    "S2/x".toList [] (Or.inl rfl) (by decide) (by decide) (by decide) (by decide)

/-! ## Facts about `forward_file` -/

theorem ready_of_strncmp (r : Bytes) (h : strncmp_eq (cstr r) "READY".toList 5 = true) :
    "READY".toList <+: r := by
  unfold strncmp_eq at h
  have h5 : (cstr r).take 5 = "READY".toList := by simpa using h
  refine ⟨(cstr r).drop 5 ++ r.dropWhile (fun ch => ch != NUL), ?_⟩
  rw [← h5, ← List.append_assoc, List.take_append_drop]
  exact List.takeWhile_append_dropWhile _ r

theorem send_fresh_out (w : Option Wlim) (msg : Bytes) :
    (send ⟨[], [], w⟩ msg).2.out.drop 1 = [] := by
  unfold send
  cases w with
  | none => rfl
  | some k => rcases k with (_ | _) | (_ | _) | _ <;> rfl

/-- Without `READY` from the target, `forward_file` fails and sends at most the command. -/
theorem forward_file_no_ready (cwd : CPath) (fs : FS) (lk : Option Link)
    (local_filepath filename target_dest : Bytes)
    (h : (forward_file cwd fs lk local_filepath filename target_dest).connected = false ∨
      ¬ ("READY".toList <+: (forward_file cwd fs lk local_filepath filename target_dest).response)) :
    (forward_file cwd fs lk local_filepath filename target_dest).ret = -1 ∧
    (forward_file cwd fs lk local_filepath filename target_dest).sent.drop 1 = [] := by
  unfold forward_file at h ⊢
  cases hfo : fopen_rb cwd fs local_filepath with
  | none => simp
  | some data =>
    cases lk with
    | none => simp
    | some lk =>
      simp only [hfo] at h ⊢
      split
      · exact ⟨rfl, send_fresh_out _ _⟩
      · rename_i hs1
        rw [if_neg hs1] at h
        split
        · exact ⟨rfl, send_fresh_out _ _⟩
        · rename_i hresp
          rw [if_neg hresp] at h
          have hready : strncmp_eq (cstr (((lk.peer fs (send ⟨[], [], lk.wlim.map Wlim.fails⟩
              (snprintf 1024 ("uploadf ".toList ++ filename ++ ' ' :: target_dest))).2).2.headD
              []).take 1023)) "READY".toList 5 = true := by
            by_contra hc
            exact hresp (Or.inr (by simpa using hc))
          have hp := ready_of_strncmp _ hready
          exfalso
          rcases h with h | h
          · split at h <;> (try split at h) <;> simp at h
          · split at h <;> (try split at h) <;> exact h hp

theorem S1.relay_target_ext (ext : Bytes) (sid : String) (port : Nat)
    (h : S1.relay_target ext = some (sid, port)) :
    ext ≠ ".c".toList ∧ (ext = ".pdf".toList ∨ ext = ".txt".toList ∨ ext = ".zip".toList) := by
  unfold S1.relay_target at h
  split at h
  · rename_i he; subst he; exact ⟨by decide, Or.inl rfl⟩
  · split at h
    · rename_i he; subst he; exact ⟨by decide, Or.inr (Or.inl rfl)⟩
    · split at h
      · rename_i he; subst he; exact ⟨by decide, Or.inr (Or.inr rfl)⟩
      · exact absurd h (by simp)

/-- The path through `uploadf` that reaches `forward_file`. -/
theorem S1.uploadf_relay_eq (env : Env) (net : Nat → Option Link) (fs : FS) (c : Conn)
    (args filename args1 destination args2 ext : Bytes) (sid : String) (port : Nat)
    (hfile : strtok args = some (filename, args1))
    (hdest : strtok args1 = some (destination, args2))
    (hext : strrchr filename '.' = some ext)
    (htarget : S1.relay_target ext = some (sid, port))
    (hroot : strncmp_eq destination "S1/".toList 3 = true)
    (hcd : (create_directories env fs destination).1 = 0)
    (hstaged : (S1.staged env fs c destination filename).ret = 0) :
    S1.uploadf env net fs c args =
      S1.relay_end env (S1.staged env fs c destination filename).conn
        (local_path env destination filename)
        (forward_file env.cwd (S1.staged env fs c destination filename).fs (net port)
          (local_path env destination filename) filename (S1.target_dest sid destination)) := by
  obtain ⟨hnc, hrel⟩ := S1.relay_target_ext ext sid port htarget
  unfold S1.staged at hstaged ⊢
  unfold S1.uploadf S1.relay_end
  simp only [hfile, hdest, hext, hroot, hcd, hnc, hrel, htarget, hstaged, ne_eq,
    not_true_eq_false, if_false, if_true, Bool.true_eq_false]

/-- When `uploadf` called `forward_file`, it came along that path. -/
theorem S1.uploadf_relay_inv (env : Env) (net : Nat → Option Link) (fs : FS) (c : Conn)
    (args : Bytes) (f : Fwd) (h : (S1.uploadf env net fs c args).relay = some f) :
    ∃ filename args1 destination args2 ext sid port,
      strtok args = some (filename, args1) ∧ strtok args1 = some (destination, args2) ∧
      strrchr filename '.' = some ext ∧ S1.relay_target ext = some (sid, port) ∧
      strncmp_eq destination "S1/".toList 3 = true ∧
      (create_directories env fs destination).1 = 0 ∧
      (S1.staged env fs c destination filename).ret = 0 ∧
      f = forward_file env.cwd (S1.staged env fs c destination filename).fs (net port)
        (local_path env destination filename) filename (S1.target_dest sid destination) := by
  cases hfile : strtok args with
  | none => simp [S1.uploadf, hfile] at h
  | some v1 =>
    obtain ⟨filename, args1⟩ := v1
    cases hdest : strtok args1 with
    | none => simp [S1.uploadf, hfile, hdest] at h
    | some v2 =>
      obtain ⟨destination, args2⟩ := v2
      cases hext : strrchr filename '.' with
      | none => simp [S1.uploadf, hfile, hdest, hext] at h
      | some ext =>
        by_cases hroot : strncmp_eq destination "S1/".toList 3 = true
        · by_cases hcd : (create_directories env fs destination).1 = 0
          · by_cases hc : ext = ".c".toList
            · exfalso
              simp only [S1.uploadf, hfile, hdest, hext, hroot, hcd, hc] at h
              simp at h
              split at h <;> simp at h
            · by_cases hrel : ext = ".pdf".toList ∨ ext = ".txt".toList ∨ ext = ".zip".toList
              · by_cases hst : (S1.staged env fs c destination filename).ret = 0
                · cases htarget : S1.relay_target ext with
                  | none =>
                    exfalso
                    unfold S1.relay_target at htarget
                    rcases hrel with he | he | he <;> (subst he; simp at htarget)
                  | some v3 =>
                    obtain ⟨sid, port⟩ := v3
                    refine ⟨filename, args1, destination, args2, ext, sid, port,
                      rfl, hdest, hext,
                      htarget, hroot, hcd, hst, ?_⟩
                    rw [S1.uploadf_relay_eq env net fs c args filename args1 destination args2 ext
                      sid port hfile hdest hext htarget hroot hcd hst] at h
                    unfold S1.relay_end at h
                    split at h
                    · split at h <;> (simp only [Option.some.injEq] at h; exact h.symm)
                    · simp only [Option.some.injEq] at h; exact h.symm
                · exfalso
                  unfold S1.staged at hst
                  simp only [S1.uploadf, hfile, hdest, hext, hroot, hcd, hc, hrel] at h
                  simp [hst] at h
              · exfalso
                have hrel1 : ¬(ext = ['.', 'p', 'd', 'f'] ∨ ext = ['.', 't', 'x', 't'] ∨
                    ext = ['.', 'z', 'i', 'p']) := hrel
                simp only [S1.uploadf, hfile, hdest, hext, hroot, hcd, hc] at h
                simp [hrel1] at h
          · exfalso
            simp only [S1.uploadf, hfile, hdest, hext, hroot] at h
            simp [hcd] at h
        · exfalso
          have hroot1 : strncmp_eq destination ['S', '1', '/'] 3 = false := by
            simpa using hroot
          simp only [S1.uploadf, hfile, hdest, hext] at h
          simp [hroot1] at h

/-- After a successful `receive_file` the destination is a regular file. -/
theorem receive_file_stored (cwd : CPath) (fs : FS) (c : Conn) (filepath : Bytes)
    (h : (receive_file cwd fs c filepath).ret = 0) :
    ∃ data, stat cwd (receive_file cwd fs c filepath).fs filepath = some (Node.file data) := by
  have hex : ∃ fs1 fp, fopen_wb cwd fs filepath = some (fs1, fp) := by
    cases hfo : fopen_wb cwd fs filepath with
    | some v => exact ⟨v.1, v.2, rfl⟩
    | none =>
      exfalso
      unfold receive_file at h
      simp only [hfo] at h
      split at h
      · simp at h
      · split at h <;> simp at h
  obtain ⟨fs1, fp, hopen⟩ := hex
  obtain ⟨hts, hres, hnd, hfp, hfs1⟩ := fopen_wb_some _ _ _ _ _ hopen
  have hpos : 0 < atol (recv c 63).1 := by
    by_contra hc
    unfold receive_file at h
    simp only at h
    split at h
    · simp at h
    · rw [if_pos (not_lt.mp hc)] at h
      simp at h
  rw [receive_file_open cwd fs fs1 c filepath fp hpos hopen, hfs1]
  exact ⟨_, stat_after_write cwd fs filepath fp [] _ hts hres hnd hfp⟩

/-- The file system `forward_file` leaves: the one it found when it did not connect, and
otherwise the one the target server left after the messages sent to it. -/
theorem forward_file_fs (cwd : CPath) (fs : FS) (lk : Option Link)
    (local_filepath filename target_dest : Bytes) :
    ((forward_file cwd fs lk local_filepath filename target_dest).connected = false →
      (forward_file cwd fs lk local_filepath filename target_dest).fs = fs) ∧
    ((forward_file cwd fs lk local_filepath filename target_dest).connected = true →
      ∃ l, lk = some l ∧
        (forward_file cwd fs lk local_filepath filename target_dest).fs =
          (l.server fs (l.deliver
            (forward_file cwd fs lk local_filepath filename target_dest).sent)).1) := by
  unfold forward_file
  cases hfo : fopen_rb cwd fs local_filepath with
  | none => simp
  | some data =>
    cases lk with
    | none => simp
    | some l =>
      simp only
      split
      · exact ⟨fun h => absurd h (by simp), fun _ => ⟨l, rfl, rfl⟩⟩
      · split
        · exact ⟨fun h => absurd h (by simp), fun _ => ⟨l, rfl, rfl⟩⟩
        · split
          · exact ⟨fun h => absurd h (by simp), fun _ => ⟨l, rfl, rfl⟩⟩
          · split
            · exact ⟨fun h => absurd h (by simp), fun _ => ⟨l, rfl, rfl⟩⟩
            · exact ⟨fun h => absurd h (by simp), fun _ => ⟨l, rfl, rfl⟩⟩

/-- C8. When the gateway's `uploadf` calls `forward_file` and the owning node cannot be connected
to (`connected = false`), or the first `recv` on the new socket returns nothing (the node closed
the connection) or something that does not begin with `READY`, then `forward_file` returns `-1`
having sent at most the `uploadf` command (no length, no payload), and the last message to the
client is `ERROR: Forwarding failed.`.  The staged copy is not deleted: it was a regular file at
the local path when `forward_file` was called, and the file system after the command is that
file system itself when no connection was made, and otherwise what the target server made of it
on receiving the command; neither `forward_file` nor the gateway after it changes a file. -/
theorem relay_handshake_failure (env : Env) (net : Nat → Option Link) (fs : FS) (c : Conn)
    (args : Bytes) (f : Fwd)
    (hrel : (S1.uploadf env net fs c args).relay = some f)
    (hhs : f.connected = false ∨ ¬ ("READY".toList <+: f.response)) :
    f.ret = -1 ∧ f.sent.drop 1 = [] ∧ (S1.uploadf env net fs c args).fs = f.fs ∧
    (∃ cc, (S1.uploadf env net fs c args).conn =
      send_str cc "ERROR: Forwarding failed.\n".toList) ∧
    ∃ filename args1 destination args2 ext sid port,
      strtok args = some (filename, args1) ∧ strtok args1 = some (destination, args2) ∧
      strrchr filename '.' = some ext ∧ S1.relay_target ext = some (sid, port) ∧
      (∃ data, stat env.cwd (S1.staged env fs c destination filename).fs
        (local_path env destination filename) = some (Node.file data)) ∧
      (f.connected = false →
        (S1.uploadf env net fs c args).fs = (S1.staged env fs c destination filename).fs) ∧
      (f.connected = true → ∃ l, net port = some l ∧
        (S1.uploadf env net fs c args).fs =
          (l.server (S1.staged env fs c destination filename).fs (l.deliver f.sent)).1) := by
  obtain ⟨filename, args1, destination, args2, ext, sid, port, hfile, hdest, hext, htarget, hroot,
    hcd, hst, hf⟩ := S1.uploadf_relay_inv env net fs c args f hrel
  have hno := forward_file_no_ready env.cwd (S1.staged env fs c destination filename).fs (net port)
    (local_path env destination filename) filename (S1.target_dest sid destination)
    (by rw [← hf]; exact hhs)
  have hfs := forward_file_fs env.cwd (S1.staged env fs c destination filename).fs (net port)
    (local_path env destination filename) filename (S1.target_dest sid destination)
  rw [← hf] at hno hfs
  have hne : ¬ f.ret = 0 := by rw [hno.1]; decide
  have hstored := receive_file_stored env.cwd (create_directories env fs destination).2
    (send_lit env c "READY\n" 6) (local_path env destination filename) hst
  have hout : S1.uploadf env net fs c args =
      ⟨f.fs, send_lit env (S1.staged env fs c destination filename).conn
        "ERROR: Forwarding failed.\n" 26, some f⟩ := by
    rw [S1.uploadf_relay_eq env net fs c args filename args1 destination args2 ext sid port hfile
      hdest hext htarget hroot hcd hst, ← hf]
    unfold S1.relay_end
    rw [if_neg hne]
  rw [hout]
  refine ⟨hno.1, hno.2, rfl, ⟨_, send_lit_exact env _ _ 26 (by decide)⟩, filename, args1,
    destination, args2, ext, sid, port, hfile, hdest, hext, htarget, hstored, hfs.1, hfs.2⟩

set_option maxRecDepth 100000 in
/-- Witness for `relay_handshake_failure`: node S2 answers the forwarded command with an error
line instead of `READY`. -/
theorem relay_handshake_failure_witness :
    (forward_file exEnv.cwd (S1.staged exEnv exFS_S2file ⟨["5".toList, "hello".toList], [], none⟩
        "S1/x".toList "a.pdf".toList).fs (nodes_up exEnv PORT_S2)
        (local_path exEnv "S1/x".toList "a.pdf".toList) "a.pdf".toList
        (S1.target_dest "S2" "S1/x".toList)).ret = -1 ∧
    (S1.uploadf exEnv (nodes_up exEnv) exFS_S2file ⟨["5".toList, "hello".toList], [], none⟩
        "a.pdf S1/x".toList).conn.out
      = ["READY\n".toList, "ERROR: Forwarding failed.\n".toList] ∧
    stat [] (S1.uploadf exEnv (nodes_up exEnv) exFS_S2file ⟨["5".toList, "hello".toList], [], none⟩
        "a.pdf S1/x".toList).fs "/h/S1/x/a.pdf".toList = some (Node.file "hello".toList) :=
  ⟨(relay_handshake_failure exEnv (nodes_up exEnv) exFS_S2file
      ⟨["5".toList, "hello".toList], [], none⟩ "a.pdf S1/x".toList
      (forward_file exEnv.cwd (S1.staged exEnv exFS_S2file ⟨["5".toList, "hello".toList], [], none⟩
        "S1/x".toList "a.pdf".toList).fs (nodes_up exEnv PORT_S2)
        (local_path exEnv "S1/x".toList "a.pdf".toList) "a.pdf".toList
        (S1.target_dest "S2" "S1/x".toList))
      (by rfl) (Or.inr (by decide))).1, by decide, by decide⟩

theorem send_out (c : Conn) (msg : Bytes) :
    ∃ t, (send c msg).2.out = c.out ++ t := by
  unfold send
  cases c.wlim with
  | none => exact ⟨[msg], rfl⟩
  | some k =>
    rcases k with (_ | _) | (_ | _) | _
    · exact ⟨[], by simp⟩
    · exact ⟨[msg], rfl⟩
    · exact ⟨[], by simp⟩
    · exact ⟨[msg], rfl⟩
    · exact ⟨[], by simp⟩

theorem send_true_out (c : Conn) (msg : Bytes) (h : ¬ (send c msg).1 = false) :
    (send c msg).2.out = c.out ++ [msg] := by
  unfold send at h ⊢
  cases hw : c.wlim with
  | none => rfl
  | some k =>
    rcases k with (_ | _) | (_ | _) | _
    · simp [hw] at h
    · rfl
    · simp [hw] at h
    · rfl
    · simp [hw] at h

theorem send_loop_out (fuel : Nat) (rest : Bytes) (eof : Bool) (c : Conn) :
    ∃ t, (send_loop fuel rest eof c).2.out = c.out ++ t := by
  induction fuel generalizing rest eof c with
  | zero => exact ⟨[], by simp [send_loop]⟩
  | succ n ih =>
    unfold send_loop
    split
    · exact ⟨[], by simp⟩
    · dsimp only
      split
      · split
        · rename_i c1 hs
          obtain ⟨t, ht⟩ := send_out c (List.take BUFFER_SIZE rest)
          rw [hs] at ht
          exact ⟨t, ht⟩
        · rename_i c1 hs
          obtain ⟨t, ht⟩ := send_out c (List.take BUFFER_SIZE rest)
          rw [hs] at ht
          obtain ⟨t2, ht2⟩ := ih (List.drop BUFFER_SIZE rest)
            (decide ((List.take BUFFER_SIZE rest).length < BUFFER_SIZE)) c1
          exact ⟨t ++ t2, by rw [ht2]; simp only at ht; rw [ht, List.append_assoc]⟩
      · exact ih _ _ c

/-- The first message `forward_file` sends, if it sends any, is the `uploadf` command. -/
theorem forward_file_sent_head (cwd : CPath) (fs : FS) (lk : Option Link)
    (local_filepath filename target_dest : Bytes) (m : Bytes)
    (h : (forward_file cwd fs lk local_filepath filename target_dest).sent.head? = some m) :
    m = snprintf 1024 ("uploadf ".toList ++ filename ++ ' ' :: target_dest) := by
  unfold forward_file at h
  cases hfo : fopen_rb cwd fs local_filepath with
  | none => simp [hfo] at h
  | some data =>
    cases lk with
    | none => simp [hfo] at h
    | some lk =>
      simp only [hfo] at h
      obtain ⟨t1, ht1⟩ := send_out ⟨[], [], lk.wlim.map Wlim.fails⟩
        (snprintf 1024 ("uploadf ".toList ++ filename ++ ' ' :: target_dest))
      split at h
      · rename_i hs1
        have : (send ⟨[], [], lk.wlim.map Wlim.fails⟩
            (snprintf 1024 ("uploadf ".toList ++ filename ++ ' ' :: target_dest))).2.out = [] := by
          unfold send at hs1 ⊢
          cases hw : lk.wlim with
          | none => simp [hw] at hs1
          | some k =>
            cases k with
            | zero => rfl
            | succ k => simp [hw] at hs1
        simp only [this] at h
        simp at h
      · rename_i hs1
        have ho := send_true_out _ _ hs1
        simp only [List.nil_append] at ho
        split at h
        · simp only [ho] at h
          simpa using h.symm
        · split at h
          · obtain ⟨t2, ht2⟩ := send_out (send ⟨[], [], lk.wlim.map Wlim.fails⟩
              (snprintf 1024 ("uploadf ".toList ++ filename ++ ' ' :: target_dest))).2
              (snprintf 64 (fmt_ld data.length))
            simp only [ht2, ho] at h
            simpa using h.symm
          · obtain ⟨t2, ht2⟩ := send_out (send ⟨[], [], lk.wlim.map Wlim.fails⟩
              (snprintf 1024 ("uploadf ".toList ++ filename ++ ' ' :: target_dest))).2
              (snprintf 64 (fmt_ld data.length))
            obtain ⟨t3, ht3⟩ := send_loop_out (data.length + 2) data false
              (send (send ⟨[], [], lk.wlim.map Wlim.fails⟩
                (snprintf 1024 ("uploadf ".toList ++ filename ++ ' ' :: target_dest))).2
                (snprintf 64 (fmt_ld data.length))).2
            split at h <;> (simp only [ht3, ht2, ho] at h; simpa using h.symm)

theorem S1.target_dest_eq (sid : String) (r : Bytes) (hfit : sid.length + r.length ≤ 511) :
    S1.target_dest sid ("S1".toList ++ r) = sid.toList ++ r := by
  unfold S1.target_dest snprintf strncmp_eq
  have h1 : (("S1".toList ++ r).take 2 == "S1".toList.take 2) = true := by
    simp
  rw [if_pos h1]
  have h2 : ("S1".toList ++ r).drop 2 = r := by simp
  rw [h2]
  exact List.take_of_length_le (by simp; omega)

/-- C9 (as amended). For a destination `"S1" ++ r` and a file name with extension `.pdf`, `.txt`
or `.zip`, when the rewritten destination fits the 512-byte buffer `target_dest` and the whole
command fits the 1024-byte buffer `cmd`, the command the gateway sends to the owning node is
exactly `"uploadf " ++ filename ++ " " ++ id ++ r`, with `id` = `S2` for `.pdf`, `S3` for `.txt`
and `S4` for `.zip`. -/
theorem relay_command (env : Env) (net : Nat → Option Link) (fs : FS) (c : Conn)
    (args filename args1 destination args2 ext r m : Bytes) (id : String) (f : Fwd)
    (hfile : strtok args = some (filename, args1))
    (hdest : strtok args1 = some (destination, args2))
    (hext : strrchr filename '.' = some ext)
    (hid : (ext = ".pdf".toList ∧ id = "S2") ∨ (ext = ".txt".toList ∧ id = "S3") ∨
      (ext = ".zip".toList ∧ id = "S4"))
    (hd : destination = "S1".toList ++ r)
    (hfit1 : 2 + r.length ≤ 511)
    (hfit2 : 8 + filename.length + 1 + (2 + r.length) ≤ 1023)
    (hrel : (S1.uploadf env net fs c args).relay = some f)
    (hsent : f.sent.head? = some m) :
    m = "uploadf ".toList ++ filename ++ " ".toList ++ id.toList ++ r := by
  obtain ⟨filename1, args11, destination1, args21, ext1, sid, port, hfile1, hdest1, hext1, htarget,
    -, -, -, hf⟩ := S1.uploadf_relay_inv env net fs c args f hrel
  rw [hfile] at hfile1
  simp only [Option.some.injEq, Prod.mk.injEq] at hfile1
  obtain ⟨hf1, ha1⟩ := hfile1
  subst hf1 ha1
  rw [hdest] at hdest1
  simp only [Option.some.injEq, Prod.mk.injEq] at hdest1
  obtain ⟨hd1, -⟩ := hdest1
  subst hd1
  rw [hext] at hext1
  simp only [Option.some.injEq] at hext1
  subst hext1
  have hsid : sid = id := by
    unfold S1.relay_target at htarget
    rcases hid with ⟨he, hi⟩ | ⟨he, hi⟩ | ⟨he, hi⟩ <;>
      (subst he hi; simp at htarget; exact htarget.1.symm)
  subst hsid
  have hidlen : sid.length = 2 := by
    rcases hid with ⟨-, hi⟩ | ⟨-, hi⟩ | ⟨-, hi⟩ <;> (subst hi; rfl)
  rw [hf] at hsent
  have hm := forward_file_sent_head _ _ _ _ _ _ m hsent
  rw [hm, hd, S1.target_dest_eq sid r (by omega)]
  unfold snprintf
  rw [List.take_of_length_le (by simp; omega)]
  simp

/-! ## Command lines, tokens and canonical paths -/

/-! ## Facts about command lines -/

theorem Token.ne_nil {t : Bytes} (h : Token t) : t ≠ [] := h.1

theorem command_line_clean (s : Bytes)
    (h : ∀ ch ∈ s, ch ≠ ' ' ∧ ch ≠ '\r' ∧ ch ≠ '\n' ∧ ch ≠ NUL ∨ ch = ' ') :
    command_line s = s := by
  unfold command_line cstr
  have h1 : s.takeWhile (fun ch => ch != NUL) = s := by
    rw [List.takeWhile_eq_self_iff]
    intro ch hch
    rcases h ch hch with hc | hc
    · simpa using hc.2.2.2
    · subst hc; decide
  rw [h1, List.takeWhile_eq_self_iff]
  intro ch hch
  rcases h ch hch with hc | hc
  · simp [hc.2.1, hc.2.2.1]
  · subst hc; decide

theorem strtok_token_space (t rest : Bytes) (h : Token t) :
    strtok (t ++ ' ' :: rest) = some (t, rest) := by
  obtain ⟨x, xs, hx⟩ := List.exists_cons_of_ne_nil h.1
  have hxs : x ≠ ' ' := (h.2 x (by simp [hx])).1
  have hd : (t ++ ' ' :: rest).dropWhile (fun ch => ch == ' ') = t ++ ' ' :: rest := by
    rw [hx]; simp [List.dropWhile_cons, hxs]
  have hall : ∀ ch ∈ t, (fun ch => ch != ' ') ch = true := by
    intro ch hch; simpa using (h.2 ch hch).1
  unfold strtok
  simp only [hd]
  rw [if_neg (by simp)]
  rw [List.takeWhile_append_of_pos hall, List.dropWhile_append_of_pos hall]
  simp

theorem strtok_token (t : Bytes) (h : Token t) : strtok t = some (t, []) := by
  obtain ⟨x, xs, hx⟩ := List.exists_cons_of_ne_nil h.1
  have hxs : x ≠ ' ' := (h.2 x (by simp [hx])).1
  have hd : t.dropWhile (fun ch => ch == ' ') = t := by
    rw [hx]; simp [List.dropWhile_cons, hxs]
  have hall : ∀ ch ∈ t, (fun ch => ch != ' ') ch = true := by
    intro ch hch; simpa using (h.2 ch hch).1
  unfold strtok
  simp only [hd]
  rw [if_neg h.1, List.takeWhile_eq_self_iff.mpr hall]
  have : t.dropWhile (fun ch => ch != ' ') = [] := by
    rw [List.dropWhile_eq_nil_iff]; exact hall
  rw [this]
  rfl

theorem recv_whole (m : Bytes) (rest out : List Bytes) (w : Option Wlim) (cap : Nat)
    (h : m.length ≤ cap) : recv ⟨m :: rest, out, w⟩ cap = (m, ⟨rest, out, w⟩) := by
  simp [recv, h]

/-- A command line made of a verb and two tokens. -/
theorem command_parts (verb F D : Bytes) (hv : Token verb) (hF : Token F) (hD : Token D) :
    strtok (command_line (verb ++ ' ' :: (F ++ ' ' :: D))) = some (verb, F ++ ' ' :: D) ∧
    strtok (F ++ ' ' :: D) = some (F, D) ∧ strtok D = some (D, []) := by
  refine ⟨?_, strtok_token_space F D hF, strtok_token D hD⟩
  rw [command_line_clean]
  · exact strtok_token_space verb _ hv
  · intro ch hch
    simp only [List.mem_append, List.mem_cons] at hch
    rcases hch with hc | hc | hc | hc | hc
    · exact Or.inl (hv.2 ch hc)
    · exact Or.inr hc
    · exact Or.inl (hF.2 ch hc)
    · exact Or.inr hc
    · exact Or.inl (hD.2 ch hc)

/-- A command line made of a verb and one token. -/
theorem command_parts1 (verb A : Bytes) (hv : Token verb) (hA : Token A) :
    strtok (command_line (verb ++ ' ' :: A)) = some (verb, A) ∧ strtok A = some (A, []) := by
  refine ⟨?_, strtok_token A hA⟩
  rw [command_line_clean]
  · exact strtok_token_space verb _ hv
  · intro ch hch
    simp only [List.mem_append, List.mem_cons] at hch
    rcases hch with hc | hc | hc
    · exact Or.inl (hv.2 ch hc)
    · exact Or.inr hc
    · exact Or.inl (hA.2 ch hc)

/-! ## Facts about paths -/

theorem strrchr_append (a b e : Bytes) (ch : Char) (h : strrchr b ch = some e) :
    strrchr (a ++ b) ch = some e := by
  induction a with
  | nil => simpa using h
  | cons x xs ih =>
    show strrchr (x :: (xs ++ b)) ch = some e
    unfold strrchr
    rw [ih]

theorem take_append_take (n : Nat) (a x b : Bytes) :
    (a ++ (x.take n ++ b)).take n = (a ++ (x ++ b)).take n := by
  by_cases hx : x.length ≤ n
  · rw [List.take_of_length_le hx]
  · have hx1 : n ≤ x.length := by omega
    have hl : (x.take n).length = n := by rw [List.length_take]; omega
    rw [List.take_append_eq_append_take, @List.take_append_eq_append_take _ a (x ++ b) n]
    congr 1
    rw [List.take_append_eq_append_take, @List.take_append_eq_append_take _ x b (n - a.length), hl,
      List.take_take]
    have h1 : n - a.length - n = 0 := by omega
    have h2 : n - a.length - x.length = 0 := by omega
    have h3 : min (n - a.length) n = n - a.length := by omega
    rw [h1, h2, h3]

theorem walk_eq_foldl (fs : FS) (cur : CPath) (comps : List Bytes) (r : CPath)
    (h : walk fs cur comps = some r) : r = comps.foldl stepComp cur := by
  induction comps generalizing cur with
  | nil => simp [walk] at h; simp [h]
  | cons c cs ih =>
    simp only [walk] at h
    split at h
    · simpa using ih _ h
    · exact absurd h (by simp)

theorem resolve_eq_canon (cwd : CPath) (fs : FS) (path : Bytes) (r : CPath)
    (h : resolve cwd fs path = some r) : r = canon cwd path := by
  unfold resolve at h
  split at h
  · exact absurd h (by simp)
  · exact walk_eq_foldl fs _ _ r h

/-! ## Replies, received files and the file system -/

/-! ## More facts about the file system and the transfer functions -/

theorem lit_bytes_length (env : Env) (lit : Bytes) (n : Nat) : (lit_bytes env lit n).length = n := by
  unfold lit_bytes
  rw [List.length_take]
  simp only [List.length_append, List.length_cons, List.length_map, List.length_range]
  omega

theorem lit_bytes_head (env : Env) (lit : Bytes) (n : Nat) (x : Char) (xs : Bytes)
    (hl : lit = x :: xs) (hn : 0 < n) : (lit_bytes env lit n).head? = some x := by
  unfold lit_bytes
  subst hl
  cases n with
  | zero => omega
  | succ k => simp

theorem send_lit_open (env : Env) (c : Conn) (lit : String) (n : Nat) (h : c.wlim = none) :
    send_lit env c lit n = { c with out := c.out ++ [lit_bytes env lit.toList n] } := by
  unfold send_lit
  rw [send_open c _ h]

theorem send_lit_out (env : Env) (c : Conn) (lit : String) (n : Nat) :
    ∃ t, (send_lit env c lit n).out = c.out ++ t ∧
      ((send_lit env c lit n).inp = c.inp ∨ (send_lit env c lit n).inp = []) := by
  unfold send_lit send
  cases c.wlim with
  | none => exact ⟨_, rfl, Or.inl rfl⟩
  | some k =>
    rcases k with (_ | _) | (_ | _) | _
    · exact ⟨[], by simp, Or.inl rfl⟩
    · exact ⟨_, rfl, Or.inl rfl⟩
    · exact ⟨[], by simp, Or.inr rfl⟩
    · exact ⟨_, rfl, Or.inl rfl⟩
    · exact ⟨[], by simp, Or.inl rfl⟩

theorem recv_loop_conn (fuel remaining : Nat) (c : Conn) (acc : Bytes) :
    (recv_loop fuel remaining c acc).2.2.out = c.out ∧
    (recv_loop fuel remaining c acc).2.2.wlim = c.wlim := by
  induction fuel generalizing remaining c acc with
  | zero => simp [recv_loop]
  | succ f ih =>
    unfold recv_loop
    split
    · simp
    · dsimp only
      generalize (if remaining < BUFFER_SIZE then remaining else BUFFER_SIZE) = k
      obtain ⟨h3, h4⟩ := recv_out c k
      split
      · exact ⟨h3, h4⟩
      · obtain ⟨h1, h2⟩ := ih (remaining - (recv c k).1.length) (recv c k).2 (acc ++ (recv c k).1)
        exact ⟨h1.trans h3, h2.trans h4⟩

/-- The function `receive_file` sends nothing. -/
theorem receive_file_conn (cwd : CPath) (fs : FS) (c : Conn) (filepath : Bytes) :
    (receive_file cwd fs c filepath).conn.out = c.out ∧
    (receive_file cwd fs c filepath).conn.wlim = c.wlim := by
  unfold receive_file
  dsimp only
  split
  · exact recv_out c 63
  · split
    · exact recv_out c 63
    · split
      · exact recv_out c 63
      · obtain ⟨h1, h2⟩ := recv_loop_conn (atol (recv c 63).1).toNat (atol (recv c 63).1).toNat
          (recv c 63).2 []
        obtain ⟨h3, h4⟩ := recv_out c 63
        exact ⟨h1.trans h3, h2.trans h4⟩

/-- A successful `receive_file` has opened its file. -/
theorem receive_file_ret0 (cwd : CPath) (fs : FS) (c : Conn) (filepath : Bytes)
    (h : (receive_file cwd fs c filepath).ret = 0) :
    ∃ fs1 fp, fopen_wb cwd fs filepath = some (fs1, fp) := by
  cases hfo : fopen_wb cwd fs filepath with
  | some v => exact ⟨v.1, v.2, rfl⟩
  | none =>
    exfalso
    unfold receive_file at h
    simp only [hfo] at h
    split at h
    · simp at h
    · split at h <;> simp at h

/-- The function `receive_file` on a connection that delivers the length token alone and then
the payload `b`. -/
theorem receive_file_ok (cwd : CPath) (fs fs1 : FS) (c : Conn) (filepath b : Bytes)
    (rest : List Bytes) (more : Bytes) (fp : CPath)
    (hb : b ≠ []) (hsize : (b.length : Int) ≤ LONG_MAX)
    (hin : c.inp = fmt_ld b.length :: rest)
    (hpay : avail rest = b ++ more)
    (hopen : fopen_wb cwd fs filepath = some (fs1, fp)) :
    (receive_file cwd fs c filepath).ret = 0 ∧
    (receive_file cwd fs c filepath).fs = (fs.set fp (Node.file [])).set fp (Node.file b) ∧
    avail (receive_file cwd fs c filepath).conn.inp = more := by
  have hlen := fmt_ld_length b.length hsize
  have hrecv : recv c 63 = (fmt_ld b.length, { c with inp := rest }) := by
    unfold recv
    rw [hin]
    simp only
    rw [if_pos (by omega)]
  have hat : atol (recv c 63).1 = b.length := by rw [hrecv]; exact atol_fmt_ld _ hsize
  have hbl : 0 < b.length := List.length_pos.mpr hb
  obtain ⟨hts, hres, hnd, hfp, hfs1⟩ := fopen_wb_some cwd fs fs1 filepath fp hopen
  rw [receive_file_open cwd fs fs1 c filepath fp (by rw [hat]; exact_mod_cast hbl) hopen]
  simp only [hat, Int.toNat_ofNat]
  have hav : b.length ≤ (avail (recv c 63).2.inp).length := by
    rw [hrecv]; simp [hpay]
  obtain ⟨l1, l2, l3, -, -⟩ := recv_loop_ok b.length b.length (recv c 63).2 [] le_rfl hav
  rw [l1, l2, l3]
  have htake : (avail (recv c 63).2.inp).take b.length = b := by
    rw [hrecv]; simp [hpay]
  have hdrop : (avail (recv c 63).2.inp).drop b.length = more := by
    rw [hrecv]; simp [hpay]
  simp only [List.nil_append, htake, hdrop, if_true, true_and, and_true]
  rw [hfs1]

/-- The node at a path that was written, and at every other path. -/
theorem get_written (fs : FS) (fp q : CPath) (d0 d : Bytes) (hfp : fp ≠ []) :
    ((fs.set fp (Node.file d0)).set fp (Node.file d)).get q =
      if q = fp then some (Node.file d) else fs.get q := by
  split
  · rename_i h; subst h; exact FS.get_set_same _ _ _ hfp
  · rename_i h; rw [FS.get_set_other _ _ _ _ h, FS.get_set_other _ _ _ _ h]

theorem mkdir_keeps (cwd : CPath) (fs fs1 : FS) (path : Bytes) (h : mkdir cwd fs path = some fs1)
    (q : CPath) (nd : Node) (hq : fs.get q = some nd) : fs1.get q = some nd := by
  unfold mkdir at h
  split at h
  · exact absurd h (by simp)
  · rename_i p hres
    split at h
    · exact absurd h (by simp)
    · rename_i hnone
      split at h
      · simp only [Option.some.injEq] at h
        subst h
        have hne : q ≠ p := by intro hqp; subst hqp; rw [hnone] at hq; exact absurd hq (by simp)
        rw [FS.get_set_other _ _ _ _ hne]
        exact hq
      · exact absurd h (by simp)

theorem ensure_dirs_keeps (cwd : CPath) (fs : FS) (paths : List Bytes)
    (q : CPath) (nd : Node) (hq : fs.get q = some nd) :
    (ensure_dirs cwd fs paths).2.get q = some nd := by
  induction paths generalizing fs with
  | nil => simpa [ensure_dirs] using hq
  | cons p ps ih =>
    unfold ensure_dirs
    split
    · exact ih fs hq
    · split
      · exact hq
      · rename_i fs1 hmk
        exact ih fs1 (mkdir_keeps cwd fs fs1 p hmk q nd hq)

/-- The function `create_directories` keeps every node that exists. -/
theorem create_directories_keeps (env : Env) (fs : FS) (path : Bytes)
    (q : CPath) (nd : Node) (hq : fs.get q = some nd) :
    (create_directories env fs path).2.get q = some nd := by
  unfold create_directories
  exact ensure_dirs_keeps _ _ _ q nd hq

theorem remove_some (cwd : CPath) (fs fs1 : FS) (path : Bytes) (h : remove cwd fs path = some fs1) :
    fs1 = fs.erase (canon cwd path) ∧ canon cwd path ≠ [] := by
  unfold remove at h
  split at h
  · exact absurd h (by simp)
  · rename_i p hres
    have hp := resolve_eq_canon cwd fs path p hres
    subst hp
    split at h
    · exact absurd h (by simp)
    · rename_i hne
      split at h
      · split at h
        · exact absurd h (by simp)
        · simp only [Option.some.injEq] at h; exact ⟨h.symm, hne⟩
      · split at h
        · exact absurd h (by simp)
        · simp only [Option.some.injEq] at h; exact ⟨h.symm, hne⟩
      · exact absurd h (by simp)

theorem stat_file (cwd : CPath) (fs : FS) (path : Bytes) (p : CPath) (d : Bytes)
    (hts : trailingSlash path = false) (hres : resolve cwd fs path = some p)
    (hget : fs.get p = some (Node.file d)) : stat cwd fs path = some (Node.file d) := by
  unfold stat
  simp [hres, hget, hts]

/-! ## The gateway rounds `uploadf` and `downlf` -/

/-- The function `send_file` on a regular file, over a connection whose sends succeed. -/
theorem send_file_ok (cwd : CPath) (fs : FS) (c : Conn) (filepath b : Bytes)
    (hfile : stat cwd fs filepath = some (Node.file b))
    (hsize : (b.length : Int) ≤ LONG_MAX)
    (hup : c.wlim = none) :
    (send_file cwd fs c filepath).1 = 0 ∧
    (send_file cwd fs c filepath).2.sent = c.sent ++ (fmt_ld b.length ++ b) := by
  have hopen : fopen_rb cwd fs filepath = some b := by simp [fopen_rb, hfile]
  unfold send_file
  simp only [hopen, snprintf_fmt_ld _ hsize, send_open c _ hup]
  have hfuel : false = true ∨ b.length / BUFFER_SIZE + 2 ≤ b.length + 2 := by
    right; have := Nat.div_le_self b.length BUFFER_SIZE; omega
  obtain ⟨h1, h2⟩ := send_loop_open (b.length + 2) b false
    { c with out := c.out ++ [fmt_ld b.length] } hup hfuel
  rw [h1]
  refine ⟨rfl, ?_⟩
  simp only [Conn.sent]
  rw [h2]
  simp [List.flatten_append]

/-! ## The gateway's rounds for `uploadf` and `downlf` -/

theorem token_uploadf : Token "uploadf".toList := by decide

theorem token_downlf : Token "downlf".toList := by decide

theorem S1.step_uploadf (env : Env) (net : Nat → Option Link) (fs : FS) (F D : Bytes)
    (rest out : List Bytes) (w : Option Wlim) (hF : Token F) (hD : Token D)
    (hlen : ("uploadf ".toList ++ F ++ ' ' :: D).length ≤ 1023) :
    S1.prcclient_step env net fs ⟨("uploadf ".toList ++ F ++ ' ' :: D) :: rest, out, w⟩ =
      (true, S1.uploadf env net fs ⟨rest, out, w⟩ (F ++ ' ' :: D)) := by
  have hcmd : "uploadf ".toList ++ F ++ ' ' :: D = "uploadf".toList ++ ' ' :: (F ++ ' ' :: D) := by
    simp
  obtain ⟨hp, -, -⟩ := command_parts "uploadf".toList F D token_uploadf hF hD
  unfold S1.prcclient_step
  rw [recv_whole _ _ _ _ _ hlen]
  simp only [hcmd] at hp ⊢
  rw [if_neg (by simp)]
  simp only [hp, if_true]

theorem S1.step_downlf (env : Env) (net : Nat → Option Link) (fs : FS) (A : Bytes)
    (rest out : List Bytes) (w : Option Wlim) (hA : Token A)
    (hlen : ("downlf ".toList ++ A).length ≤ 1023) :
    S1.prcclient_step env net fs ⟨("downlf ".toList ++ A) :: rest, out, w⟩ =
      (true, S1.downlf env fs ⟨rest, out, w⟩ A) := by
  have hcmd : "downlf ".toList ++ A = "downlf".toList ++ ' ' :: A := by simp
  obtain ⟨hp, -⟩ := command_parts1 "downlf".toList A token_downlf hA
  have hne : ¬ "downlf".toList = "uploadf".toList := by decide
  unfold S1.prcclient_step
  rw [recv_whole _ _ _ _ _ hlen]
  simp only [hcmd] at hp ⊢
  rw [if_neg (by simp)]
  simp only [hp, hne, if_false, if_true]

theorem token_path (F D : Bytes) (hF : Token F) (hD : Token D) : Token (D ++ '/' :: F) := by
  refine ⟨by simp, ?_⟩
  intro ch hch
  simp only [List.mem_append, List.mem_cons] at hch
  rcases hch with hc | hc | hc
  · exact hD.2 ch hc
  · subst hc; decide
  · exact hF.2 ch hc

/-- The round `downlf D/F` when the physical path names a regular file with contents `b`. -/
theorem S1.download_file (env : Env) (fs : FS) (h F D ext path b : Bytes)
    (hhome : env.home = some h) (hF : Token F) (hD : Token D)
    (hlen : ("uploadf ".toList ++ F ++ ' ' :: D).length ≤ 1023)
    (hext : strrchr F '.' = some ext)
    (hroot : strncmp_eq D "S1/".toList 3 = true)
    (hpath : S1.full_filepath h (D ++ '/' :: F) ext = some path)
    (hstat : stat env.cwd fs path = some (Node.file b))
    (hsize : (b.length : Int) ≤ LONG_MAX) :
    (S1.download_round env fs F D).conn.sent = fmt_ld b.length ++ b := by
  have hA := token_path F D hF hD
  have hlen2 : ("downlf ".toList ++ (D ++ '/' :: F)).length ≤ 1023 := by
    simp only [List.length_append, List.length_cons] at hlen ⊢
    have : "downlf ".toList.length = 7 := rfl
    have : "uploadf ".toList.length = 8 := rfl
    omega
  have hext2 : strrchr (D ++ '/' :: F) '.' = some ext := by
    have := strrchr_append (D ++ ['/']) F ext '.' hext
    simpa using this
  have hroot2 : strncmp_eq (D ++ '/' :: F) "S1/".toList 3 = true := by
    unfold strncmp_eq at hroot ⊢
    have h3 : D.take 3 = "S1/".toList.take 3 := by simpa using hroot
    have hl : 3 ≤ D.length := by
      have := congrArg List.length h3
      simp [List.length_take] at this
      omega
    rw [List.take_append_of_le_length hl]
    exact hroot
  have hsup : ¬ (ext ≠ ".c".toList ∧ ext ≠ ".pdf".toList ∧ ext ≠ ".txt".toList ∧
      ext ≠ ".zip".toList) := by
    intro hn
    unfold S1.full_filepath at hpath
    dsimp only at hpath
    rw [if_neg hn.1, if_neg hn.2.1, if_neg hn.2.2.1, if_neg hn.2.2.2] at hpath
    exact absurd hpath (by simp)
  have hgh : getenv_HOME env = h := by simp [getenv_HOME, hhome]
  have hassoc : "downlf ".toList ++ D ++ '/' :: F = "downlf ".toList ++ (D ++ '/' :: F) := by
    simp
  unfold S1.download_round
  rw [hassoc, S1.step_downlf env _ fs _ _ _ _ hA hlen2]
  unfold S1.downlf
  simp only [strtok_token _ hA, hext2, hroot2, Bool.true_eq_false, if_false, hsup, hgh, hpath,
    hstat]
  obtain ⟨s1, s2⟩ := send_file_ok env.cwd fs ⟨[], [], none⟩ path b hstat hsize rfl
  have hs1 : ¬ (send_file env.cwd fs ⟨[], [], none⟩ path).1 ≠ 0 := by simp [s1]
  rw [if_neg hs1]
  simp only [s2]
  simp [Conn.sent]

/-! ## The staged copy -/

/-- A length token `0` makes `receive_file` fail. -/
theorem receive_file_zero (cwd : CPath) (fs : FS) (c : Conn) (filepath : Bytes) (cs : List Bytes)
    (hin : c.inp = "0".toList :: cs) : (receive_file cwd fs c filepath).ret = -1 := by
  obtain ⟨inp, out, w⟩ := c
  simp only at hin
  subst hin
  apply (receive_file_nonpos cwd fs _ filepath _).1
  rw [recv_whole _ _ _ _ 63 (by decide)]
  show atol "0".toList ≤ 0
  decide

/-- What the gateway has staged once `receive_file` returned 0 for an upload whose length token
arrives alone, followed by the payload `C`. -/
theorem S1.staged_ok (env : Env) (fs : FS) (c : Conn) (F D C more : Bytes) (cs : List Bytes)
    (hsize : (C.length : Int) ≤ LONG_MAX)
    (hin : c.inp = fmt_ld C.length :: cs) (hpay : avail cs = C ++ more)
    (hret : (S1.staged env fs c D F).ret = 0) :
    trailingSlash (local_path env D F) = false ∧
    resolve env.cwd (create_directories env fs D).2 (local_path env D F) =
      some (canon env.cwd (local_path env D F)) ∧
    (create_directories env fs D).2.get (canon env.cwd (local_path env D F)) ≠ some Node.dir ∧
    canon env.cwd (local_path env D F) ≠ [] ∧
    (S1.staged env fs c D F).fs =
      (((create_directories env fs D).2.set (canon env.cwd (local_path env D F))
        (Node.file [])).set (canon env.cwd (local_path env D F)) (Node.file C)) ∧
    stat env.cwd (S1.staged env fs c D F).fs (local_path env D F) = some (Node.file C) := by
  unfold S1.staged at hret ⊢
  obtain ⟨fs1, fp, hopen⟩ := receive_file_ret0 _ _ _ _ hret
  obtain ⟨hts, hres, hnd, hfp, hfs1⟩ := fopen_wb_some _ _ _ _ _ hopen
  have hcanon := resolve_eq_canon _ _ _ _ hres
  subst hcanon
  have hin2 : (send_lit env c "READY\n" 6).inp = fmt_ld C.length :: cs := by
    obtain ⟨t, -, hi | hi⟩ := send_lit_out env c "READY\n" 6
    · rw [hi, hin]
    · exfalso
      unfold receive_file recv at hret
      simp [hi] at hret
  have hC : C ≠ [] := by
    intro h
    subst h
    rw [receive_file_zero _ _ _ _ cs hin2] at hret
    exact absurd hret (by decide)
  obtain ⟨-, r2, -⟩ := receive_file_ok env.cwd _ fs1 (send_lit env c "READY\n" 6)
    (local_path env D F) C cs more _ hC hsize hin2 hpay hopen
  refine ⟨hts, hres, hnd, hfp, r2, ?_⟩
  rw [r2]
  exact stat_after_write env.cwd _ _ _ [] C hts hres hnd hfp

/-- A successful upload of a `.c` file leaves the payload at the local path. -/
theorem S1.upload_c (env : Env) (fs : FS) (F D C more : Bytes) (cs : List Bytes)
    (hF : Token F) (hD : Token D)
    (hlen : ("uploadf ".toList ++ F ++ ' ' :: D).length ≤ 1023)
    (hext : strrchr F '.' = some ".c".toList)
    (hsize : (C.length : Int) ≤ LONG_MAX) (hpay : avail cs = C ++ more)
    (hok : (S1.upload_round env fs F D C.length cs).conn.out =
      ["READY\n".toList, "File uploaded successfully in S1.\n".toList]) :
    strncmp_eq D "S1/".toList 3 = true ∧
    stat env.cwd (S1.upload_round env fs F D C.length cs).fs (local_path env D F) =
      some (Node.file C) := by
  unfold S1.upload_round at hok ⊢
  rw [S1.step_uploadf env _ fs F D _ _ _ hF hD hlen] at hok ⊢
  simp only at hok ⊢
  unfold S1.uploadf at hok ⊢
  simp only [strtok_token_space F D hF, strtok_token D hD, hext] at hok ⊢
  by_cases hroot : strncmp_eq D "S1/".toList 3 = false
  · exfalso
    rw [if_pos hroot, send_lit_open _ _ _ _ rfl] at hok
    simp at hok
  · rw [if_neg hroot] at hok ⊢
    refine ⟨by simpa using hroot, ?_⟩
    by_cases hcd : (create_directories env fs D).1 ≠ 0
    · exfalso
      rw [if_pos hcd, send_lit_open _ _ _ _ rfl] at hok
      simp at hok
    · rw [if_neg hcd] at hok ⊢
      simp only [if_true] at hok ⊢
      have hst : receive_file env.cwd (create_directories env fs D).2
          (send_lit env ⟨fmt_ld C.length :: cs, [], none⟩ "READY\n" 6) (local_path env D F) =
          S1.staged env fs ⟨fmt_ld C.length :: cs, [], none⟩ D F := rfl
      rw [hst] at hok ⊢
      obtain ⟨ho, hw⟩ := receive_file_conn env.cwd (create_directories env fs D).2
        (send_lit env ⟨fmt_ld C.length :: cs, [], none⟩ "READY\n" 6) (local_path env D F)
      rw [hst] at ho hw
      have hw2 : (S1.staged env fs ⟨fmt_ld C.length :: cs, [], none⟩ D F).conn.wlim = none := by
        rw [hw, send_lit_open _ _ _ _ rfl]
      by_cases hr : (S1.staged env fs ⟨fmt_ld C.length :: cs, [], none⟩ D F).ret = 0
      · rw [if_pos hr]
        exact (S1.staged_ok env fs _ F D C more cs hsize rfl hpay hr).2.2.2.2.2
      · exfalso
        rw [if_neg hr, send_lit_open _ _ _ _ hw2] at hok
        simp only [ho, send_lit_open env ⟨fmt_ld C.length :: cs, [], none⟩ _ _ rfl] at hok
        rw [lit_bytes_exact _ _ 34 (by decide), lit_bytes_exact _ _ 6 (by decide)] at hok
        revert hok
        decide

/-! ## The relay towards a node -/

/-! ## The storage node's side of a relayed upload -/

theorem avail_nonempty (t : List Bytes) (h : ∀ p ∈ t, p ≠ []) : avail t = t.flatten := by
  unfold avail
  rw [List.takeWhile_eq_self_iff.mpr]
  intro p hp
  simpa using h p hp

/-- The pieces `send_loop` sends over a connection whose sends succeed: non-empty, and together
the rest of the file. -/
theorem send_loop_pieces (fuel : Nat) (rest : Bytes) (eof : Bool) (c : Conn)
    (hup : c.wlim = none) (hfuel : eof = true ∨ rest.length / BUFFER_SIZE + 2 ≤ fuel) :
    ∃ t, send_loop fuel rest eof c = (true, { c with out := c.out ++ t }) ∧
      t.flatten = (if eof then [] else rest) ∧ ∀ p ∈ t, p ≠ [] := by
  induction fuel generalizing rest eof c with
  | zero =>
    rcases hfuel with h | h
    · subst h; exact ⟨[], by simp [send_loop], by simp, by simp⟩
    · exact absurd h (Nat.not_succ_le_zero _)
  | succ f ih =>
    unfold send_loop
    by_cases he : eof = true
    · subst he; exact ⟨[], by simp, by simp, by simp⟩
    · simp only [he, Bool.false_eq_true, if_false]
      have hfuel2 : rest.length / BUFFER_SIZE + 2 ≤ f + 1 := by
        rcases hfuel with h | h
        · exact absurd h he
        · exact h
      have hB : BUFFER_SIZE = 1024 := rfl
      by_cases hlen : (List.take BUFFER_SIZE rest).length > 0
      · simp only [hlen, if_true]
        rw [send_open c _ hup]
        simp only
        have hnext : (decide ((List.take BUFFER_SIZE rest).length < BUFFER_SIZE)) = true ∨
            (rest.drop BUFFER_SIZE).length / BUFFER_SIZE + 2 ≤ f := by
          by_cases hshort : rest.length < BUFFER_SIZE
          · left; simp [List.length_take]; omega
          · right
            simp only [List.length_drop]
            have : (rest.length - BUFFER_SIZE) / BUFFER_SIZE + 1 = rest.length / BUFFER_SIZE := by
              rw [hB] at hshort ⊢; omega
            omega
        obtain ⟨t, h1, h2, h3⟩ := ih (rest.drop BUFFER_SIZE) _
          { c with out := c.out ++ [rest.take BUFFER_SIZE] } hup hnext
        refine ⟨rest.take BUFFER_SIZE :: t, ?_, ?_, ?_⟩
        · rw [h1]; simp
        · simp only [List.flatten_cons, h2]
          by_cases hshort : rest.length < BUFFER_SIZE
          · have : (List.take BUFFER_SIZE rest).length < BUFFER_SIZE := by
              simp [List.length_take]; omega
            simp only [this, decide_True, if_true, List.append_nil]
            exact List.take_of_length_le (by omega)
          · have : ¬ (List.take BUFFER_SIZE rest).length < BUFFER_SIZE := by
              simp [List.length_take]; omega
            simp only [this, decide_False, Bool.false_eq_true, if_false]
            exact List.take_append_drop _ _
        · intro p hp
          simp only [List.mem_cons] at hp
          rcases hp with hp | hp
          · subst hp; exact List.ne_nil_of_length_pos hlen
          · exact h3 p hp
      · simp only [hlen, if_false]
        have hnil : rest = [] := by
          have : (List.take BUFFER_SIZE rest).length = 0 := by omega
          simp [List.length_take, hB] at this
          exact this
        subst hnil
        have hnext : (decide ((List.take BUFFER_SIZE ([] : Bytes)).length < BUFFER_SIZE)) = true ∨
            (([] : Bytes).drop BUFFER_SIZE).length / BUFFER_SIZE + 2 ≤ f := by
          left; simp [hB]
        obtain ⟨t, h1, h2, h3⟩ := ih (([] : Bytes).drop BUFFER_SIZE) _ c hup hnext
        refine ⟨t, h1, ?_, h3⟩
        rw [h2]; simp [hB]

/-- The function `forward_file` when the local file opens and nothing fails on the wire: what
it does depends on the first reply of the target server alone. -/
theorem forward_file_up (cwd : CPath) (fs : FS) (srv : Target)
    (local_filepath filename target_dest data : Bytes)
    (hopen : fopen_rb cwd fs local_filepath = some data)
    (hsize : (data.length : Int) ≤ LONG_MAX) :
    ∃ pieces, pieces.flatten = data ∧ (∀ p ∈ pieces, p ≠ []) ∧
      forward_file cwd fs (some ⟨srv, id, none⟩) local_filepath filename target_dest =
        if ((srv fs [snprintf 1024 ("uploadf ".toList ++ filename ++ ' ' :: target_dest)]).2.headD
              []).take 1023 = [] ∨
            strncmp_eq (cstr (((srv fs
              [snprintf 1024 ("uploadf ".toList ++ filename ++ ' ' :: target_dest)]).2.headD
              []).take 1023)) "READY".toList 5 = false then
          ⟨-1, true, ((srv fs
              [snprintf 1024 ("uploadf ".toList ++ filename ++ ' ' :: target_dest)]).2.headD
              []).take 1023,
            (srv fs [snprintf 1024 ("uploadf ".toList ++ filename ++ ' ' :: target_dest)]).1,
            [snprintf 1024 ("uploadf ".toList ++ filename ++ ' ' :: target_dest)], []⟩
        else
          ⟨0, true, ((srv fs
              [snprintf 1024 ("uploadf ".toList ++ filename ++ ' ' :: target_dest)]).2.headD
              []).take 1023,
            (srv fs (snprintf 1024 ("uploadf ".toList ++ filename ++ ' ' :: target_dest) ::
              fmt_ld data.length :: pieces)).1,
            snprintf 1024 ("uploadf ".toList ++ filename ++ ' ' :: target_dest) ::
              fmt_ld data.length :: pieces,
            (((srv fs (snprintf 1024 ("uploadf ".toList ++ filename ++ ' ' :: target_dest) ::
              fmt_ld data.length :: pieces)).2.drop 1).headD []).take 1023⟩ := by
  have hfuel : false = true ∨ data.length / BUFFER_SIZE + 2 ≤ data.length + 2 := by
    right; have := Nat.div_le_self data.length BUFFER_SIZE; omega
  obtain ⟨t, h1, h2, h3⟩ := send_loop_pieces (data.length + 2) data false
    ⟨[], [snprintf 1024 ("uploadf ".toList ++ filename ++ ' ' :: target_dest),
      fmt_ld data.length], none⟩ rfl hfuel
  refine ⟨t, by simpa using h2, h3, ?_⟩
  unfold forward_file
  simp only [hopen, send, Link.peer, id, List.nil_append, Bool.true_eq_false, if_false,
    snprintf_fmt_ld _ hsize, List.cons_append, h1, Option.map_none']

/-! ## What a storage node answers -/

theorem send_file_out (cwd : CPath) (fs : FS) (c : Conn) (filepath : Bytes) :
    ∃ t, (send_file cwd fs c filepath).2.out = c.out ++ t := by
  unfold send_file
  split
  · exact ⟨[], by simp⟩
  · rename_i data _
    dsimp only
    obtain ⟨t1, ht1⟩ := send_out c (snprintf 64 (fmt_ld data.length))
    split
    · rename_i c1 hs
      rw [hs] at ht1
      exact ⟨t1, ht1⟩
    · rename_i c1 hs
      rw [hs] at ht1
      obtain ⟨t2, ht2⟩ := send_loop_out (data.length + 2) data false c1
      simp only at ht1
      split
      · rename_i c2 hl
        rw [hl] at ht2
        exact ⟨t1 ++ t2, by simp only at ht2; rw [ht2, ht1, List.append_assoc]⟩
      · rename_i c2 hl
        rw [hl] at ht2
        exact ⟨t1 ++ t2, by simp only at ht2; rw [ht2, ht1, List.append_assoc]⟩

theorem Node.uploadf_out (cfg : NodeCfg) (env : Env) (fs : FS) (c : Conn) (args : Bytes) :
    ∃ t, (Node.uploadf cfg env fs c args).2.out = c.out ++ t := by
  have hrecv : ∀ (fsx : FS) (p : Bytes) (l1 l2 : String) (n1 n2 : Nat), ∃ t,
      (if (receive_file env.cwd fsx (send_lit env c "READY\n" 6) p).ret = 0 then
        ((receive_file env.cwd fsx (send_lit env c "READY\n" 6) p).fs,
          send_lit env (receive_file env.cwd fsx (send_lit env c "READY\n" 6) p).conn l1 n1)
      else
        ((receive_file env.cwd fsx (send_lit env c "READY\n" 6) p).fs,
          send_lit env (receive_file env.cwd fsx (send_lit env c "READY\n" 6) p).conn l2
            n2)).2.out = c.out ++ t := by
    intro fsx p l1 l2 n1 n2
    obtain ⟨t1, ht1, -⟩ := send_lit_out env c "READY\n" 6
    obtain ⟨ho, -⟩ := receive_file_conn env.cwd fsx (send_lit env c "READY\n" 6) p
    split
    · obtain ⟨t2, ht2, -⟩ := send_lit_out env
        (receive_file env.cwd fsx (send_lit env c "READY\n" 6) p).conn l1 n1
      exact ⟨t1 ++ t2, by rw [ht2, ho, ht1, List.append_assoc]⟩
    · obtain ⟨t2, ht2, -⟩ := send_lit_out env
        (receive_file env.cwd fsx (send_lit env c "READY\n" 6) p).conn l2 n2
      exact ⟨t1 ++ t2, by rw [ht2, ho, ht1, List.append_assoc]⟩
  unfold Node.uploadf
  split
  · exact ⟨_, (send_lit_out env c _ _).choose_spec.1⟩
  · split
    · exact ⟨_, (send_lit_out env c _ _).choose_spec.1⟩
    · split
      · exact ⟨_, (send_lit_out env c _ _).choose_spec.1⟩
      · dsimp only
        split
        · exact ⟨_, (send_lit_out env c _ _).choose_spec.1⟩
        · exact hrecv _ _ _ _ _ _

theorem Node.downltar_out (cfg : NodeCfg) (tarname : String) (env : Env) (fs : FS) (c : Conn)
    (args : Bytes) : ∃ t, (Node.downltar cfg tarname env fs c args).2.out = c.out ++ t := by
  unfold Node.downltar
  dsimp only
  split
  · exact ⟨_, (send_lit_out env c _ _).choose_spec.1⟩
  · split
    · exact ⟨_, (send_lit_out env c _ _).choose_spec.1⟩
    · split
      · exact ⟨_, (send_lit_out env c _ _).choose_spec.1⟩
      · rename_i filetype _ _ _ _
        generalize (env.system _ fs).2 = fs1
        generalize snprintf 256 (home_dir env ++ '/' :: tarname.toList) = tp
        obtain ⟨t1, ht1⟩ := send_file_out env.cwd fs1 c tp
        split
        · split
          · exact ⟨t1, ht1⟩
          · exact ⟨t1, ht1⟩
        · obtain ⟨t2, ht2, -⟩ := send_lit_out env (send_file env.cwd fs1 c tp).2
            "ERROR: Failed to send tar file.\n" 31
          exact ⟨t1 ++ t2, by rw [ht2, ht1, List.append_assoc]⟩

theorem Node.step_out (cfg : NodeCfg) (env : Env) (fs : FS) (c : Conn) :
    ∃ t, (Node.prcclient_step cfg env fs c).2.2.out = c.out ++ t := by
  obtain ⟨hr, -⟩ := recv_out c 1023
  unfold Node.prcclient_step
  dsimp only
  split
  · exact ⟨[], by simp [hr]⟩
  · split
    · exact ⟨[], by simp [hr]⟩
    · rename_i command args _
      split
      · obtain ⟨t, ht⟩ := Node.uploadf_out cfg env fs (recv c 1023).2 args
        exact ⟨t, by rw [ht, hr]⟩
      · split
        · obtain ⟨t, ht⟩ := Node.downltar_out cfg (cfg.tar.getD "") env fs (recv c 1023).2 args
          exact ⟨t, by rw [ht, hr]⟩
        · split
          · exact ⟨[], by simp [hr]⟩
          · obtain ⟨t, ht, -⟩ := send_lit_out env (recv c 1023).2
              ("ERROR: Unknown command in " ++ cfg.id ++ ".\n") 30
            exact ⟨t, by rw [ht, hr]⟩

theorem Node.loop_out (cfg : NodeCfg) (env : Env) (fuel : Nat) (fs : FS) (c : Conn) :
    ∃ t, (Node.prcclient_loop cfg env fuel fs c).2.out = c.out ++ t := by
  induction fuel generalizing fs c with
  | zero => exact ⟨[], by simp [Node.prcclient_loop]⟩
  | succ n ih =>
    unfold Node.prcclient_loop
    dsimp only
    obtain ⟨t1, ht1⟩ := Node.step_out cfg env fs c
    split
    · obtain ⟨t2, ht2⟩ := ih (Node.prcclient_step cfg env fs c).2.1
        (Node.prcclient_step cfg env fs c).2.2
      exact ⟨t1 ++ t2, by rw [ht2, ht1, List.append_assoc]⟩
    · exact ⟨t1, ht1⟩

/-- Once nothing more arrives, the loop of `prcclient` ends without a further effect. -/
theorem Node.loop_done (cfg : NodeCfg) (env : Env) (fuel : Nat) (fs : FS) (c : Conn)
    (h : avail c.inp = []) :
    (Node.prcclient_loop cfg env fuel fs c).1 = fs ∧
    (Node.prcclient_loop cfg env fuel fs c).2.out = c.out := by
  cases fuel with
  | zero => simp [Node.prcclient_loop]
  | succ n =>
    unfold Node.prcclient_loop Node.prcclient_step
    dsimp only
    rw [if_pos (recv_avail_nil c 1023 h)]
    simp only [Bool.false_eq_true, if_false]
    exact ⟨trivial, (recv_out c 1023).1⟩

theorem Node.round_uploadf (cfg : NodeCfg) (env : Env) (fs : FS) (F D : Bytes)
    (rest out : List Bytes) (w : Option Wlim) (hF : Token F) (hD : Token D)
    (hlen : ("uploadf ".toList ++ F ++ ' ' :: D).length ≤ 1023) :
    Node.prcclient_step cfg env fs ⟨("uploadf ".toList ++ F ++ ' ' :: D) :: rest, out, w⟩ =
      (true, Node.uploadf cfg env fs ⟨rest, out, w⟩ (F ++ ' ' :: D)) := by
  have hcmd : "uploadf ".toList ++ F ++ ' ' :: D = "uploadf".toList ++ ' ' :: (F ++ ' ' :: D) := by
    simp
  obtain ⟨hp, -, -⟩ := command_parts "uploadf".toList F D token_uploadf hF hD
  unfold Node.prcclient_step
  rw [recv_whole _ _ _ _ _ hlen]
  simp only [hcmd] at hp ⊢
  rw [if_neg (by simp)]
  simp only [hp, if_true]

/-! ## A storage node receiving an upload -/

/-- The `uploadf` branch of a node for a file of its own type. -/
theorem Node.uploadf_accept (cfg : NodeCfg) (env : Env) (fs : FS) (c : Conn) (F D : Bytes)
    (hF : Token F) (hD : Token D) (hext : strrchr F '.' = some cfg.ext.toList) :
    Node.uploadf cfg env fs c (F ++ ' ' :: D) =
      if (create_directories env fs D).1 ≠ 0 then
        ((create_directories env fs D).2,
          send_lit env c "ERROR: Failed to create directory structure.\n" 48)
      else if (receive_file env.cwd (create_directories env fs D).2 (send_lit env c "READY\n" 6)
          (local_path env D F)).ret = 0 then
        ((receive_file env.cwd (create_directories env fs D).2 (send_lit env c "READY\n" 6)
          (local_path env D F)).fs,
          send_lit env (receive_file env.cwd (create_directories env fs D).2
            (send_lit env c "READY\n" 6) (local_path env D F)).conn
            ("File uploaded successfully to " ++ cfg.id ++ ".\n") 34)
      else
        ((receive_file env.cwd (create_directories env fs D).2 (send_lit env c "READY\n" 6)
          (local_path env D F)).fs,
          send_lit env (receive_file env.cwd (create_directories env fs D).2
            (send_lit env c "READY\n" 6) (local_path env D F)).conn
            ("ERROR: Failed to receive file in " ++ cfg.id ++ ".\n") 38) := by
  unfold Node.uploadf
  simp only [strtok_token_space F D hF, strtok_token D hD, hext, ne_eq, not_true_eq_false,
    if_false]

/-- The first reply of a node to a forwarded `uploadf` of its own type: `READY`, or the
directory error. -/
theorem Node.server_first (cfg : NodeCfg) (env : Env) (fs : FS) (F D : Bytes) (rest : List Bytes)
    (hF : Token F) (hD : Token D) (hext : strrchr F '.' = some cfg.ext.toList)
    (hlen : ("uploadf ".toList ++ F ++ ' ' :: D).length ≤ 1023) :
    (Node.server cfg env fs (("uploadf ".toList ++ F ++ ' ' :: D) :: rest)).2.head? =
      some (if (create_directories env fs D).1 ≠ 0 then
        lit_bytes env "ERROR: Failed to create directory structure.\n".toList 48
        else "READY\n".toList) := by
  have hc1 : send_lit env ⟨rest, [], none⟩ "READY\n" 6 = ⟨rest, ["READY\n".toList], none⟩ := by
    rw [send_lit_open _ _ _ _ rfl, lit_bytes_exact _ _ 6 (by decide)]; rfl
  obtain ⟨ho, hw⟩ := receive_file_conn env.cwd (create_directories env fs D).2
    ⟨rest, ["READY\n".toList], none⟩ (local_path env D F)
  unfold Node.server Node.prcclient Conn.rounds
  simp only
  unfold Node.prcclient_loop
  simp only [Node.round_uploadf cfg env fs F D rest [] none hF hD hlen, if_true]
  obtain ⟨t, ht⟩ := Node.loop_out cfg env
    (List.map (fun ch => ch.length + 1) (("uploadf ".toList ++ F ++ ' ' :: D) :: rest)).sum
    (Node.uploadf cfg env fs ⟨rest, [], none⟩ (F ++ ' ' :: D)).1
    (Node.uploadf cfg env fs ⟨rest, [], none⟩ (F ++ ' ' :: D)).2
  rw [ht, Node.uploadf_accept cfg env fs _ F D hF hD hext, hc1]
  split
  · rw [send_lit_open _ _ _ _ rfl]
    simp
  · split
    · rw [send_lit_open _ _ _ _ hw, ho]
      simp
    · rw [send_lit_open _ _ _ _ hw, ho]
      simp

/-- A node that made its directories and could open its file, fed the length token and the
pieces of the payload: it stores the payload and replies `READY` and its success line. -/
theorem Node.server_stores (cfg : NodeCfg) (env : Env) (fs fs1 : FS) (F D C : Bytes)
    (pieces : List Bytes) (fp : CPath)
    (hcfg : cfg = S2 ∨ cfg = S3 ∨ cfg = S4)
    (hF : Token F) (hD : Token D) (hext : strrchr F '.' = some cfg.ext.toList)
    (hlen : ("uploadf ".toList ++ F ++ ' ' :: D).length ≤ 1023)
    (hC : C ≠ []) (hsize : (C.length : Int) ≤ LONG_MAX)
    (hp1 : pieces.flatten = C) (hp2 : ∀ p ∈ pieces, p ≠ [])
    (hcd : (create_directories env fs D).1 = 0)
    (hopen : fopen_wb env.cwd (create_directories env fs D).2 (local_path env D F) =
      some (fs1, fp)) :
    Node.server cfg env fs (("uploadf ".toList ++ F ++ ' ' :: D) :: fmt_ld C.length :: pieces) =
      ((((create_directories env fs D).2.set fp (Node.file [])).set fp (Node.file C)),
        ["READY\n".toList, ("File uploaded successfully to " ++ cfg.id ++ ".\n").toList]) := by
  have hc1 : send_lit env ⟨fmt_ld C.length :: pieces, [], none⟩ "READY\n" 6 =
      ⟨fmt_ld C.length :: pieces, ["READY\n".toList], none⟩ := by
    rw [send_lit_open _ _ _ _ rfl, lit_bytes_exact _ _ 6 (by decide)]; rfl
  have hav : avail pieces = C ++ [] := by rw [avail_nonempty pieces hp2, hp1]; simp
  obtain ⟨r1, r2, r3⟩ := receive_file_ok env.cwd (create_directories env fs D).2 fs1
    ⟨fmt_ld C.length :: pieces, ["READY\n".toList], none⟩ (local_path env D F) C
    pieces [] fp hC hsize rfl hav hopen
  obtain ⟨ho, hw⟩ := receive_file_conn env.cwd (create_directories env fs D).2
    ⟨fmt_ld C.length :: pieces, ["READY\n".toList], none⟩ (local_path env D F)
  have hlen34 : 34 = ("File uploaded successfully to " ++ cfg.id ++ ".\n").toList.length := by
    rcases hcfg with h | h | h <;> (subst h; decide)
  unfold Node.server Node.prcclient Conn.rounds
  simp only
  unfold Node.prcclient_loop
  simp only [Node.round_uploadf cfg env fs F D _ [] none hF hD hlen, if_true]
  rw [Node.uploadf_accept cfg env fs _ F D hF hD hext, hc1]
  rw [if_neg (by simpa using hcd), if_pos r1]
  simp only
  have hdone := Node.loop_done cfg env
    (List.map (fun ch => ch.length + 1)
      (("uploadf ".toList ++ F ++ ' ' :: D) :: fmt_ld C.length :: pieces)).sum
    (receive_file env.cwd (create_directories env fs D).2
      ⟨fmt_ld C.length :: pieces, ["READY\n".toList], none⟩ (local_path env D F)).fs
    (send_lit env (receive_file env.cwd (create_directories env fs D).2
      ⟨fmt_ld C.length :: pieces, ["READY\n".toList], none⟩ (local_path env D F)).conn
      ("File uploaded successfully to " ++ cfg.id ++ ".\n") 34)
    (by rw [send_lit_open _ _ _ _ hw]; exact r3)
  refine Prod.ext ?_ ?_
  · simp only
    rw [hdone.1, r2]
  · simp only
    rw [hdone.2, send_lit_open _ _ _ _ hw, ho, lit_bytes_exact _ _ 34 hlen34]
    rfl

/-- A node that made its directories but could not open its file: its second reply is the
receive error. -/
theorem Node.server_open_fails (cfg : NodeCfg) (env : Env) (fs : FS) (F D : Bytes)
    (rest : List Bytes)
    (hF : Token F) (hD : Token D) (hext : strrchr F '.' = some cfg.ext.toList)
    (hlen : ("uploadf ".toList ++ F ++ ' ' :: D).length ≤ 1023)
    (hcd : (create_directories env fs D).1 = 0)
    (hopen : fopen_wb env.cwd (create_directories env fs D).2 (local_path env D F) = none) :
    ((Node.server cfg env fs (("uploadf ".toList ++ F ++ ' ' :: D) :: rest)).2.drop 1).head? =
      some (lit_bytes env ("ERROR: Failed to receive file in " ++ cfg.id ++ ".\n").toList 38) := by
  have hc1 : send_lit env ⟨rest, [], none⟩ "READY\n" 6 = ⟨rest, ["READY\n".toList], none⟩ := by
    rw [send_lit_open _ _ _ _ rfl, lit_bytes_exact _ _ 6 (by decide)]; rfl
  have hret : ¬ (receive_file env.cwd (create_directories env fs D).2
      ⟨rest, ["READY\n".toList], none⟩ (local_path env D F)).ret = 0 := by
    intro h0
    obtain ⟨a, b, hab⟩ := receive_file_ret0 _ _ _ _ h0
    rw [hopen] at hab
    exact absurd hab (by simp)
  obtain ⟨ho, hw⟩ := receive_file_conn env.cwd (create_directories env fs D).2
    ⟨rest, ["READY\n".toList], none⟩ (local_path env D F)
  unfold Node.server Node.prcclient Conn.rounds
  simp only
  unfold Node.prcclient_loop
  simp only [Node.round_uploadf cfg env fs F D rest [] none hF hD hlen, if_true]
  obtain ⟨t, ht⟩ := Node.loop_out cfg env
    (List.map (fun ch => ch.length + 1) (("uploadf ".toList ++ F ++ ' ' :: D) :: rest)).sum
    (Node.uploadf cfg env fs ⟨rest, [], none⟩ (F ++ ' ' :: D)).1
    (Node.uploadf cfg env fs ⟨rest, [], none⟩ (F ++ ' ' :: D)).2
  rw [ht, Node.uploadf_accept cfg env fs _ F D hF hD hext, hc1]
  rw [if_neg (by simpa using hcd), if_neg hret]
  simp only
  rw [send_lit_open _ _ _ _ hw, ho]
  simp

/-! ## Targets and rewritten paths -/

/-! ## The relayed upload, end to end -/

theorem nodes_up_target (env : Env) (ext : Bytes) (sid : String) (port : Nat)
    (h : S1.relay_target ext = some (sid, port)) :
    ∃ cfg, (cfg = S2 ∨ cfg = S3 ∨ cfg = S4) ∧
      nodes_up env port = some ⟨Node.server cfg env, id, none⟩ ∧
      cfg.ext.toList = ext ∧ cfg.id = sid ∧ sid.length = 2 ∧
      (∀ ch ∈ sid.toList, ch ≠ ' ' ∧ ch ≠ '\r' ∧ ch ≠ '\n' ∧ ch ≠ NUL) := by
  unfold S1.relay_target at h
  split at h
  · rename_i he
    simp only [Option.some.injEq, Prod.mk.injEq] at h
    obtain ⟨h1, h2⟩ := h
    subst h1 h2 he
    exact ⟨S2, Or.inl rfl, rfl, rfl, rfl, rfl, by decide⟩
  · split at h
    · rename_i he
      simp only [Option.some.injEq, Prod.mk.injEq] at h
      obtain ⟨h1, h2⟩ := h
      subst h1 h2 he
      exact ⟨S3, Or.inr (Or.inl rfl), rfl, rfl, rfl, rfl, by decide⟩
    · split at h
      · rename_i he
        simp only [Option.some.injEq, Prod.mk.injEq] at h
        obtain ⟨h1, h2⟩ := h
        subst h1 h2 he
        exact ⟨S4, Or.inr (Or.inr rfl), rfl, rfl, rfl, rfl, by decide⟩
      · exact absurd h (by simp)

/-- A destination that begins with `S1/`, taken apart. -/
theorem root_split (D : Bytes) (h : strncmp_eq D "S1/".toList 3 = true) :
    D = 'S' :: '1' :: '/' :: D.drop 3 := by
  unfold strncmp_eq at h
  have h3 : D.take 3 = ['S', '1', '/'] := by simpa using h
  have := List.take_append_drop 3 D
  rw [h3] at this
  exact this.symm

/-- The rewritten destination of a relayed upload is a token no longer than the destination. -/
theorem target_dest_token (sid : String) (D : Bytes) (hD : Token D)
    (hroot : strncmp_eq D "S1/".toList 3 = true) (hsl : sid.length = 2)
    (hsid : ∀ ch ∈ sid.toList, ch ≠ ' ' ∧ ch ≠ '\r' ∧ ch ≠ '\n' ∧ ch ≠ NUL) :
    Token (S1.target_dest sid D) ∧ (S1.target_dest sid D).length ≤ D.length ∧
    S1.target_dest sid D = (sid.toList ++ '/' :: D.drop 3).take 511 := by
  have hsp := root_split D hroot
  have h2 : strncmp_eq D "S1".toList 2 = true := by
    rw [hsp]; rfl
  have hd2 : D.drop 2 = '/' :: D.drop 3 := by
    conv_lhs => rw [hsp]
    rfl
  have heq : S1.target_dest sid D = (sid.toList ++ '/' :: D.drop 3).take 511 := by
    unfold S1.target_dest snprintf
    rw [if_pos h2, hd2]
  have hsl2 : sid.toList.length = 2 := by simpa using hsl
  have hDl : D.length = 3 + (D.drop 3).length := by
    conv_lhs => rw [hsp]
    simp; omega
  refine ⟨⟨?_, ?_⟩, ?_, heq⟩
  · rw [heq]
    intro hnil
    have := congrArg List.length hnil
    simp only [List.length_take, List.length_append, List.length_cons, List.length_nil,
      hsl2] at this
    omega
  · intro ch hch
    rw [heq] at hch
    have hmem := List.mem_of_mem_take hch
    simp only [List.mem_append, List.mem_cons] at hmem
    rcases hmem with hm | hm | hm
    · exact hsid ch hm
    · subst hm; decide
    · exact hD.2 ch (List.mem_of_mem_drop hm)
  · rw [heq, List.length_take]
    simp only [List.length_append, List.length_cons, hsl2]
    omega

/-- The physical path `downlf` builds for a relayed type is the path the owning node wrote. -/
theorem download_path (env : Env) (h F D ext : Bytes) (sid : String) (port : Nat)
    (hhome : env.home = some h) (hD : Token D)
    (htarget : S1.relay_target ext = some (sid, port))
    (hroot : strncmp_eq D "S1/".toList 3 = true) :
    S1.full_filepath h (D ++ '/' :: F) ext =
      some (local_path env (S1.target_dest sid D) F) := by
  obtain ⟨cfg, -, -, -, -, hsl, hsid⟩ := nodes_up_target env ext sid port htarget
  obtain ⟨-, -, htd⟩ := target_dest_token sid D hD hroot hsl hsid
  have hsp := root_split D hroot
  have hroot2 : strncmp_eq (D ++ '/' :: F) "S1/".toList 3 = true := by
    rw [hsp]; rfl
  have hdrop : (D ++ '/' :: F).drop 3 = D.drop 3 ++ '/' :: F := by
    conv_lhs => rw [hsp]
    rfl
  have hhd : home_dir env = h := by simp [home_dir, hhome]
  have key : ∀ s : Bytes, s = sid.toList →
      snprintf 512 (h ++ ('/' :: s ++ ['/']) ++ (D.drop 3 ++ '/' :: F)) =
      local_path env (S1.target_dest sid D) F := by
    intro s hs
    unfold local_path snprintf
    rw [hhd, htd, hs]
    have := take_append_take 511 (h ++ ['/']) (sid.toList ++ '/' :: D.drop 3) ('/' :: F)
    simp only [List.append_assoc, List.cons_append, List.nil_append, List.singleton_append]
      at this ⊢
    exact this.symm
  unfold S1.full_filepath
  simp only [hroot2, if_true, hdrop]
  unfold S1.relay_target at htarget
  split at htarget
  · rename_i he
    simp only [Option.some.injEq, Prod.mk.injEq] at htarget
    have hne : ¬ ext = ".c".toList := by rw [he]; decide
    rw [if_neg hne, if_pos he]
    have := key "S2".toList (by rw [← htarget.1])
    rw [← this]
    simp
  · rename_i he1
    split at htarget
    · rename_i he
      simp only [Option.some.injEq, Prod.mk.injEq] at htarget
      have hne : ¬ ext = ".c".toList := by rw [he]; decide
      rw [if_neg hne, if_neg he1, if_pos he]
      have := key "S3".toList (by rw [← htarget.1])
      rw [← this]
      simp
    · rename_i he2
      split at htarget
      · rename_i he
        simp only [Option.some.injEq, Prod.mk.injEq] at htarget
        have hne : ¬ ext = ".c".toList := by rw [he]; decide
        rw [if_neg hne, if_neg he1, if_neg he2, if_pos he]
        have := key "S4".toList (by rw [← htarget.1])
        rw [← this]
        simp
      · exact absurd htarget (by simp)

/-! ## Round trip -/

theorem headD_of_head (l : List Bytes) (x : Bytes) (h : l.head? = some x) : l.headD [] = x := by
  cases l with
  | nil => simp at h
  | cons a t => simpa using h

theorem not_ready_of_head (r : Bytes) (x : Char) (h : r.head? = some x) (hx : x ≠ 'R') :
    strncmp_eq (cstr r) "READY".toList 5 = false := by
  cases r with
  | nil => simp at h
  | cons a t =>
    simp only [List.head?_cons, Option.some.injEq] at h
    subst h
    unfold strncmp_eq cstr
    by_cases ha : a = NUL
    · subst ha; rfl
    · rw [List.takeWhile_cons]
      have : (a != NUL) = true := by simpa using ha
      rw [this]
      simp only [if_true]
      have h5 : List.take 5 "READY".toList = 'R' :: "EADY".toList := rfl
      rw [h5]
      simp [hx]

/-- A successful relayed upload leaves the payload at the path the owning node builds. -/
theorem S1.upload_relay (env : Env) (fs : FS) (F D C more ext : Bytes) (cs : List Bytes)
    (sid : String) (port : Nat)
    (hF : Token F) (hD : Token D)
    (hlen : ("uploadf ".toList ++ F ++ ' ' :: D).length ≤ 1023)
    (hext : strrchr F '.' = some ext)
    (htarget : S1.relay_target ext = some (sid, port))
    (hsize : (C.length : Int) ≤ LONG_MAX) (hpay : avail cs = C ++ more)
    (hok : (S1.upload_round env fs F D C.length cs).conn.out =
      ["READY\n".toList, "File created successfully.\n".toList])
    (hnode : (S1.upload_round env fs F D C.length cs).relay.map Fwd.status =
      some ("File uploaded successfully to " ++ sid ++ ".\n").toList)
    (hdist : canon env.cwd (local_path env D F) ≠
      canon env.cwd (local_path env (S1.target_dest sid D) F)) :
    strncmp_eq D "S1/".toList 3 = true ∧
    stat env.cwd (S1.upload_round env fs F D C.length cs).fs
      (local_path env (S1.target_dest sid D) F) = some (Node.file C) := by
  unfold S1.upload_round at hok hnode ⊢
  rw [S1.step_uploadf env _ fs F D _ _ _ hF hD hlen] at hok hnode ⊢
  simp only at hok hnode ⊢
  obtain ⟨f, hrel, hstatus⟩ : ∃ f, (S1.uploadf env (nodes_up env) fs
      ⟨fmt_ld C.length :: cs, [], none⟩ (F ++ ' ' :: D)).relay = some f ∧
      f.status = ("File uploaded successfully to " ++ sid ++ ".\n").toList := by
    cases hr : (S1.uploadf env (nodes_up env) fs ⟨fmt_ld C.length :: cs, [], none⟩
        (F ++ ' ' :: D)).relay with
    | none => rw [hr] at hnode; simp at hnode
    | some f => rw [hr] at hnode; exact ⟨f, rfl, by simpa using hnode⟩
  obtain ⟨F1, a1, D1, a2, ext1, sid1, port1, hfile, hdest, hext1, htarget1, hroot, hcd, hst, hf⟩ :=
    S1.uploadf_relay_inv env (nodes_up env) fs _ _ f hrel
  rw [strtok_token_space F D hF] at hfile
  simp only [Option.some.injEq, Prod.mk.injEq] at hfile
  obtain ⟨e1, e2⟩ := hfile
  subst e1 e2
  rw [strtok_token D hD] at hdest
  simp only [Option.some.injEq, Prod.mk.injEq] at hdest
  obtain ⟨e3, e4⟩ := hdest
  subst e3 e4
  rw [hext] at hext1
  simp only [Option.some.injEq] at hext1
  subst hext1
  rw [htarget] at htarget1
  simp only [Option.some.injEq, Prod.mk.injEq] at htarget1
  obtain ⟨e5, e6⟩ := htarget1
  subst e5 e6
  refine ⟨hroot, ?_⟩
  have heq := S1.uploadf_relay_eq env (nodes_up env) fs ⟨fmt_ld C.length :: cs, [], none⟩
    (F ++ ' ' :: D) F D D [] ext sid port (strtok_token_space F D hF) (strtok_token D hD) hext
    htarget hroot hcd hst
  rw [← hf] at heq
  rw [heq] at hok ⊢
  obtain ⟨hts1, hres1, hnd1, hfp1, hfs2, hstat1⟩ :=
    S1.staged_ok env fs ⟨fmt_ld C.length :: cs, [], none⟩ F D C more cs hsize rfl hpay hst
  have hC : C ≠ [] := by
    intro h
    subst h
    have hz := receive_file_zero env.cwd (create_directories env fs D).2
      (send_lit env ⟨fmt_ld ([] : Bytes).length :: cs, [], none⟩ "READY\n" 6)
      (local_path env D F) cs (by rw [send_lit_open _ _ _ _ rfl]; rfl)
    unfold S1.staged at hst
    rw [hz] at hst
    exact absurd hst (by decide)
  have hc1 : send_lit env ⟨fmt_ld C.length :: cs, [], none⟩ "READY\n" 6 =
      ⟨fmt_ld C.length :: cs, ["READY\n".toList], none⟩ := by
    rw [send_lit_open _ _ _ _ rfl, lit_bytes_exact _ _ 6 (by decide)]; rfl
  obtain ⟨ho, hw⟩ : (S1.staged env fs ⟨fmt_ld C.length :: cs, [], none⟩ D F).conn.out =
      ["READY\n".toList] ∧
      (S1.staged env fs ⟨fmt_ld C.length :: cs, [], none⟩ D F).conn.wlim = none := by
    unfold S1.staged
    rw [hc1]
    exact receive_file_conn _ _ _ _
  unfold S1.relay_end at hok ⊢
  by_cases hret : f.ret = 0
  · rw [if_pos hret] at hok ⊢
    cases hrm : remove env.cwd f.fs (local_path env D F) with
    | none =>
      exfalso
      simp only [hrm] at hok
      rw [send_lit_open _ _ _ _ hw, ho] at hok
      have hl := lit_bytes_length env "Success but local deletion in S1 failed.\n".toList 50
      simp only [List.cons_append, List.nil_append, List.cons.injEq, and_true, true_and] at hok
      rw [hok] at hl
      revert hl
      decide
    | some fs5 =>
      simp only
      obtain ⟨hfs5, -⟩ := remove_some _ _ _ _ hrm
      obtain ⟨cfg, hcfg, hnet, hcext, hcid, hsl, hsid⟩ := nodes_up_target env ext sid port htarget
      obtain ⟨htdtok, htdlen, -⟩ := target_dest_token sid D hD hroot hsl hsid
      have hopenrb : fopen_rb env.cwd (S1.staged env fs ⟨fmt_ld C.length :: cs, [], none⟩ D F).fs
          (local_path env D F) = some C := by
        simp [fopen_rb, hstat1]
      obtain ⟨pieces, hp1, hp2, hfw⟩ := forward_file_up env.cwd
        (S1.staged env fs ⟨fmt_ld C.length :: cs, [], none⟩ D F).fs (Node.server cfg env)
        (local_path env D F) F (S1.target_dest sid D) C hopenrb hsize
      have hlen2 : ("uploadf ".toList ++ F ++ ' ' :: S1.target_dest sid D).length ≤ 1023 := by
        simp only [List.length_append, List.length_cons] at hlen ⊢
        omega
      have hcmd : snprintf 1024 ("uploadf ".toList ++ F ++ ' ' :: S1.target_dest sid D) =
          "uploadf ".toList ++ F ++ ' ' :: S1.target_dest sid D := by
        unfold snprintf
        exact List.take_of_length_le (by omega)
      have hext2 : strrchr F '.' = some cfg.ext.toList := by rw [hcext]; exact hext
      rw [hnet, hfw, hcmd] at hf
      have hfirst := Node.server_first cfg env
        (S1.staged env fs ⟨fmt_ld C.length :: cs, [], none⟩ D F).fs F (S1.target_dest sid D) []
        hF htdtok hext2 hlen2
      by_cases hcdn : (create_directories env
          (S1.staged env fs ⟨fmt_ld C.length :: cs, [], none⟩ D F).fs (S1.target_dest sid D)).1 = 0
      · rw [if_neg (by simpa using hcdn)] at hfirst
        have hhd := headD_of_head _ _ hfirst
        rw [hhd] at hf
        have hgood : ¬ (List.take 1023 "READY\n".toList = [] ∨
            strncmp_eq (cstr (List.take 1023 "READY\n".toList)) "READY".toList 5 = false) := by
          decide
        rw [if_neg hgood] at hf
        cases hopn : fopen_wb env.cwd (create_directories env
            (S1.staged env fs ⟨fmt_ld C.length :: cs, [], none⟩ D F).fs (S1.target_dest sid D)).2
            (local_path env (S1.target_dest sid D) F) with
        | none =>
          exfalso
          have h2 := Node.server_open_fails cfg env
            (S1.staged env fs ⟨fmt_ld C.length :: cs, [], none⟩ D F).fs F (S1.target_dest sid D)
            (fmt_ld C.length :: pieces) hF htdtok hext2 hlen2 hcdn hopn
          have h3 := headD_of_head _ _ h2
          rw [hf] at hstatus
          simp only at hstatus
          rw [h3] at hstatus
          have hh := congrArg List.head? hstatus
          rw [List.head?_take] at hh
          simp only [show (1023 : Nat) ≠ 0 by decide, if_false] at hh
          have hE : (lit_bytes env ("ERROR: Failed to receive file in " ++ cfg.id ++
              ".\n").toList 38).head? = some 'E' :=
            lit_bytes_head env _ 38 'E'
              ("RROR: Failed to receive file in ".toList ++ cfg.id.toList ++ ".\n".toList)
              (by simp) (by decide)
          rw [hE] at hh
          revert hh
          simp
        | some v =>
          obtain ⟨fs1, fp⟩ := v
          obtain ⟨hts2, hres2, hnd2, hfp2, -⟩ := fopen_wb_some _ _ _ _ _ hopn
          have hcanon2 := resolve_eq_canon _ _ _ _ hres2
          subst hcanon2
          have hsrv := Node.server_stores cfg env
            (S1.staged env fs ⟨fmt_ld C.length :: cs, [], none⟩ D F).fs fs1 F
            (S1.target_dest sid D) C pieces _ hcfg hF htdtok hext2 hlen2 hC hsize hp1 hp2 hcdn hopn
          rw [hsrv] at hf
          have hffs : f.fs = ((create_directories env
              (S1.staged env fs ⟨fmt_ld C.length :: cs, [], none⟩ D F).fs
              (S1.target_dest sid D)).2.set (canon env.cwd (local_path env (S1.target_dest sid D)
              F)) (Node.file [])).set (canon env.cwd (local_path env (S1.target_dest sid D) F))
              (Node.file C) := by
            rw [hf]
          have hP1 : (create_directories env
              (S1.staged env fs ⟨fmt_ld C.length :: cs, [], none⟩ D F).fs
              (S1.target_dest sid D)).2.get (canon env.cwd (local_path env D F)) =
              some (Node.file C) := by
            apply create_directories_keeps
            rw [hfs2, get_written _ _ _ _ _ hfp1, if_pos rfl]
          have hmono : ∀ q, (create_directories env
              (S1.staged env fs ⟨fmt_ld C.length :: cs, [], none⟩ D F).fs
              (S1.target_dest sid D)).2.get q = some Node.dir → fs5.get q = some Node.dir := by
            intro q hq
            have hq2 : q ≠ canon env.cwd (local_path env (S1.target_dest sid D) F) := by
              intro h; subst h; exact hnd2 hq
            have hq1 : q ≠ canon env.cwd (local_path env D F) := by
              intro h; subst h; rw [hP1] at hq; exact absurd hq (by simp)
            rw [hfs5, FS.get_erase_other _ _ _ hq1, hffs, get_written _ _ _ _ _ hfp2, if_neg hq2]
            exact hq
          refine stat_file env.cwd fs5 _ _ C hts2 (resolve_mono env.cwd _ fs5 hmono _ _ hres2) ?_
          rw [hfs5, FS.get_erase_other _ _ _ (Ne.symm hdist), hffs, get_written _ _ _ _ _ hfp2,
            if_pos rfl]
      · exfalso
        rw [if_pos (by simpa using hcdn)] at hfirst
        have hhd := headD_of_head _ _ hfirst
        rw [hhd] at hf
        have hE : (List.take 1023 (lit_bytes env
            "ERROR: Failed to create directory structure.\n".toList 48)).head? = some 'E' := by
          rw [List.head?_take]
          simp only [show (1023 : Nat) ≠ 0 by decide, if_false]
          exact lit_bytes_head env _ 48 'E' _ rfl (by decide)
        have hbad := not_ready_of_head _ 'E' hE (by decide)
        rw [if_pos (Or.inr hbad)] at hf
        rw [hf] at hret
        simp at hret
  · exfalso
    rw [if_neg hret] at hok
    simp only at hok
    rw [send_lit_open _ _ _ _ hw, ho, lit_bytes_exact _ _ 26 (by decide)] at hok
    simp only [List.cons_append, List.nil_append, List.cons.injEq, and_true, true_and] at hok
    revert hok
    decide

/-- The path `downlf` builds for a `.c` file is the path `uploadf` wrote. -/
theorem download_path_c (env : Env) (h F D : Bytes) (hhome : env.home = some h) :
    S1.full_filepath h (D ++ '/' :: F) ".c".toList = some (local_path env D F) := by
  have hhd : home_dir env = h := by simp [home_dir, hhome]
  unfold S1.full_filepath local_path
  simp only [if_true, hhd, List.append_assoc, List.cons_append]

/-- C1 (amended). Round trip through the gateway, with the home directory set: the client sends
`uploadf F D`, then the length token of `C` as a read of its own, then `C` (split across reads
in any way); if that upload succeeded (for `.c`: `READY` and the gateway's success line; for
`.pdf`, `.txt`, `.zip`: `READY`, `File created successfully.`, the owning node reported success
and the staged copy is a different file from the one the node wrote), then `downlf D/F` on
the resulting file system sends the client exactly the decimal length of `C` followed by
`C`. -/
theorem upload_download_round_trip (env : Env) (fs : FS) (h F D C more ext : Bytes)
    (cs : List Bytes)
    (hhome : env.home = some h) (hF : Token F) (hD : Token D)
    (hlen : ("uploadf ".toList ++ F ++ ' ' :: D).length ≤ 1023)
    (hext : strrchr F '.' = some ext)
    (hsize : (C.length : Int) ≤ LONG_MAX) (hpay : avail cs = C ++ more)
    (hup : S1.upload_succeeded env (S1.upload_round env fs F D C.length cs) F D ext) :
    (S1.download_round env (S1.upload_round env fs F D C.length cs).fs F D).conn.sent =
      fmt_ld C.length ++ C := by
  unfold S1.upload_succeeded at hup
  by_cases hc : ext = ".c".toList
  · rw [if_pos hc] at hup
    subst hc
    obtain ⟨hroot, hstat⟩ := S1.upload_c env fs F D C more cs hF hD hlen hext hsize hpay hup
    exact S1.download_file env _ h F D _ _ C hhome hF hD hlen hext hroot
      (download_path_c env h F D hhome) hstat hsize
  · rw [if_neg hc] at hup
    obtain ⟨hsome, hok, hnode, hdist⟩ := hup
    cases htarget : S1.relay_target ext with
    | none => rw [htarget] at hsome; exact absurd hsome (by decide)
    | some t =>
      obtain ⟨sid, port⟩ := t
      have hown : S1.owner ext = sid := by unfold S1.owner; rw [htarget]
      rw [hown] at hnode hdist
      obtain ⟨hroot, hstat⟩ := S1.upload_relay env fs F D C more ext cs sid port hF hD hlen hext
        htarget hsize hpay hok hnode hdist
      exact S1.download_file env _ h F D _ _ C hhome hF hD hlen hext hroot
        (download_path env h F D ext sid port hhome hD htarget hroot) hstat hsize

/-! ## Evaluated scenarios -/

set_option maxRecDepth 100000 in
/-- Witness for `upload_download_round_trip`: `a.pdf` holding `hello`, uploaded to `S1/x` with
the payload split over two reads, is relayed to S2 and comes back as `5hello`. -/
theorem upload_download_round_trip_witness :
    S1.upload_succeeded exEnv (S1.upload_round exEnv exFS "a.pdf".toList "S1/x".toList
      "hello".toList.length ["he".toList, "llo".toList]) "a.pdf".toList "S1/x".toList
      ".pdf".toList ∧
    (S1.download_round exEnv (S1.upload_round exEnv exFS "a.pdf".toList "S1/x".toList
      "hello".toList.length ["he".toList, "llo".toList]).fs "a.pdf".toList
      "S1/x".toList).conn.sent = fmt_ld "hello".toList.length ++ "hello".toList :=
  ⟨by decide,
    upload_download_round_trip exEnv exFS "/h".toList "a.pdf".toList "S1/x".toList
      "hello".toList [] ".pdf".toList ["he".toList, "llo".toList] rfl (by decide) (by decide)
      (by decide) (by decide) (by decide) (by decide) (by decide)⟩

set_option maxRecDepth 100000 in
/-- C1 (counterexample). `uploadf a.pdf S1/../S2` of the content `hello`: the destination begins
with `S1/`, the gateway answers `READY` and `File created successfully.`, node S2 reports
`File uploaded successfully to S2.`, yet the staged copy and the file of the node are the same
file `/h/S2/a.pdf`, which the gateway removes after the relay; `downlf S1/../S2/a.pdf` then
answers with an error line and no payload. -/
theorem round_trip_lost_through_alias :
    strncmp_eq "S1/../S2".toList "S1/".toList 3 = true ∧
    (S1.upload_round exEnv exFS "a.pdf".toList "S1/../S2".toList 5
      ["he".toList, "llo".toList]).conn.out =
      ["READY\n".toList, "File created successfully.\n".toList] ∧
    (S1.upload_round exEnv exFS "a.pdf".toList "S1/../S2".toList 5
      ["he".toList, "llo".toList]).relay.map Fwd.status =
      some "File uploaded successfully to S2.\n".toList ∧
    stat exEnv.cwd (S1.upload_round exEnv exFS "a.pdf".toList "S1/../S2".toList 5
      ["he".toList, "llo".toList]).fs "/h/S2/a.pdf".toList = none ∧
    (S1.download_round exEnv (S1.upload_round exEnv exFS "a.pdf".toList "S1/../S2".toList 5
      ["he".toList, "llo".toList]).fs "a.pdf".toList "S1/../S2".toList).conn.out =
      [lit_bytes exEnv "ERROR: Specified path is not a file.\n".toList 38] ∧
    (S1.download_round exEnv (S1.upload_round exEnv exFS "a.pdf".toList "S1/../S2".toList 5
      ["he".toList, "llo".toList]).fs "a.pdf".toList "S1/../S2".toList).conn.sent ≠
      "5hello".toList := by
  decide

set_option maxRecDepth 100000 in
/-- C7 (divergence of the code). Two uploads of `a.pdf` through the gateway in which the owning
node answers `READY` and then does not report success. In the first, node S2 cannot open its
target (an existing directory) and its final status is its receive error; in the second the peer
closes the connection after `READY`, so there is no status line. In both `forward_file` returns
0, the gateway removes the staged copy `/h/S1/x/a.pdf` and answers the client
`File created successfully.`; nothing was stored by the node. -/
theorem relay_ignores_node_status :
    ((S1.upload_round exEnv exFS_nodeDir "a.pdf".toList "S1/x".toList 5
        ["hello".toList]).relay.map Fwd.status =
      some (lit_bytes exEnv "ERROR: Failed to receive file in S2.\n".toList 38) ∧
    (S1.upload_round exEnv exFS_nodeDir "a.pdf".toList "S1/x".toList 5
        ["hello".toList]).relay.map Fwd.ret = some 0 ∧
    (S1.upload_round exEnv exFS_nodeDir "a.pdf".toList "S1/x".toList 5
        ["hello".toList]).conn.out =
      ["READY\n".toList, "File created successfully.\n".toList] ∧
    stat exEnv.cwd (S1.upload_round exEnv exFS_nodeDir "a.pdf".toList "S1/x".toList 5
        ["hello".toList]).fs "/h/S1/x/a.pdf".toList = none ∧
    stat exEnv.cwd (S1.upload_round exEnv exFS_nodeDir "a.pdf".toList "S1/x".toList 5
        ["hello".toList]).fs "/h/S2/x/a.pdf".toList = some Node.dir) ∧
    ((S1.uploadf exEnv (fun _ => some readyThenClose) exFS
        ⟨["5".toList, "hello".toList], [], none⟩ "a.pdf S1/x".toList).relay.map Fwd.status =
      some [] ∧
    (S1.uploadf exEnv (fun _ => some readyThenClose) exFS
        ⟨["5".toList, "hello".toList], [], none⟩ "a.pdf S1/x".toList).relay.map Fwd.ret =
      some 0 ∧
    (S1.uploadf exEnv (fun _ => some readyThenClose) exFS
        ⟨["5".toList, "hello".toList], [], none⟩ "a.pdf S1/x".toList).conn.out =
      ["READY\n".toList, "File created successfully.\n".toList] ∧
    stat exEnv.cwd (S1.uploadf exEnv (fun _ => some readyThenClose) exFS
        ⟨["5".toList, "hello".toList], [], none⟩ "a.pdf S1/x".toList).fs
        "/h/S1/x/a.pdf".toList = none) := by
  decide

set_option maxRecDepth 100000 in
/-- Witness for `relay_command`: `uploadf a.pdf S1/x` is forwarded as `uploadf a.pdf S2/x`. -/
theorem relay_command_witness :
    (S1.uploadf exEnv (nodes_up exEnv) exFS ⟨["5".toList, "hello".toList], [], none⟩
      "a.pdf S1/x".toList).relay.map (fun f => f.sent.head?) =
      some (some "uploadf a.pdf S2/x".toList) ∧
    "uploadf a.pdf S2/x".toList =
      "uploadf ".toList ++ "a.pdf".toList ++ " ".toList ++ "S2".toList ++ "/x".toList :=
  ⟨by decide,
    relay_command exEnv (nodes_up exEnv) exFS ⟨["5".toList, "hello".toList], [], none⟩
      "a.pdf S1/x".toList "a.pdf".toList "S1/x".toList "S1/x".toList [] ".pdf".toList
      "/x".toList "uploadf a.pdf S2/x".toList "S2"
      (forward_file exEnv.cwd (S1.staged exEnv exFS ⟨["5".toList, "hello".toList], [], none⟩
        "S1/x".toList "a.pdf".toList).fs (nodes_up exEnv PORT_S2)
        (local_path exEnv "S1/x".toList "a.pdf".toList) "a.pdf".toList
        (S1.target_dest "S2" "S1/x".toList))
      (by decide) (by decide) (by decide) (Or.inl ⟨rfl, rfl⟩) rfl (by decide) (by decide)
      (by rfl) (by decide)⟩

set_option maxRecDepth 1000000 in
set_option maxHeartbeats 4000000 in
/-- C9 (counterexample). For the accepted destination `longDest` (605 bytes, beginning with
`S1/`) and the file `a.pdf`, the command sent to node S2 ends after 511 bytes of rewritten
destination: the last component has 106 of its 200 bytes, so the command is not
`"uploadf a.pdf " ++ "S2" ++ r`. -/
theorem relay_command_truncated :
    longDest = "S1".toList ++ longDest.drop 2 ∧
    (S1.uploadf exEnv (nodes_up exEnv) longFS ⟨["5".toList, "hello".toList], [], none⟩
      ("a.pdf ".toList ++ longDest)).relay.map (fun f => f.sent.head?) =
      some (some ("uploadf a.pdf S2/".toList ++ List.replicate 200 'a' ++ '/' ::
        List.replicate 200 'b' ++ '/' :: List.replicate 106 'c')) ∧
    "uploadf a.pdf S2/".toList ++ List.replicate 200 'a' ++ '/' ::
        List.replicate 200 'b' ++ '/' :: List.replicate 106 'c' ≠
      "uploadf ".toList ++ "a.pdf".toList ++ " ".toList ++ "S2".toList ++ longDest.drop 2 := by
  decide

/-! ## Verbs -/

/-- A read that yields a first token is not empty. -/
theorem recv_ne_nil_of_token (c : Conn) (command args : Bytes)
    (hcmd : strtok (command_line (recv c 1023).1) = some (command, args)) :
    (recv c 1023).1 ≠ [] := by
  intro h
  rw [h] at hcmd
  have hn : strtok (command_line []) = none := by decide
  rw [hn] at hcmd
  exact absurd hcmd (by simp)

/-- The dispatch of the gateway on the first token of the command line. -/
theorem S1.step_dispatch (env : Env) (net : Nat → Option Link) (fs : FS) (c : Conn)
    (command args : Bytes)
    (hcmd : strtok (command_line (recv c 1023).1) = some (command, args)) :
    S1.prcclient_step env net fs c =
      if command = "uploadf".toList then (true, S1.uploadf env net fs (recv c 1023).2 args)
      else if command = "downlf".toList then (true, S1.downlf env fs (recv c 1023).2 args)
      else if command = "removef".toList then (true, S1.removef env fs (recv c 1023).2 args)
      else if command = "dispfnames".toList then
        (true, S1.dispfnames env fs (recv c 1023).2 args)
      else if command = "downltar".toList then (true, S1.downltar env fs (recv c 1023).2 args)
      else if command = "exit".toList then (false, ⟨fs, (recv c 1023).2, none⟩)
      else (true, ⟨fs, send_lit env (recv c 1023).2 "ERROR: Invalid command. Try again!\n" 35,
        none⟩) := by
  have hne := recv_ne_nil_of_token c command args hcmd
  unfold S1.prcclient_step
  simp only [hne, if_false, hcmd]

/-- The dispatch of a storage node on the first token of the command line. -/
theorem Node.round_dispatch (cfg : NodeCfg) (env : Env) (fs : FS) (c : Conn)
    (command args : Bytes)
    (hcmd : strtok (command_line (recv c 1023).1) = some (command, args)) :
    Node.prcclient_step cfg env fs c =
      if command = "uploadf".toList then (true, Node.uploadf cfg env fs (recv c 1023).2 args)
      else if command = "downltar".toList ∧ cfg.tar ≠ none then
        (true, Node.downltar cfg (cfg.tar.getD "") env fs (recv c 1023).2 args)
      else if command = "exit".toList then (false, fs, (recv c 1023).2)
      else (true, fs, send_lit env (recv c 1023).2
        ("ERROR: Unknown command in " ++ cfg.id ++ ".\n") 30) := by
  have hne := recv_ne_nil_of_token c command args hcmd
  unfold Node.prcclient_step
  simp only [hne, if_false, hcmd]

/-- C11 (as amended). For a command line whose first token is `command`: the gateway runs the
branch of `uploadf`, `downlf`, `removef`, `dispfnames`, `downltar` or `exit` when `command` is
that verb, and for every other token sends `ERROR: Invalid command. Try again!` with no other
effect; a storage node runs the branch of `uploadf`, `downltar` (S2 and S3 only) or `exit`, and
for every other token (for S4 that includes `downltar`) sends `ERROR: Unknown command in <id>.`
with no other effect. -/
theorem verb_sets (env : Env) (net : Nat → Option Link) (fs : FS) (c : Conn) (cfg : NodeCfg)
    (command args : Bytes)
    (hcfg : cfg = S2 ∨ cfg = S3 ∨ cfg = S4)
    (hcmd : strtok (command_line (recv c 1023).1) = some (command, args)) :
    (command ∉ S1.verbs → S1.prcclient_step env net fs c =
      (true, ⟨fs, send_str (recv c 1023).2 "ERROR: Invalid command. Try again!\n".toList,
        none⟩)) ∧
    (command ∉ Node.verbs cfg → Node.prcclient_step cfg env fs c =
      (true, fs, send_str (recv c 1023).2
        ("ERROR: Unknown command in " ++ cfg.id ++ ".\n").toList)) ∧
    (command = "uploadf".toList → S1.prcclient_step env net fs c =
      (true, S1.uploadf env net fs (recv c 1023).2 args)) ∧
    (command = "downlf".toList → S1.prcclient_step env net fs c =
      (true, S1.downlf env fs (recv c 1023).2 args)) ∧
    (command = "removef".toList → S1.prcclient_step env net fs c =
      (true, S1.removef env fs (recv c 1023).2 args)) ∧
    (command = "dispfnames".toList → S1.prcclient_step env net fs c =
      (true, S1.dispfnames env fs (recv c 1023).2 args)) ∧
    (command = "downltar".toList → S1.prcclient_step env net fs c =
      (true, S1.downltar env fs (recv c 1023).2 args)) ∧
    (command = "exit".toList → S1.prcclient_step env net fs c =
      (false, ⟨fs, (recv c 1023).2, none⟩)) ∧
    (command = "uploadf".toList → Node.prcclient_step cfg env fs c =
      (true, Node.uploadf cfg env fs (recv c 1023).2 args)) ∧
    (command = "downltar".toList → cfg ≠ S4 → Node.prcclient_step cfg env fs c =
      (true, Node.downltar cfg (cfg.tar.getD "") env fs (recv c 1023).2 args)) ∧
    (command = "exit".toList → Node.prcclient_step cfg env fs c =
      (false, fs, (recv c 1023).2)) := by
  have hS1 := S1.step_dispatch env net fs c command args hcmd
  have hN := Node.round_dispatch cfg env fs c command args hcmd
  have hlen : 30 = ("ERROR: Unknown command in " ++ cfg.id ++ ".\n").toList.length := by
    rcases hcfg with h | h | h <;> (subst h; decide)
  refine ⟨?_, ?_, ?_, ?_, ?_, ?_, ?_, ?_, ?_, ?_, ?_⟩
  · intro h
    simp only [S1.verbs, List.mem_cons, List.mem_singleton, List.not_mem_nil, or_false,
      not_or] at h
    obtain ⟨h1, h2, h3, h4, h5, h6⟩ := h
    rw [hS1, if_neg h1, if_neg h2, if_neg h3, if_neg h4, if_neg h5, if_neg h6,
      send_lit_exact env _ _ 35 (by decide)]
  · intro h
    rw [hN]
    by_cases ht : cfg.tar = none
    · simp only [Node.verbs, ht, if_true, List.mem_cons, List.mem_singleton, List.not_mem_nil,
        or_false, not_or] at h
      obtain ⟨h1, h3⟩ := h
      rw [if_neg h1, if_neg (fun hh => hh.2 ht), if_neg h3, send_lit_exact env _ _ 30 hlen]
    · simp only [Node.verbs, ht, if_false, List.mem_cons, List.mem_singleton, List.not_mem_nil,
        or_false, not_or] at h
      obtain ⟨h1, h2, h3⟩ := h
      rw [if_neg h1, if_neg (fun hh => h2 hh.1), if_neg h3, send_lit_exact env _ _ 30 hlen]
  · intro h; rw [hS1, if_pos h]
  · intro h; subst h; rw [hS1]; rfl
  · intro h; subst h; rw [hS1]; rfl
  · intro h; subst h; rw [hS1]; rfl
  · intro h; subst h; rw [hS1]; rfl
  · intro h; subst h; rw [hS1]; rfl
  · intro h; rw [hN, if_pos h]
  · intro h h4
    have ht : cfg.tar ≠ none := by
      rcases hcfg with h' | h' | h'
      · subst h'; decide
      · subst h'; decide
      · exact absurd h' h4
    subst h
    rw [hN, if_neg (by decide), if_pos ⟨rfl, ht⟩]
  · intro h; subst h; rw [hN]; simp

/-- Witness for `verb_sets`: the gateway answers the line `hello` with its invalid-command
error. -/
theorem verb_sets_witness :
    S1.prcclient_step exEnv (nodes_up exEnv) exFS ⟨["hello".toList], [], none⟩ =
      (true, ⟨exFS, ⟨[], ["ERROR: Invalid command. Try again!\n".toList], none⟩, none⟩) :=
  (verb_sets exEnv (nodes_up exEnv) exFS ⟨["hello".toList], [], none⟩ S2 "hello".toList []
    (Or.inl rfl) (by decide)).1 (by decide)

/-- C11 (counterexample). Node S4 has no `downltar` branch: it answers `downltar .zip` with its
unknown-command error. -/
theorem S4_does_not_know_downltar :
    Node.prcclient_step S4 exEnv exFS ⟨["downltar .zip".toList], [], none⟩ =
      (true, exFS, ⟨[], ["ERROR: Unknown command in S4.\n".toList], none⟩) := by
  decide

/-! ## The path rule and the extension rule of the gateway -/

/-- C13 (as amended). A path argument `p` that does not begin with `S1/` changes nothing in
the file system and starts no transfer or relay: `removef` and `dispfnames` answer it with
`ERROR: Path must start with 'S1/'.` (the 34 bytes the program sends, without the newline);
`downlf`, and `uploadf` with `p` as destination, test the extension first, so they answer with
`ERROR: File has no extension.` when the path (for `uploadf`: the file name) has no `.`, and
with the path error otherwise. -/
theorem path_rule (env : Env) (net : Nat → Option Link) (fs : FS) (c : Conn)
    (args p rest : Bytes)
    (hp : strtok args = some (p, rest))
    (hroot : strncmp_eq p "S1/".toList 3 = false) :
    S1.removef env fs c args =
      ⟨fs, send_str c "ERROR: Path must start with 'S1/'.".toList, none⟩ ∧
    S1.dispfnames env fs c args =
      ⟨fs, send_str c "ERROR: Path must start with 'S1/'.".toList, none⟩ ∧
    S1.downlf env fs c args =
      ⟨fs, send_str c (if strrchr p '.' = none then "ERROR: File has no extension.\n".toList
        else "ERROR: Path must start with 'S1/'.".toList), none⟩ ∧
    ∀ uargs filename, strtok uargs = some (filename, args) →
      S1.uploadf env net fs c uargs =
        ⟨fs, send_str c (if strrchr filename '.' = none
          then "ERROR: File has no extension.\n".toList
          else "ERROR: Path must start with 'S1/'.".toList), none⟩ := by
  have hpath : send_lit env c "ERROR: Path must start with 'S1/'.\n" 34 =
      send_str c "ERROR: Path must start with 'S1/'.".toList := by
    unfold send_lit send_str
    rw [lit_bytes_le env _ 34 (by decide)]
    rfl
  have hext : send_lit env c "ERROR: File has no extension.\n" 30 =
      send_str c "ERROR: File has no extension.\n".toList :=
    send_lit_exact env c _ 30 (by decide)
  refine ⟨?_, ?_, ?_, ?_⟩
  · unfold S1.removef
    simp only [hp, hroot, if_true, hpath]
  · unfold S1.dispfnames
    simp only [hp, hroot, if_true, hpath]
  · unfold S1.downlf
    simp only [hp]
    cases he : strrchr p '.' with
    | none => simp only [if_true, hext]
    | some e => simp only [hroot, if_true, hpath, if_false, reduceCtorEq]
  · intro uargs filename hu
    unfold S1.uploadf
    simp only [hu, hp]
    cases he : strrchr filename '.' with
    | none => simp only [if_true, hext]
    | some e => simp only [hroot, if_true, hpath, if_false, reduceCtorEq]

/-- Witness for `path_rule`: `removef S2/a.pdf` is answered with the path error. -/
theorem path_rule_witness :
    S1.removef exEnv exFS ⟨[], [], none⟩ "S2/a.pdf".toList =
      ⟨exFS, ⟨[], ["ERROR: Path must start with 'S1/'.".toList], none⟩, none⟩ :=
  (path_rule exEnv (nodes_up exEnv) exFS ⟨[], [], none⟩ "S2/a.pdf".toList "S2/a.pdf".toList []
    (by decide) (by decide)).1

/-- C13 (counterexample). The path `docs` does not begin with `S1/`, and `downlf docs` is
answered with the missing-extension error, not with the path error. -/
theorem downlf_tests_extension_first :
    strncmp_eq "docs".toList "S1/".toList 3 = false ∧
    (S1.prcclient_step exEnv (nodes_up exEnv) exFS
      ⟨["downlf docs".toList], [], none⟩).2.conn.out =
      ["ERROR: File has no extension.\n".toList] := by
  decide

/-- The bytes sent for a literal begin like the literal. -/
theorem lit_bytes_starts (env : Env) (lit pre : Bytes) (n : Nat)
    (h : pre <+: lit) (hn : pre.length ≤ n) : pre <+: lit_bytes env lit n := by
  obtain ⟨t, rfl⟩ := h
  unfold lit_bytes
  rw [List.append_assoc, List.take_append_eq_append_take, List.take_of_length_le hn]
  exact List.prefix_append _ _

/-- A reply sent from a literal that begins with `ERROR: ` is an error reply. -/
theorem send_lit_error (env : Env) (c : Conn) (lit : String) (n : Nat)
    (h : "ERROR: ".toList <+: lit.toList) (hn : 7 ≤ n) :
    ∃ msg, "ERROR: ".toList <+: msg ∧ send_lit env c lit n = send_str c msg :=
  ⟨lit_bytes env lit.toList n, lit_bytes_starts env _ _ n h hn, rfl⟩

/-- C14. When the last extension of the file name given to `uploadf`, or of the path given to
`downlf` or `removef`, is missing or is not `.c`, `.pdf`, `.txt` or `.zip`, the only thing the
gateway sends is one error reply (a message beginning with `ERROR: `): `uploadf` sends no
`READY` and relays nothing, `downlf` sends no stream, and `removef` leaves the file system as
it was (so does `downlf`). -/
theorem extension_rule (env : Env) (net : Nat → Option Link) (fs : FS) (c : Conn)
    (args name rest : Bytes)
    (hp : strtok args = some (name, rest))
    (hbad : ∀ ext, strrchr name '.' = some ext →
      ext ≠ ".c".toList ∧ ext ≠ ".pdf".toList ∧ ext ≠ ".txt".toList ∧ ext ≠ ".zip".toList) :
    (∃ msg, "ERROR: ".toList <+: msg ∧
      (S1.uploadf env net fs c args).conn = send_str c msg ∧
      (S1.uploadf env net fs c args).relay = none) ∧
    (∃ msg, "ERROR: ".toList <+: msg ∧ S1.downlf env fs c args = ⟨fs, send_str c msg, none⟩) ∧
    (∃ msg, "ERROR: ".toList <+: msg ∧
      S1.removef env fs c args = ⟨fs, send_str c msg, none⟩) := by
  refine ⟨?_, ?_, ?_⟩
  · unfold S1.uploadf
    simp only [hp]
    cases hd : strtok rest with
    | none =>
      obtain ⟨msg, h1, h2⟩ := send_lit_error env c
        "ERROR: Invalid uploadf command format.\n" 41 (by decide) (by decide)
      exact ⟨msg, h1, h2, rfl⟩
    | some v =>
      obtain ⟨destination, args2⟩ := v
      simp only
      cases he : strrchr name '.' with
      | none =>
        obtain ⟨msg, h1, h2⟩ := send_lit_error env c
          "ERROR: File has no extension.\n" 30 (by decide) (by decide)
        exact ⟨msg, h1, h2, rfl⟩
      | some ext =>
        obtain ⟨e1, e2, e3, e4⟩ := hbad ext he
        simp only
        by_cases hroot : strncmp_eq destination "S1/".toList 3 = false
        · rw [if_pos hroot]
          obtain ⟨msg, h1, h2⟩ := send_lit_error env c
            "ERROR: Path must start with 'S1/'.\n" 34 (by decide) (by decide)
          exact ⟨msg, h1, h2, rfl⟩
        · rw [if_neg hroot]
          by_cases hcd : (create_directories env fs destination).1 ≠ 0
          · rw [if_pos hcd]
            obtain ⟨msg, h1, h2⟩ := send_lit_error env c
              "ERROR: Failed to create local directory structure.\n" 52 (by decide) (by decide)
            exact ⟨msg, h1, h2, rfl⟩
          · rw [if_neg hcd, if_neg e1, if_neg (fun hh => hh.elim e2 (fun hh => hh.elim e3 e4))]
            obtain ⟨msg, h1, h2⟩ := send_lit_error env c
              "ERROR: Unsupported file type.\n" 31 (by decide) (by decide)
            exact ⟨msg, h1, h2, rfl⟩
  · unfold S1.downlf
    simp only [hp]
    cases he : strrchr name '.' with
    | none =>
      obtain ⟨msg, h1, h2⟩ := send_lit_error env c
        "ERROR: File has no extension.\n" 30 (by decide) (by decide)
      exact ⟨msg, h1, by rw [h2]⟩
    | some ext =>
      obtain ⟨e1, e2, e3, e4⟩ := hbad ext he
      simp only
      by_cases hroot : strncmp_eq name "S1/".toList 3 = false
      · rw [if_pos hroot]
        obtain ⟨msg, h1, h2⟩ := send_lit_error env c
          "ERROR: Path must start with 'S1/'.\n" 34 (by decide) (by decide)
        exact ⟨msg, h1, by rw [h2]⟩
      · rw [if_neg hroot, if_pos ⟨e1, e2, e3, e4⟩]
        obtain ⟨msg, h1, h2⟩ := send_lit_error env c
          "ERROR: Unsupported file extension for download.\n" 50 (by decide) (by decide)
        exact ⟨msg, h1, by rw [h2]⟩
  · unfold S1.removef
    simp only [hp]
    by_cases hroot : strncmp_eq name "S1/".toList 3 = false
    · rw [if_pos hroot]
      obtain ⟨msg, h1, h2⟩ := send_lit_error env c
        "ERROR: Path must start with 'S1/'.\n" 34 (by decide) (by decide)
      exact ⟨msg, h1, by rw [h2]⟩
    · rw [if_neg hroot]
      cases he : strrchr name '.' with
      | none =>
        obtain ⟨msg, h1, h2⟩ := send_lit_error env c
          "ERROR: File has no extension.\n" 30 (by decide) (by decide)
        exact ⟨msg, h1, by rw [h2]⟩
      | some ext =>
        obtain ⟨e1, e2, e3, e4⟩ := hbad ext he
        have hfull : S1.full_filepath (home_dir env) name ext = none := by
          unfold S1.full_filepath
          simp only [if_neg e1, if_neg e2, if_neg e3, if_neg e4]
        simp only [hfull]
        obtain ⟨msg, h1, h2⟩ := send_lit_error env c
          "ERROR: Unsupported file type for removal.\n" 44 (by decide) (by decide)
        exact ⟨msg, h1, by rw [h2]⟩

/-! ## The dispatcher -/

/-- Witness for `extension_rule`: `removef S1/a.exe` is answered with one error reply and
changes nothing. -/
theorem extension_rule_witness :
    ∃ msg, "ERROR: ".toList <+: msg ∧
      S1.removef exEnv exFS ⟨[], [], none⟩ "S1/a.exe".toList =
        ⟨exFS, send_str ⟨[], [], none⟩ msg, none⟩ :=
  (extension_rule exEnv (nodes_up exEnv) exFS ⟨[], [], none⟩ "S1/a.exe".toList
    "S1/a.exe".toList [] (by decide)
    (by
      intro ext h
      have h2 : strrchr "S1/a.exe".toList '.' = some ".exe".toList := by decide
      rw [h2] at h
      cases h
      decide)).2.2

/-! ## Connections on which no `send` raises SIGPIPE -/

/-- What `stat` found when it reports a regular file. -/
theorem stat_file_inv (cwd : CPath) (fs : FS) (path : Bytes) (d : Bytes)
    (h : stat cwd fs path = some (Node.file d)) :
    ∃ p, resolve cwd fs path = some p ∧ fs.get p = some (Node.file d) ∧
      trailingSlash path = false ∧ p ≠ [] := by
  unfold stat at h
  cases hres : resolve cwd fs path with
  | none => rw [hres] at h; exact absurd h (by simp)
  | some p =>
    rw [hres] at h
    simp only at h
    cases hget : fs.get p with
    | none => rw [hget] at h; exact absurd h (by simp)
    | some n =>
      rw [hget] at h
      cases n with
      | dir => exact absurd h (by simp)
      | file d1 =>
        simp only at h
        by_cases hts : trailingSlash path = true
        · rw [if_pos hts] at h; exact absurd h (by simp)
        · rw [if_neg hts] at h
          simp only [Option.some.injEq, Node.file.injEq] at h
          subst h
          refine ⟨p, rfl, hget, by simpa using hts, ?_⟩
          intro hp
          subst hp
          simp [FS.get] at hget

/-- The call `remove` on a path that `stat` reports as a regular file unlinks that file. -/
theorem remove_file (cwd : CPath) (fs : FS) (path : Bytes) (p : CPath) (d : Bytes)
    (hres : resolve cwd fs path = some p) (hget : fs.get p = some (Node.file d))
    (hts : trailingSlash path = false) (hp : p ≠ []) :
    remove cwd fs path = some (fs.erase p) := by
  unfold remove
  simp [hres, hget, hts, hp]

/-- C20. For a command `removef P` in which `P` begins with `S1/` and has a supported
extension, `path` being the physical path the gateway builds for it: when `path` is a regular
file (at the canonical path `p`), the file system afterwards is the previous one without the
node at `p`, nothing is left at `p`, every other path holds what it held, and the loop goes on;
when `path` is not an existing regular file, the gateway sends one error reply, the file system
is unchanged and the loop goes on. -/
theorem deletion_precision (env : Env) (net : Nat → Option Link) (fs : FS) (c : Conn)
    (args P rest ext path : Bytes)
    (hcmd : strtok (command_line (recv c 1023).1) = some ("removef".toList, args))
    (hp : strtok args = some (P, rest))
    (hroot : strncmp_eq P "S1/".toList 3 = true)
    (hext : strrchr P '.' = some ext)
    (hpath : S1.full_filepath (home_dir env) P ext = some path) :
    (∀ d, stat env.cwd fs path = some (Node.file d) →
      ∃ p, resolve env.cwd fs path = some p ∧ fs.get p = some (Node.file d) ∧
        S1.prcclient_step env net fs c =
          (true, ⟨fs.erase p, send_lit env (recv c 1023).2 "File removed successfully.\n" 29,
            none⟩) ∧
        (fs.erase p).get p = none ∧ ∀ q, q ≠ p → (fs.erase p).get q = fs.get q) ∧
    ((∀ d, stat env.cwd fs path ≠ some (Node.file d)) →
      ∃ msg, "ERROR: ".toList <+: msg ∧
        S1.prcclient_step env net fs c = (true, ⟨fs, send_str (recv c 1023).2 msg, none⟩)) := by
  have hstep : S1.prcclient_step env net fs c =
      (true, S1.removef env fs (recv c 1023).2 args) := by
    rw [S1.step_dispatch env net fs c _ args hcmd, if_neg (by decide), if_neg (by decide),
      if_pos rfl]
  have hroot1 : ¬ (strncmp_eq P "S1/".toList 3 = false) := by rw [hroot]; decide
  refine ⟨?_, ?_⟩
  · intro d hstat
    obtain ⟨p, hres, hget, hts, hpne⟩ := stat_file_inv env.cwd fs path d hstat
    refine ⟨p, hres, hget, ?_, FS.get_erase_same fs p hpne,
      fun q hq => FS.get_erase_other fs p q hq⟩
    rw [hstep]
    unfold S1.removef
    simp only [hp, if_neg hroot1, hext, hpath, hstat,
      remove_file env.cwd fs path p d hres hget hts hpne]
  · intro hno
    obtain ⟨msg, h1, h2⟩ := send_lit_error env (recv c 1023).2
      "ERROR: Specified path or file is not valid.\n" 55 (by decide) (by decide)
    refine ⟨msg, h1, ?_⟩
    rw [hstep]
    unfold S1.removef
    simp only [hp, if_neg hroot1, hext, hpath]
    cases hs : stat env.cwd fs path with
    | none => simp only [h2]
    | some n =>
      cases n with
      | dir => simp only [h2]
      | file d => exact absurd hs (hno d)

/-- Witness for `deletion_precision`: `removef S1/a.c` on a file system that holds
`/h/S1/a.c`. -/
theorem deletion_precision_witness :
    ∃ p, resolve exEnv.cwd exFS "/h/S1/a.c".toList = some p ∧
      exFS.get p = some (Node.file "old".toList) ∧
      S1.prcclient_step exEnv (nodes_up exEnv) exFS ⟨["removef S1/a.c".toList], [], none⟩ =
        (true, ⟨exFS.erase p, send_lit exEnv (recv ⟨["removef S1/a.c".toList], [], none⟩ 1023).2
          "File removed successfully.\n" 29, none⟩) ∧
      (exFS.erase p).get p = none ∧ ∀ q, q ≠ p → (exFS.erase p).get q = exFS.get q :=
  (deletion_precision exEnv (nodes_up exEnv) exFS ⟨["removef S1/a.c".toList], [], none⟩
    "S1/a.c".toList "S1/a.c".toList [] ".c".toList "/h/S1/a.c".toList
    (by decide) (by decide) (by decide) (by decide) (by decide)).1 "old".toList (by decide)

/-! ## The order of `strcmp` -/

theorem strcmp_self (a : Bytes) : strcmp a a = 0 := by
  induction a with
  | nil => rfl
  | cons x xs ih => simp [strcmp, ih]

/-- Two byte strings are ordered one way or the other. -/
theorem strcmp_total (a b : Bytes) : strcmp a b ≤ 0 ∨ strcmp b a ≤ 0 := by
  induction a generalizing b with
  | nil =>
    cases b with
    | nil => left; simp [strcmp]
    | cons y ys => left; simp [strcmp]
  | cons x xs ih =>
    cases b with
    | nil => right; simp [strcmp]
    | cons y ys =>
      by_cases hxy : x = y
      · subst hxy
        simp only [strcmp, if_true]
        exact ih ys
      · have hyx : ¬ y = x := fun h => hxy h.symm
        simp only [strcmp, if_neg hxy, if_neg hyx]
        by_cases hlt : x.toNat < y.toNat
        · left; simp [hlt]
        · right
          have hne : x.toNat ≠ y.toNat := by
            intro h
            apply hxy
            rw [← Char.ofNat_toNat x, ← Char.ofNat_toNat y, h]
          have : y.toNat < x.toNat := by omega
          simp [this]

theorem strcmp_trans (a b c : Bytes) (h1 : strcmp a b ≤ 0) (h2 : strcmp b c ≤ 0) :
    strcmp a c ≤ 0 := by
  induction a generalizing b c with
  | nil =>
    cases c with
    | nil => simp [strcmp]
    | cons z zs => simp [strcmp]
  | cons x xs ih =>
    cases b with
    | nil => simp [strcmp] at h1
    | cons y ys =>
      cases c with
      | nil => simp [strcmp] at h2
      | cons z zs =>
        by_cases hxy : x = y
        · subst hxy
          simp only [strcmp, if_true] at h1
          by_cases hxz : x = z
          · subst hxz
            simp only [strcmp, if_true] at h2 ⊢
            exact ih ys zs h1 h2
          · simp only [strcmp, if_neg hxz] at h2 ⊢
            exact h2
        · simp only [strcmp, if_neg hxy] at h1
          have hlt1 : x.toNat < y.toNat := by
            by_contra hc
            rw [if_neg hc] at h1
            exact absurd h1 (by decide)
          by_cases hyz : y = z
          · subst hyz
            simp only [strcmp, if_neg hxy, if_pos hlt1]
            decide
          · simp only [strcmp, if_neg hyz] at h2
            have hlt2 : y.toNat < z.toNat := by
              by_contra hc
              rw [if_neg hc] at h2
              exact absurd h2 (by decide)
            have hxz : ¬ x = z := by
              intro h
              subst h
              omega
            have hlt3 : x.toNat < z.toNat := by omega
            simp only [strcmp, if_neg hxz, if_pos hlt3]
            decide

theorem strcmp_antisymm (a b : Bytes) (h1 : strcmp a b ≤ 0) (h2 : strcmp b a ≤ 0) : a = b := by
  induction a generalizing b with
  | nil =>
    cases b with
    | nil => rfl
    | cons y ys => simp [strcmp] at h2
  | cons x xs ih =>
    cases b with
    | nil => simp [strcmp] at h1
    | cons y ys =>
      by_cases hxy : x = y
      · subst hxy
        simp only [strcmp, if_true] at h1 h2
        rw [ih ys h1 h2]
      · exfalso
        have hyx : ¬ y = x := fun h => hxy h.symm
        simp only [strcmp, if_neg hxy] at h1
        simp only [strcmp, if_neg hyx] at h2
        have hlt1 : x.toNat < y.toNat := by
          by_contra hc
          rw [if_neg hc] at h1
          exact absurd h1 (by decide)
        have hlt2 : y.toNat < x.toNat := by
          by_contra hc
          rw [if_neg hc] at h2
          exact absurd h2 (by decide)
        omega

/-- The relation `qsort` sorts by is total. -/
theorem compare_string_total : IsTotal Bytes (fun a b => compare_string a b ≤ 0) :=
  ⟨fun a b => strcmp_total a b⟩

/-- The relation `qsort` sorts by is transitive. -/
theorem compare_string_trans : IsTrans Bytes (fun a b => compare_string a b ≤ 0) :=
  ⟨fun a b c h1 h2 => strcmp_trans a b c h1 h2⟩

/-- The relation `qsort` sorts by is antisymmetric. -/
theorem compare_string_antisymm : IsAntisymm Bytes (fun a b => compare_string a b ≤ 0) :=
  ⟨fun a b h1 h2 => strcmp_antisymm a b h1 h2⟩

/-- The array after `qsort` is in ascending `strcmp` order. -/
theorem qsort_sorted (files : List Bytes) :
    (qsort files).Sorted (fun a b => compare_string a b ≤ 0) := by
  haveI := compare_string_total
  haveI := compare_string_trans
  exact List.sorted_insertionSort _ files

/-- The array after `qsort` holds the same names. -/
theorem qsort_perm (files : List Bytes) : (qsort files).Perm files :=
  List.perm_insertionSort _ files

/-- The result of `qsort` does not depend on the order of the names before the call. -/
theorem qsort_congr (l1 l2 : List Bytes) (h : l1.Perm l2) : qsort l1 = qsort l2 := by
  haveI := compare_string_antisymm
  exact List.eq_of_perm_of_sorted (((qsort_perm l1).trans h).trans (qsort_perm l2).symm)
    (qsort_sorted l1) (qsort_sorted l2)

/-! ## The listing of `dispfnames` -/

theorem lines_nil : lines [] = [] := rfl

theorem lines_cons (name : Bytes) (more : List Bytes) :
    lines (name :: more) = name ++ "\n".toList ++ lines more := by
  simp [lines]

theorem lines_append (l1 l2 : List Bytes) : lines (l1 ++ l2) = lines l1 ++ lines l2 := by
  simp [lines]

theorem lines_eq_nil (l : List Bytes) : lines l = [] ↔ l = [] := by
  cases l with
  | nil => simp [lines]
  | cons a t => simp [lines]

/-- While the buffer `combined` has room, the loop appends every name and its newline. -/
theorem append_names_fits (combined : Bytes) (names : List Bytes)
    (h : (combined ++ lines names).length ≤ 8191) :
    S1.append_names combined names = combined ++ lines names := by
  induction names generalizing combined with
  | nil => simp [S1.append_names, lines]
  | cons name more ih =>
    rw [lines_cons] at h
    simp only [List.length_append] at h
    have hn : ("\n".toList).length = 1 := rfl
    rw [hn] at h
    unfold S1.append_names
    simp only [strncat]
    have h1 : List.take (8192 - combined.length - 1) name = name :=
      List.take_of_length_le (by omega)
    rw [h1]
    have h2 : List.take (8192 - (combined ++ name).length - 1) "\n".toList = "\n".toList :=
      List.take_of_length_le (by simp only [List.length_append, hn]; omega)
    rw [h2, ih]
    · rw [lines_cons]
      simp only [List.append_assoc]
    · simp only [List.length_append, hn]
      omega

/-- The filter of the loop over `readdir`: the entries `.` and `..` never carry an extension
with more than the dot. -/
theorem readdir_filter (fs : FS) (p : CPath) (ext : Bytes) (hext : ext ≠ ".".toList) :
    (fs.readdir p).filter (fun name =>
      name != ".".toList && name != "..".toList && (strrchr name '.' == some ext)) =
    fs.namesWithExt p ext := by
  unfold FS.readdir FS.namesWithExt
  have h1 : (fun name : Bytes =>
      name != ".".toList && name != "..".toList && (strrchr name '.' == some ext)) =
      (fun name => strrchr name '.' == some ext) := by
    funext name
    by_cases hd : name = ".".toList
    · subst hd
      have : strrchr ".".toList '.' = some ".".toList := by decide
      rw [this]
      simp
      intro h
      exact hext h.symm
    · by_cases hdd : name = "..".toList
      · subst hdd
        have : strrchr "..".toList '.' = some ".".toList := by decide
        rw [this]
        simp
        intro h
        exact hext h.symm
      · have e1 : (name != ".".toList) = true := by simpa using hd
        have e2 : (name != "..".toList) = true := by simpa using hdd
        rw [e1, e2]
        simp
  rw [h1]
  have hd1 : (strrchr ".".toList '.' == some ext) = false := by
    have : strrchr ".".toList '.' = some ".".toList := by decide
    rw [this]
    simp
    intro h
    exact hext h.symm
  have hd2 : (strrchr "..".toList '.' == some ext) = false := by
    have : strrchr "..".toList '.' = some ".".toList := by decide
    rw [this]
    simp
    intro h
    exact hext h.symm
  rw [List.filter_cons, hd1, List.filter_cons, hd2]
  simp

/-- The names a group collects are its matching entries, sorted. -/
theorem group_files_eq (env : Env) (fs : FS) (relative : Bytes) (base ext : String)
    (hext : ext.toList ≠ ".".toList) :
    S1.group_files env fs relative base ext =
      qsort (S1.group_entries env fs relative base ext) := by
  unfold S1.group_files S1.group_entries S1.group_dir
  simp only
  cases hs : stat env.cwd fs (snprintf 512 (home_dir env ++ '/' :: base.toList ++ '/' :: relative))
    with
  | none => rfl
  | some n =>
    cases n with
    | file d => rfl
    | dir =>
      simp only
      cases hr : resolve env.cwd fs
          (snprintf 512 (home_dir env ++ '/' :: base.toList ++ '/' :: relative)) with
      | none => rfl
      | some p =>
        simp only
        rw [readdir_filter fs p ext.toList hext]

/-- Every matching entry of a group has the group's extension. -/
theorem group_entries_ext (env : Env) (fs : FS) (relative : Bytes) (base ext : String)
    (name : Bytes) (h : name ∈ S1.group_entries env fs relative base ext) :
    strrchr name '.' = some ext.toList := by
  unfold S1.group_entries at h
  split at h
  · split at h
    · simp at h
    · unfold FS.namesWithExt at h
      rw [List.mem_filter] at h
      simpa using h.2
  · simp at h

/-- In a file system without duplicate paths, the entries of a directory have different
names. -/
theorem namesWithExt_nodup (fs : FS) (p : CPath) (ext : Bytes) (hwf : fs.wf) :
    (fs.namesWithExt p ext).Nodup := by
  unfold FS.namesWithExt
  apply List.Nodup.filter
  have hmap : (fs.filter (fun e => e.1 != [] && e.1.dropLast == p)).map
      (fun e => e.1.getLastD []) =
      ((fs.filter (fun e => e.1 != [] && e.1.dropLast == p)).map Prod.fst).map
        (fun k => k.getLastD []) := by
    rw [List.map_map]
    rfl
  rw [hmap]
  have hnd : ((fs.filter (fun e => e.1 != [] && e.1.dropLast == p)).map Prod.fst).Nodup :=
    List.Nodup.sublist (List.Sublist.map _ (List.filter_sublist _)) hwf
  apply List.Nodup.map_on _ hnd
  intro x hx y hy hxy
  rw [List.mem_map] at hx hy
  obtain ⟨ex, hex, rfl⟩ := hx
  obtain ⟨ey, hey, rfl⟩ := hy
  rw [List.mem_filter] at hex hey
  have hx1 := hex.2
  have hy1 := hey.2
  simp only [Bool.and_eq_true, bne_iff_ne, ne_eq, beq_iff_eq] at hx1 hy1
  rcases List.eq_nil_or_concat ex.1 with h | ⟨L, b, h⟩
  · exact absurd h hx1.1
  · rcases List.eq_nil_or_concat ey.1 with h2 | ⟨L2, b2, h2⟩
    · exact absurd h2 hy1.1
    · rw [h, h2] at hxy ⊢
      rw [h] at hx1
      rw [h2] at hy1
      simp only [List.concat_eq_append, List.dropLast_concat, List.getLastD_concat] at hxy hx1 hy1 ⊢
      rw [hxy, hx1.2, hy1.2]

/-- The matching entries of a group have different names. -/
theorem group_entries_nodup (env : Env) (fs : FS) (relative : Bytes) (base ext : String)
    (hwf : fs.wf) : (S1.group_entries env fs relative base ext).Nodup := by
  unfold S1.group_entries
  split
  · split
    · exact List.nodup_nil
    · exact namesWithExt_nodup fs _ _ hwf
  · exact List.nodup_nil

/-- A listing that ends with a name carrying an extension other than the bare dot is not the
text `No files found.` followed by a newline. -/
theorem lines_ne_sentinel (names : List Bytes) (hne : names ≠ [])
    (hext : ∀ name ∈ names, ∃ ext, strrchr name '.' = some ext ∧ ext ≠ ".".toList) :
    lines names ≠ "No files found.\n".toList := by
  intro h
  rcases List.eq_nil_or_concat names with h0 | ⟨init, name, h1⟩
  · exact hne h0
  · subst h1
    obtain ⟨ext, he1, he2⟩ := hext name (by simp)
    rw [List.concat_eq_append, lines_append, lines_cons, lines_nil, List.append_nil,
      ← List.append_assoc] at h
    have hs : "No files found.\n".toList = "No files found.".toList ++ "\n".toList := by decide
    rw [hs] at h
    have h2 := List.append_inj_left' h rfl
    have h3 := strrchr_append (lines init) name ext '.' he1
    rw [h2] at h3
    have h4 : strrchr "No files found.".toList '.' = some ".".toList := by decide
    rw [h4] at h3
    simp only [Option.some.injEq] at h3
    exact he2 h3.symm

theorem lines_length_perm (l1 l2 : List Bytes) (h : l1.Perm l2) :
    (lines l1).length = (lines l2).length := by
  induction h with
  | nil => rfl
  | cons x _ ih => simp only [lines_cons, List.length_append, ih]
  | swap x y l => simp only [lines_cons, List.length_append]; omega
  | trans _ _ ih1 ih2 => rw [ih1, ih2]

/-- The path `dispfnames` checks first is the directory of the gateway's own group. -/
theorem check_path_eq (env : Env) (relative : Bytes) :
    snprintf 512 (home_dir env ++ "/S1/".toList ++ relative) = S1.group_dir env relative "S1" := by
  unfold S1.group_dir
  simp

/-- The answer of `dispfnames` for a directory that exists under `$HOME/S1`. -/
theorem S1.dispfnames_accepted (env : Env) (fs : FS) (c : Conn) (args dir_arg rest : Bytes)
    (hp : strtok args = some (dir_arg, rest))
    (hroot : strncmp_eq dir_arg "S1/".toList 3 = true)
    (hlen : (dir_arg.drop 3).length ≤ 511)
    (hdir : stat env.cwd fs (S1.group_dir env (dir_arg.drop 3) "S1") = some Node.dir) :
    S1.dispfnames env fs c args =
      ⟨fs, send_str c
        (if S1.append_names (S1.append_names (S1.append_names (S1.append_names []
            (S1.group_files env fs (dir_arg.drop 3) "S1" ".c"))
            (S1.group_files env fs (dir_arg.drop 3) "S2" ".pdf"))
            (S1.group_files env fs (dir_arg.drop 3) "S3" ".txt"))
            (S1.group_files env fs (dir_arg.drop 3) "S4" ".zip") = []
          then "No files found.\n".toList
          else S1.append_names (S1.append_names (S1.append_names (S1.append_names []
            (S1.group_files env fs (dir_arg.drop 3) "S1" ".c"))
            (S1.group_files env fs (dir_arg.drop 3) "S2" ".pdf"))
            (S1.group_files env fs (dir_arg.drop 3) "S3" ".txt"))
            (S1.group_files env fs (dir_arg.drop 3) "S4" ".zip")), none⟩ := by
  have hroot1 : ¬ (strncmp_eq dir_arg "S1/".toList 3 = false) := by rw [hroot]; decide
  have hfits : ¬ 512 ≤ (dir_arg.drop 3).length := by omega
  unfold S1.dispfnames
  simp only [hp, if_neg hroot1, if_neg hfits, check_path_eq, hdir, List.foldl_cons,
    List.foldl_nil]

/-- C16 (as amended). For a command `dispfnames <dir>` whose argument begins with `S1/`, has at
most 511 bytes after it (it fits the buffer `relative`), and for which the first 511 bytes of
`$HOME/S1/<rest>` name an existing directory, in a file system without duplicate paths, when the
complete listing fits the buffer `combined` (8191 bytes and the terminator): the response is
made of four lists of names, for `.c` in S1, `.pdf` in S2, `.txt` in S3 and `.zip` in S4 in that
order, each list holding exactly the matching entries of its group (the entries of the directory
named by the first 511 bytes of `$HOME/<base>/<rest>`), each once, in ascending `strcmp` order,
every name followed by one newline; when no group has a matching entry the response is
`No files found.` and a newline, and only then. -/
theorem dispfnames_response (env : Env) (fs : FS) (c : Conn) (args dir_arg rest : Bytes)
    (hwf : fs.wf)
    (hp : strtok args = some (dir_arg, rest))
    (hroot : strncmp_eq dir_arg "S1/".toList 3 = true)
    (hlen : (dir_arg.drop 3).length ≤ 511)
    (hdir : stat env.cwd fs (S1.group_dir env (dir_arg.drop 3) "S1") = some Node.dir)
    (hfit : (lines (S1.group_entries env fs (dir_arg.drop 3) "S1" ".c") ++
      lines (S1.group_entries env fs (dir_arg.drop 3) "S2" ".pdf") ++
      lines (S1.group_entries env fs (dir_arg.drop 3) "S3" ".txt") ++
      lines (S1.group_entries env fs (dir_arg.drop 3) "S4" ".zip")).length ≤ 8191) :
    ∃ L1 L2 L3 L4 response,
      (L1.Perm (S1.group_entries env fs (dir_arg.drop 3) "S1" ".c") ∧ L1.Nodup ∧
        L1.Sorted (fun a b => strcmp a b ≤ 0)) ∧
      (L2.Perm (S1.group_entries env fs (dir_arg.drop 3) "S2" ".pdf") ∧ L2.Nodup ∧
        L2.Sorted (fun a b => strcmp a b ≤ 0)) ∧
      (L3.Perm (S1.group_entries env fs (dir_arg.drop 3) "S3" ".txt") ∧ L3.Nodup ∧
        L3.Sorted (fun a b => strcmp a b ≤ 0)) ∧
      (L4.Perm (S1.group_entries env fs (dir_arg.drop 3) "S4" ".zip") ∧ L4.Nodup ∧
        L4.Sorted (fun a b => strcmp a b ≤ 0)) ∧
      S1.dispfnames env fs c args = ⟨fs, send_str c response, none⟩ ∧
      (L1 ++ L2 ++ L3 ++ L4 ≠ [] → response = lines L1 ++ lines L2 ++ lines L3 ++ lines L4) ∧
      (response = "No files found.\n".toList ↔ L1 ++ L2 ++ L3 ++ L4 = []) := by
  have e1 := group_files_eq env fs (dir_arg.drop 3) "S1" ".c" (by decide)
  have e2 := group_files_eq env fs (dir_arg.drop 3) "S2" ".pdf" (by decide)
  have e3 := group_files_eq env fs (dir_arg.drop 3) "S3" ".txt" (by decide)
  have e4 := group_files_eq env fs (dir_arg.drop 3) "S4" ".zip" (by decide)
  have p1 := qsort_perm (S1.group_entries env fs (dir_arg.drop 3) "S1" ".c")
  have p2 := qsort_perm (S1.group_entries env fs (dir_arg.drop 3) "S2" ".pdf")
  have p3 := qsort_perm (S1.group_entries env fs (dir_arg.drop 3) "S3" ".txt")
  have p4 := qsort_perm (S1.group_entries env fs (dir_arg.drop 3) "S4" ".zip")
  rw [← e1] at p1
  rw [← e2] at p2
  rw [← e3] at p3
  rw [← e4] at p4
  have hfit2 : (lines (S1.group_files env fs (dir_arg.drop 3) "S1" ".c") ++
      lines (S1.group_files env fs (dir_arg.drop 3) "S2" ".pdf") ++
      lines (S1.group_files env fs (dir_arg.drop 3) "S3" ".txt") ++
      lines (S1.group_files env fs (dir_arg.drop 3) "S4" ".zip")).length ≤ 8191 := by
    simp only [List.length_append] at hfit ⊢
    rw [lines_length_perm _ _ p1, lines_length_perm _ _ p2, lines_length_perm _ _ p3,
      lines_length_perm _ _ p4]
    exact hfit
  have hcomb : S1.append_names (S1.append_names (S1.append_names (S1.append_names []
      (S1.group_files env fs (dir_arg.drop 3) "S1" ".c"))
      (S1.group_files env fs (dir_arg.drop 3) "S2" ".pdf"))
      (S1.group_files env fs (dir_arg.drop 3) "S3" ".txt"))
      (S1.group_files env fs (dir_arg.drop 3) "S4" ".zip") =
      lines (S1.group_files env fs (dir_arg.drop 3) "S1" ".c") ++
      lines (S1.group_files env fs (dir_arg.drop 3) "S2" ".pdf") ++
      lines (S1.group_files env fs (dir_arg.drop 3) "S3" ".txt") ++
      lines (S1.group_files env fs (dir_arg.drop 3) "S4" ".zip") := by
    simp only [List.length_append] at hfit2
    have a1 := append_names_fits [] (S1.group_files env fs (dir_arg.drop 3) "S1" ".c")
      (by simp only [List.nil_append]; omega)
    rw [List.nil_append] at a1
    have a2 := append_names_fits (lines (S1.group_files env fs (dir_arg.drop 3) "S1" ".c"))
      (S1.group_files env fs (dir_arg.drop 3) "S2" ".pdf")
      (by simp only [List.length_append]; omega)
    have a3 := append_names_fits (lines (S1.group_files env fs (dir_arg.drop 3) "S1" ".c") ++
      lines (S1.group_files env fs (dir_arg.drop 3) "S2" ".pdf"))
      (S1.group_files env fs (dir_arg.drop 3) "S3" ".txt")
      (by simp only [List.length_append]; omega)
    have a4 := append_names_fits (lines (S1.group_files env fs (dir_arg.drop 3) "S1" ".c") ++
      lines (S1.group_files env fs (dir_arg.drop 3) "S2" ".pdf") ++
      lines (S1.group_files env fs (dir_arg.drop 3) "S3" ".txt"))
      (S1.group_files env fs (dir_arg.drop 3) "S4" ".zip")
      (by simp only [List.length_append]; omega)
    rw [a1, a2, a3, a4]
  have hlines : lines (S1.group_files env fs (dir_arg.drop 3) "S1" ".c") ++
      lines (S1.group_files env fs (dir_arg.drop 3) "S2" ".pdf") ++
      lines (S1.group_files env fs (dir_arg.drop 3) "S3" ".txt") ++
      lines (S1.group_files env fs (dir_arg.drop 3) "S4" ".zip") =
      lines (S1.group_files env fs (dir_arg.drop 3) "S1" ".c" ++
        S1.group_files env fs (dir_arg.drop 3) "S2" ".pdf" ++
        S1.group_files env fs (dir_arg.drop 3) "S3" ".txt" ++
        S1.group_files env fs (dir_arg.drop 3) "S4" ".zip") := by
    simp only [lines_append]
  have hextall : ∀ name ∈ S1.group_files env fs (dir_arg.drop 3) "S1" ".c" ++
        S1.group_files env fs (dir_arg.drop 3) "S2" ".pdf" ++
        S1.group_files env fs (dir_arg.drop 3) "S3" ".txt" ++
        S1.group_files env fs (dir_arg.drop 3) "S4" ".zip",
      ∃ ext, strrchr name '.' = some ext ∧ ext ≠ ".".toList := by
    intro name hn
    simp only [List.mem_append] at hn
    rcases hn with ((hn | hn) | hn) | hn
    · exact ⟨_, group_entries_ext env fs _ "S1" ".c" name (p1.mem_iff.mp hn), by decide⟩
    · exact ⟨_, group_entries_ext env fs _ "S2" ".pdf" name (p2.mem_iff.mp hn), by decide⟩
    · exact ⟨_, group_entries_ext env fs _ "S3" ".txt" name (p3.mem_iff.mp hn), by decide⟩
    · exact ⟨_, group_entries_ext env fs _ "S4" ".zip" name (p4.mem_iff.mp hn), by decide⟩
  refine ⟨S1.group_files env fs (dir_arg.drop 3) "S1" ".c",
    S1.group_files env fs (dir_arg.drop 3) "S2" ".pdf",
    S1.group_files env fs (dir_arg.drop 3) "S3" ".txt",
    S1.group_files env fs (dir_arg.drop 3) "S4" ".zip", _,
    ⟨p1, p1.nodup_iff.mpr (group_entries_nodup env fs _ _ _ hwf), by rw [e1]; exact qsort_sorted _⟩,
    ⟨p2, p2.nodup_iff.mpr (group_entries_nodup env fs _ _ _ hwf), by rw [e2]; exact qsort_sorted _⟩,
    ⟨p3, p3.nodup_iff.mpr (group_entries_nodup env fs _ _ _ hwf), by rw [e3]; exact qsort_sorted _⟩,
    ⟨p4, p4.nodup_iff.mpr (group_entries_nodup env fs _ _ _ hwf), by rw [e4]; exact qsort_sorted _⟩,
    S1.dispfnames_accepted env fs c args dir_arg rest hp hroot hlen hdir, ?_, ?_⟩
  · intro hne
    rw [hcomb, hlines, if_neg (fun h => hne ((lines_eq_nil _).mp h))]
  · rw [hcomb, hlines]
    constructor
    · intro h
      by_contra hne
      rw [if_neg (fun h => hne ((lines_eq_nil _).mp h))] at h
      exact lines_ne_sentinel _ hne hextall h
    · intro h
      rw [if_pos ((lines_eq_nil _).mpr h)]

/-! ## The listing does not depend on the order of enumeration -/

theorem find_perm (l1 l2 : FS) (h : l1.Perm l2) (hnd : (l1.map Prod.fst).Nodup) (q : CPath) :
    l1.find? (fun e => e.1 == q) = l2.find? (fun e => e.1 == q) := by
  induction h with
  | nil => rfl
  | cons x _ ih =>
    simp only [List.map_cons, List.nodup_cons] at hnd
    simp only [List.find?_cons, ih hnd.2]
  | swap x y l =>
    simp only [List.map_cons, List.nodup_cons, List.mem_cons, not_or] at hnd
    simp only [List.find?_cons]
    cases hxb : (x.1 == q) with
    | false =>
      cases hyb : (y.1 == q) with
      | false => rfl
      | true => rfl
    | true =>
      cases hyb : (y.1 == q) with
      | false => rfl
      | true =>
        exfalso
        have hx : x.1 = q := by simpa using hxb
        have hy : y.1 = q := by simpa using hyb
        exact hnd.1.1 (hy.trans hx.symm)
  | trans h12 _ ih1 ih2 =>
    rw [ih1 hnd, ih2 ((h12.map Prod.fst).nodup_iff.mp hnd)]

/-- Without duplicate paths, a lookup does not depend on the order of the entries. -/
theorem get_perm (fs1 fs2 : FS) (h : fs1.Perm fs2) (hwf : fs1.wf) (q : CPath) :
    fs1.get q = fs2.get q := by
  unfold FS.get
  rw [find_perm fs1 fs2 h hwf q]

theorem walk_congr (fs1 fs2 : FS) (h : ∀ q, fs1.get q = fs2.get q) (cur : CPath)
    (comps : List Bytes) : walk fs1 cur comps = walk fs2 cur comps := by
  induction comps generalizing cur with
  | nil => rfl
  | cons comp more ih => simp only [walk, h, ih]

theorem resolve_congr (cwd : CPath) (fs1 fs2 : FS) (h : ∀ q, fs1.get q = fs2.get q)
    (path : Bytes) : resolve cwd fs1 path = resolve cwd fs2 path := by
  unfold resolve
  rw [walk_congr fs1 fs2 h]

theorem stat_congr (cwd : CPath) (fs1 fs2 : FS) (h : ∀ q, fs1.get q = fs2.get q)
    (path : Bytes) : stat cwd fs1 path = stat cwd fs2 path := by
  unfold stat
  rw [resolve_congr cwd fs1 fs2 h]
  cases resolve cwd fs2 path with
  | none => rfl
  | some p => simp only [h]

theorem namesWithExt_perm (fs1 fs2 : FS) (h : fs1.Perm fs2) (p : CPath) (ext : Bytes) :
    (fs1.namesWithExt p ext).Perm (fs2.namesWithExt p ext) := by
  unfold FS.namesWithExt
  exact ((h.filter _).map _).filter _

theorem group_entries_perm (env : Env) (fs1 fs2 : FS) (h : fs1.Perm fs2) (hwf : fs1.wf)
    (relative : Bytes) (base ext : String) :
    (S1.group_entries env fs1 relative base ext).Perm
      (S1.group_entries env fs2 relative base ext) := by
  have hg := get_perm fs1 fs2 h hwf
  unfold S1.group_entries
  rw [stat_congr env.cwd fs1 fs2 hg, resolve_congr env.cwd fs1 fs2 hg]
  split
  · split
    · exact List.Perm.refl _
    · exact namesWithExt_perm fs1 fs2 h _ _
  · exact List.Perm.refl _

theorem group_files_perm (env : Env) (fs1 fs2 : FS) (h : fs1.Perm fs2) (hwf : fs1.wf)
    (relative : Bytes) (base ext : String) (hext : ext.toList ≠ ".".toList) :
    S1.group_files env fs1 relative base ext = S1.group_files env fs2 relative base ext := by
  rw [group_files_eq env fs1 relative base ext hext, group_files_eq env fs2 relative base ext hext]
  exact qsort_congr _ _ (group_entries_perm env fs1 fs2 h hwf relative base ext)

/-- Two file systems that hold the same entries in a different order (neither with a path
twice) get the same bytes from `dispfnames <dir>` when the argument has at most 511 bytes after
`S1/` (it fits the buffer `relative`): the reply does not depend on the order in which
`readdir` yields the entries of a directory. -/
theorem listing_determinism (env : Env) (fs1 fs2 : FS) (c : Conn) (args dir_arg rest : Bytes)
    (hperm : fs1.Perm fs2) (hwf : fs1.wf)
    (hp : strtok args = some (dir_arg, rest))
    (hlen : (dir_arg.drop 3).length ≤ 511) :
    (S1.dispfnames env fs1 c args).conn = (S1.dispfnames env fs2 c args).conn := by
  have hg := get_perm fs1 fs2 hperm hwf
  have hfits : ¬ 512 ≤ (dir_arg.drop 3).length := by omega
  unfold S1.dispfnames
  simp only [hp]
  · by_cases hroot : strncmp_eq dir_arg "S1/".toList 3 = false
    · rw [if_pos hroot, if_pos hroot]
    · rw [if_neg hroot, if_neg hroot, if_neg hfits, if_neg hfits]
      simp only [stat_congr env.cwd fs1 fs2 hg, List.foldl_cons, List.foldl_nil,
        group_files_perm env fs1 fs2 hperm hwf _ "S1" ".c" (by decide),
        group_files_perm env fs1 fs2 hperm hwf _ "S2" ".pdf" (by decide),
        group_files_perm env fs1 fs2 hperm hwf _ "S3" ".txt" (by decide),
        group_files_perm env fs1 fs2 hperm hwf _ "S4" ".zip" (by decide)]
      split <;> rfl

/-! ## Groups whose directory does not exist -/

/-- A group whose directory does not exist collects nothing. -/
theorem group_files_absent (env : Env) (fs : FS) (relative : Bytes) (base ext : String)
    (h : stat env.cwd fs (S1.group_dir env relative base) ≠ some Node.dir) :
    S1.group_files env fs relative base ext = [] := by
  unfold S1.group_files
  simp only

/-- C18 (as amended). For a command `dispfnames <dir>` whose argument begins with `S1/` and
has at most 511 bytes after it (it fits the buffer `relative`): when the directory does not
exist under `$HOME/S1` the gateway
answers `ERROR: Path does not exist.` (with the terminator of the literal) and lists nothing;
when it does, the reply is the listing of the four groups, and a group of S2, S3 or S4 whose
directory does not exist adds nothing to it: the reply is the listing of the other groups. -/
theorem absent_group (env : Env) (fs : FS) (c : Conn) (args dir_arg rest : Bytes)
    (hp : strtok args = some (dir_arg, rest))
    (hroot : strncmp_eq dir_arg "S1/".toList 3 = true)
    (hlen : (dir_arg.drop 3).length ≤ 511) :
    (stat env.cwd fs (S1.group_dir env (dir_arg.drop 3) "S1") ≠ some Node.dir →
      S1.dispfnames env fs c args =
        ⟨fs, send_str c ("ERROR: Path does not exist.\n".toList ++ [NUL]), none⟩) ∧
    (stat env.cwd fs (S1.group_dir env (dir_arg.drop 3) "S1") = some Node.dir →
      S1.dispfnames env fs c args =
        ⟨fs, send_str c (S1.listing_reply
          [S1.group_files env fs (dir_arg.drop 3) "S1" ".c",
            S1.group_files env fs (dir_arg.drop 3) "S2" ".pdf",
            S1.group_files env fs (dir_arg.drop 3) "S3" ".txt",
            S1.group_files env fs (dir_arg.drop 3) "S4" ".zip"]), none⟩ ∧
      (stat env.cwd fs (S1.group_dir env (dir_arg.drop 3) "S2") ≠ some Node.dir →
        S1.dispfnames env fs c args =
          ⟨fs, send_str c (S1.listing_reply
            [S1.group_files env fs (dir_arg.drop 3) "S1" ".c",
              S1.group_files env fs (dir_arg.drop 3) "S3" ".txt",
              S1.group_files env fs (dir_arg.drop 3) "S4" ".zip"]), none⟩) ∧
      (stat env.cwd fs (S1.group_dir env (dir_arg.drop 3) "S3") ≠ some Node.dir →
        S1.dispfnames env fs c args =
          ⟨fs, send_str c (S1.listing_reply
            [S1.group_files env fs (dir_arg.drop 3) "S1" ".c",
              S1.group_files env fs (dir_arg.drop 3) "S2" ".pdf",
              S1.group_files env fs (dir_arg.drop 3) "S4" ".zip"]), none⟩) ∧
      (stat env.cwd fs (S1.group_dir env (dir_arg.drop 3) "S4") ≠ some Node.dir →
        S1.dispfnames env fs c args =
          ⟨fs, send_str c (S1.listing_reply
            [S1.group_files env fs (dir_arg.drop 3) "S1" ".c",
              S1.group_files env fs (dir_arg.drop 3) "S2" ".pdf",
              S1.group_files env fs (dir_arg.drop 3) "S3" ".txt"]), none⟩)) := by
  have hfits : ¬ 512 ≤ (dir_arg.drop 3).length := by omega
  have hroot1 : ¬ (strncmp_eq dir_arg "S1/".toList 3 = false) := by rw [hroot]; decide
  refine ⟨?_, ?_⟩
  · intro hno
    have hmsg : send_lit env c "ERROR: Path does not exist.\n" 29 =
        send_str c ("ERROR: Path does not exist.\n".toList ++ [NUL]) := by
      unfold send_lit send_str lit_bytes
      have : (29 : Nat) - ("ERROR: Path does not exist.\n".toList.length + 1) = 0 := by decide
      rw [this]
      have h29 : ("ERROR: Path does not exist.\n".toList ++ [NUL]).length = 29 := by decide
      simp only [List.range_zero, List.map_nil]
      rw [List.take_of_length_le (by rw [h29])]
    unfold S1.dispfnames
    simp only [hp, if_neg hroot1, if_neg hfits, check_path_eq]
    rw [hmsg]
  · intro hdir
    have hall := S1.dispfnames_accepted env fs c args dir_arg rest hp hroot hlen hdir
    refine ⟨?_, ?_, ?_, ?_⟩
    · rw [hall]; rfl
    · intro h
      rw [hall, group_files_absent env fs _ "S2" ".pdf" h]; rfl
    · intro h
      rw [hall, group_files_absent env fs _ "S3" ".txt" h]; rfl
    · intro h
      rw [hall, group_files_absent env fs _ "S4" ".zip" h]; rfl

/-- Witness for `absent_group`: `/h/S3/x` does not exist, and `dispfnames S1/x` answers with
the entries of the other groups. -/
theorem absent_group_witness :
    S1.dispfnames exEnv exFS_list ⟨[], [], none⟩ "S1/x".toList =
      ⟨exFS_list, send_str ⟨[], [], none⟩ (S1.listing_reply
        [S1.group_files exEnv exFS_list ("S1/x".toList.drop 3) "S1" ".c",
          S1.group_files exEnv exFS_list ("S1/x".toList.drop 3) "S2" ".pdf",
          S1.group_files exEnv exFS_list ("S1/x".toList.drop 3) "S4" ".zip"]), none⟩ :=
  ((absent_group exEnv exFS_list ⟨[], [], none⟩ "S1/x".toList "S1/x".toList []
    (by decide) (by decide) (by decide)).2 (by decide)).2.2.1 (by decide)

/-- C18 (counterexample). The directory `/h/S1/x` of the gateway's own group does not exist
while `/h/S2/x` holds `a.pdf`: `dispfnames S1/x` answers with an error and does not return the
entry of S2. -/
theorem absent_S1_group_is_an_error :
    (S1.prcclient_step exEnv (nodes_up exEnv) exFS_noS1dir
      ⟨["dispfnames S1/x".toList], [], none⟩).2.conn.out =
      ["ERROR: Path does not exist.\n".toList ++ [NUL]] ∧
    S1.group_files exEnv exFS_noS1dir "x".toList "S2" ".pdf" = ["a.pdf".toList] := by
  decide

/-- Witness for `dispfnames_response`: the listing of `S1/x` in a file system with entries
in three groups. -/
theorem dispfnames_response_witness :
    ∃ L1 L2 L3 L4 response,
      S1.dispfnames exEnv exFS_list ⟨[], [], none⟩ "S1/x".toList =
        ⟨exFS_list, send_str ⟨[], [], none⟩ response, none⟩ ∧
      (L1 ++ L2 ++ L3 ++ L4 ≠ [] → response = lines L1 ++ lines L2 ++ lines L3 ++ lines L4) ∧
      (response = "No files found.\n".toList ↔ L1 ++ L2 ++ L3 ++ L4 = []) := by
  obtain ⟨L1, L2, L3, L4, response, -, -, -, -, h1, h2, h3⟩ :=
    dispfnames_response exEnv exFS_list ⟨[], [], none⟩ "S1/x".toList "S1/x".toList []
      (by decide) (by decide) (by decide) (by decide) (by decide) (by decide)
  exact ⟨L1, L2, L3, L4, response, h1, h2, h3⟩

/-- Witness for `listing_determinism`: the same entries in the opposite order. -/
theorem listing_determinism_witness :
    (S1.dispfnames exEnv exFS_list ⟨[], [], none⟩ "S1/x".toList).conn =
      (S1.dispfnames exEnv exFS_list.reverse ⟨[], [], none⟩ "S1/x".toList).conn :=
  listing_determinism exEnv exFS_list exFS_list.reverse ⟨[], [], none⟩ "S1/x".toList
    "S1/x".toList [] (List.reverse_perm exFS_list).symm (by decide) (by decide) (by decide)

/-- C19 (divergence of the code). `/h/S1/x/d.c` is a directory, and `dispfnames S1/x` lists
it among the `.c` files: the loop over `readdir` tests the extension of an entry and not its
type.  (The file `inner.c` inside `d.c` is not listed.) -/
theorem dispfnames_lists_directory :
    stat exEnv.cwd exFS_list "/h/S1/x/d.c".toList = some Node.dir ∧
    (S1.prcclient_step exEnv (nodes_up exEnv) exFS_list
      ⟨["dispfnames S1/x".toList], [], none⟩).2.conn.out =
      ["a.c\nb.c\nd.c\nr.pdf\nz.zip\n".toList] := by
  decide

/-! ## Paths below a directory -/

theorem splitSlash_ne_nil (s : Bytes) : splitSlash s ≠ [] := by
  cases s with
  | nil => simp [splitSlash]
  | cons ch rest =>
    unfold splitSlash
    split
    · simp
    · split <;> simp

/-- The pieces of two strings joined by a slash. -/
theorem splitSlash_append (a b : Bytes) :
    splitSlash (a ++ '/' :: b) = splitSlash a ++ splitSlash b := by
  induction a with
  | nil =>
    have hb := splitSlash_ne_nil b
    show splitSlash ('/' :: b) = splitSlash [] ++ splitSlash b
    rw [splitSlash, splitSlash]
    cases h : splitSlash b with
    | nil => exact absurd h hb
    | cons piece more => simp
  | cons ch a1 ih =>
    show splitSlash (ch :: (a1 ++ '/' :: b)) = splitSlash (ch :: a1) ++ splitSlash b
    have ha := splitSlash_ne_nil a1
    rw [splitSlash, splitSlash, ih]
    cases h : splitSlash a1 with
    | nil => exact absurd h ha
    | cons piece more =>
      simp only [List.cons_append]
      split <;> rfl

/-- The components of two strings joined by a slash. -/
theorem components_append (a b : Bytes) :
    components (a ++ '/' :: b) = components a ++ components b := by
  unfold components
  rw [splitSlash_append, List.filter_append]

theorem components_nil : components [] = [] := by decide

/-- A leading slash adds no component. -/
theorem components_slash (b : Bytes) : components ('/' :: b) = components b := by
  have := components_append [] b
  rw [components_nil] at this
  simpa using this

/-- A non-empty string without a slash is one component. -/
theorem splitSlash_plain (s : Bytes) (h : '/' ∉ s) : splitSlash s = [s] := by
  induction s with
  | nil => rfl
  | cons ch rest ih =>
    have h1 : '/' ∉ rest := fun hm => h (List.mem_cons_of_mem _ hm)
    have h2 : ¬ ch = '/' := fun he => h (by rw [he]; exact List.mem_cons_self _ _)
    unfold splitSlash
    rw [ih h1]
    simp only [if_neg h2]

theorem components_plain (s : Bytes) (h : '/' ∉ s) (hne : s ≠ []) : components s = [s] := by
  unfold components
  rw [splitSlash_plain s h]
  simp [hne]

/-- A walk over two lists of components passes through the end of the first. -/
theorem walk_append (fs : FS) (cur : CPath) (A B : List Bytes) (p : CPath)
    (h : walk fs cur (A ++ B) = some p) :
    ∃ m, walk fs cur A = some m ∧ walk fs m B = some p := by
  induction A generalizing cur with
  | nil => exact ⟨cur, rfl, h⟩
  | cons a A1 ih =>
    simp only [List.cons_append, walk] at h ⊢
    split at h
    · rename_i hd
      rw [if_pos hd]
      exact ih _ h
    · exact absurd h (by simp)

/-- The start of a walk that succeeds over at least one component is a directory. -/
theorem walk_start_dir (fs : FS) (cur : CPath) (B : List Bytes) (p : CPath)
    (h : walk fs cur B = some p) (hp : fs.get p = some Node.dir) :
    fs.get cur = some Node.dir := by
  cases B with
  | nil =>
    simp only [walk, Option.some.injEq] at h
    rw [h]; exact hp
  | cons b B1 =>
    simp only [walk] at h
    split at h
    · assumption
    · exact absurd h (by simp)

/-- What `stat` found when it reports a directory. -/
theorem stat_dir_inv (cwd : CPath) (fs : FS) (path : Bytes)
    (h : stat cwd fs path = some Node.dir) :
    ∃ p, resolve cwd fs path = some p ∧ fs.get p = some Node.dir := by
  unfold stat at h
  cases hres : resolve cwd fs path with
  | none => rw [hres] at h; exact absurd h (by simp)
  | some p =>
    rw [hres] at h
    simp only at h
    cases hget : fs.get p with
    | none => rw [hget] at h; exact absurd h (by simp)
    | some n =>
      cases n with
      | dir => exact ⟨p, rfl, hget⟩
      | file d =>
        rw [hget] at h
        simp only at h
        split at h <;> exact absurd h (by simp)

/-- Every directory named on the way to an existing directory exists. -/
theorem access_on_the_way (cwd : CPath) (fs : FS) (home cut more : Bytes)
    (hhome : stat cwd fs home = some Node.dir) (hcut : home = cut ++ '/' :: more)
    (hne : cut ≠ []) : access cwd fs cut = true := by
  obtain ⟨p, hres, hget⟩ := stat_dir_inv cwd fs home hhome
  unfold resolve at hres
  have hhne : home ≠ [] := by rw [hcut]; simp
  rw [if_neg hhne] at hres
  have hhead : home.head? = cut.head? := by
    rw [hcut]
    cases cut with
    | nil => exact absurd rfl hne
    | cons x xs => rfl
  rw [hhead] at hres
  have hc : components home = components cut ++ components more := by
    rw [hcut]; exact components_append cut more
  rw [hc] at hres
  obtain ⟨m, hm1, hm2⟩ := walk_append fs _ _ _ p hres
  have hmd := walk_start_dir fs m _ p hm2 hget
  unfold access stat resolve
  rw [if_neg hne, hm1]
  simp [hmd]

/-- The paths `create_directories` tests inside its loop end just before a slash of `tmp`. -/
theorem mem_slashCuts (tmp cut : Bytes) (h : cut ∈ slashCuts tmp) :
    cut ≠ [] ∧ ∃ more, tmp = cut ++ '/' :: more := by
  unfold slashCuts at h
  rw [List.mem_map] at h
  obtain ⟨i, hi, rfl⟩ := h
  rw [List.mem_filter, List.mem_range] at hi
  obtain ⟨hlt, hc⟩ := hi
  simp only [Bool.and_eq_true, decide_eq_true_eq, beq_iff_eq] at hc
  obtain ⟨h1, hget⟩ := hc
  refine ⟨?_, tmp.drop (i + 1), ?_⟩
  · intro h0
    have := congrArg List.length h0
    simp only [List.length_take, List.length_nil] at this
    omega
  · have hd : tmp.drop i = '/' :: tmp.drop (i + 1) := by
      rw [List.get?_eq_getElem?] at hget
      have := List.getElem?_eq_some_iff.mp hget
      obtain ⟨hl, he⟩ := this
      rw [← he]
      exact List.drop_eq_getElem_cons hl
    rw [← hd, List.take_append_drop]

/-- Steps without `..` never leave a directory. -/
theorem foldl_stepComp_below (base cur : CPath) (B : List Bytes) (hb : base <+: cur)
    (hB : "..".toList ∉ B) : base <+: B.foldl stepComp cur := by
  induction B generalizing cur with
  | nil => exact hb
  | cons b B1 ih =>
    simp only [List.foldl_cons]
    apply ih
    · unfold stepComp
      split
      · exact hb
      · split
        · rename_i h2
          exact absurd (List.mem_cons.mpr (Or.inl h2.symm)) hB
        · exact hb.trans (List.prefix_append _ _)
    · exact fun hm => hB (List.mem_cons_of_mem _ hm)

/-- A path `home/id` followed by nothing or by `/...` without a `..` component denotes a path
at or below the one `home/id` denotes. -/
theorem canon_below (cwd : CPath) (home id U : Bytes) (hhome : home ≠ [])
    (hid1 : '/' ∉ id) (hid2 : id ≠ []) (hid3 : id ≠ ".".toList) (hid4 : id ≠ "..".toList)
    (hU : U = [] ∨ U.head? = some '/') (hdots : "..".toList ∉ components U) :
    canon cwd (home ++ '/' :: id) <+: canon cwd (home ++ '/' :: (id ++ U)) := by
  have hhead : ∀ t : Bytes, (home ++ t).head? = home.head? := by
    intro t
    cases home with
    | nil => exact absurd rfl hhome
    | cons x xs => rfl
  have hcid : components id = [id] := components_plain id hid1 hid2
  have hstep : ∀ cur : CPath, stepComp cur id = cur ++ [id] := by
    intro cur
    unfold stepComp
    have h3 : ¬ id = ['.'] := hid3
    have h4 : ¬ id = ['.', '.'] := hid4
    rw [if_neg h3, if_neg h4]
  have hcU : components (id ++ U) = id :: components U := by
    rcases hU with h | h
    · subst h
      rw [List.append_nil, hcid, components_nil]
    · cases U with
      | nil => simp at h
      | cons u U1 =>
        simp only [List.head?_cons, Option.some.injEq] at h
        subst h
        rw [components_append, hcid, components_slash]
        rfl
  unfold canon
  rw [hhead, hhead, components_append, components_append, hcid, hcU]
  simp only [List.foldl_append, List.foldl_cons, List.foldl_nil, hstep]
  exact foldl_stepComp_below _ _ _ (List.prefix_refl _) hdots

/-- A path that `stat` finds is found, with the same node, in a file system that has kept
every node. -/
theorem stat_keeps (cwd : CPath) (fs fs1 : FS)
    (hk : ∀ q nd, fs.get q = some nd → fs1.get q = some nd)
    (path : Bytes) (nd : Node) (h : stat cwd fs path = some nd) :
    stat cwd fs1 path = some nd := by
  unfold stat at h ⊢
  cases hres : resolve cwd fs path with
  | none => rw [hres] at h; exact absurd h (by simp)
  | some p =>
    rw [hres] at h
    rw [resolve_mono cwd fs fs1 (fun q hq => hk q _ hq) path p hres]
    simp only at h ⊢
    cases hget : fs.get p with
    | none => rw [hget] at h; exact absurd h (by simp)
    | some x =>
      rw [hget] at h
      rw [hk p x hget]
      exact h

theorem access_keeps (cwd : CPath) (fs fs1 : FS)
    (hk : ∀ q nd, fs.get q = some nd → fs1.get q = some nd)
    (path : Bytes) (h : access cwd fs path = true) : access cwd fs1 path = true := by
  unfold access at h ⊢
  cases hs : stat cwd fs path with
  | none => rw [hs] at h; exact absurd h (by simp)
  | some nd => rw [stat_keeps cwd fs fs1 hk path nd hs]; rfl

/-- What `mkdir` changes: the one canonical path the argument denotes. -/
theorem mkdir_changes (cwd : CPath) (fs fs1 : FS) (path : Bytes)
    (h : mkdir cwd fs path = some fs1) (q : CPath) (hq : fs1.get q ≠ fs.get q) :
    q = canon cwd path := by
  unfold mkdir at h
  split at h
  · exact absurd h (by simp)
  · rename_i p hres
    have hp := resolve_eq_canon cwd fs path p hres
    split at h
    · exact absurd h (by simp)
    · split at h
      · simp only [Option.some.injEq] at h
        subst h
        by_contra hne
        rw [← hp] at hne
        exact hq (FS.get_set_other fs p q Node.dir hne)
      · exact absurd h (by simp)

/-- Where `create_directories` can change the file system: at the canonical paths of the
tested paths that do not exist yet. -/
theorem ensure_dirs_changes (cwd : CPath) (good : CPath → Prop) (paths : List Bytes) (fs : FS)
    (h : ∀ p ∈ paths, access cwd fs p = true ∨ good (canon cwd p))
    (q : CPath) (hq : (ensure_dirs cwd fs paths).2.get q ≠ fs.get q) : good q := by
  induction paths generalizing fs with
  | nil => exact absurd rfl hq
  | cons p ps ih =>
    unfold ensure_dirs at hq
    by_cases hacc : access cwd fs p = true
    · rw [if_pos hacc] at hq
      exact ih fs (fun p1 hp1 => h p1 (List.mem_cons_of_mem _ hp1)) hq
    · rw [if_neg hacc] at hq
      cases hmk : mkdir cwd fs p with
      | none =>
        rw [hmk] at hq
        exact absurd rfl hq
      | some fs1 =>
        rw [hmk] at hq
        simp only at hq
        have hgood : good (canon cwd p) := by
          rcases h p (List.mem_cons_self _ _) with h1 | h1
          · exact absurd h1 hacc
          · exact h1
        by_cases hch : fs1.get q = fs.get q
        · rw [← hch] at hq
          refine ih fs1 ?_ hq
          intro p1 hp1
          rcases h p1 (List.mem_cons_of_mem _ hp1) with h1 | h1
          · exact Or.inl (access_keeps cwd fs fs1 (mkdir_keeps cwd fs fs1 p hmk) p1 h1)
          · exact Or.inr h1
        · rw [mkdir_changes cwd fs fs1 p hmk q hch]
          exact hgood

/-- Where `receive_file` can change the file system: at the canonical path of its file. -/
theorem receive_file_changes (cwd : CPath) (fs : FS) (c : Conn) (filepath : Bytes) (q : CPath)
    (hq : (receive_file cwd fs c filepath).fs.get q ≠ fs.get q) : q = canon cwd filepath := by
  unfold receive_file at hq
  simp only at hq
  split at hq
  · exact absurd rfl hq
  · split at hq
    · exact absurd rfl hq
    · split at hq
      · exact absurd rfl hq
      · rename_i fs1 fp hopen
        obtain ⟨-, hres, -, -, hfs1⟩ := fopen_wb_some cwd fs fs1 filepath fp hopen
        have hp := resolve_eq_canon cwd fs filepath fp hres
        simp only at hq
        by_contra hne
        rw [← hp] at hne
        apply hq
        rw [FS.get_set_other _ _ _ _ hne, hfs1, FS.get_set_other _ _ _ _ hne]

theorem head_of_initial (U X W : Bytes) (h : W = U ++ X) (hW : W.head? = some '/') :
    U = [] ∨ U.head? = some '/' := by
  cases U with
  | nil => exact Or.inl rfl
  | cons u U1 =>
    right
    rw [h] at hW
    exact hW

theorem dots_of_initial (U V W : Bytes) (h : W = U ++ '/' :: V)
    (hW : "..".toList ∉ components W) : "..".toList ∉ components U := by
  intro hm
  apply hW
  rw [h, components_append]
  exact List.mem_append_left _ hm

/-- The buffer `tmp` of `create_directories` for a destination `id ++ rest`: the home
directory, a slash, `id`, and a part of `rest` that ends before a slash. -/
theorem tmp_shape (home id rest filename : Bytes) (hid1 : '/' ∉ id) (hid2 : id ≠ [])
    (hfit : (home ++ '/' :: (id ++ rest)).length ≤ 511) :
    ∃ U0 V0,
      (if (snprintf 512 (home ++ '/' :: (id ++ rest))).getLast? = some '/'
        then (snprintf 512 (home ++ '/' :: (id ++ rest))).dropLast
        else snprintf 512 (home ++ '/' :: (id ++ rest))) = home ++ '/' :: (id ++ U0) ∧
      rest ++ '/' :: filename = U0 ++ '/' :: V0 := by
  have hsn : snprintf 512 (home ++ '/' :: (id ++ rest)) = home ++ '/' :: (id ++ rest) := by
    unfold snprintf
    exact List.take_of_length_le (by omega)
  rw [hsn]
  by_cases hl : (home ++ '/' :: (id ++ rest)).getLast? = some '/'
  · rw [if_pos hl]
    rcases List.eq_nil_or_concat rest with h0 | ⟨L, b, h1⟩
    · exfalso
      subst h0
      rcases List.eq_nil_or_concat id with hi0 | ⟨I, x, hi1⟩
      · exact hid2 hi0
      · rw [hi1] at hl hid1
        simp only [List.concat_eq_append, List.append_nil] at hl hid1
        have e : home ++ '/' :: (I ++ [x]) = (home ++ '/' :: I) ++ [x] := by simp
        have hl1 : ((home ++ '/' :: I) ++ [x]).getLast? = some x := List.getLast?_concat _
        rw [e, hl1] at hl
        simp only [Option.some.injEq] at hl
        apply hid1
        rw [hl]
        simp
    · subst h1
      simp only [List.concat_eq_append] at hl ⊢
      have e : home ++ '/' :: (id ++ (L ++ [b])) = (home ++ '/' :: (id ++ L)) ++ [b] := by simp
      have hl1 : ((home ++ '/' :: (id ++ L)) ++ [b]).getLast? = some b := List.getLast?_concat _
      rw [e, hl1] at hl
      simp only [Option.some.injEq] at hl
      subst hl
      refine ⟨L, '/' :: filename, ?_, by simp⟩
      rw [e, List.dropLast_concat]
  · rw [if_neg hl]
    exact ⟨rest, filename, rfl, rfl⟩

/-- Every path `create_directories` tests for a destination `id ++ rest` without `..` either
exists already (it is the home directory or lies on the way to it) or denotes a path at or
below `home/id`. -/
theorem cuts_below (cwd : CPath) (fs : FS) (home id U0 V0 W : Bytes)
    (hhome : stat cwd fs home = some Node.dir)
    (hid1 : '/' ∉ id) (hid2 : id ≠ []) (hid3 : id ≠ ".".toList) (hid4 : id ≠ "..".toList)
    (hW : W = U0 ++ '/' :: V0) (hWh : W.head? = some '/')
    (hdots : "..".toList ∉ components W)
    (cut : Bytes)
    (hcut : cut ∈ slashCuts (home ++ '/' :: (id ++ U0)) ++ [home ++ '/' :: (id ++ U0)]) :
    access cwd fs cut = true ∨ canon cwd (home ++ '/' :: id) <+: canon cwd cut := by
  have hhne : home ≠ [] := by
    obtain ⟨p, hres, -⟩ := stat_dir_inv cwd fs home hhome
    intro h0
    subst h0
    simp [resolve] at hres
  have hacc : access cwd fs home = true := by
    unfold access
    rw [hhome]
    rfl
  rw [List.mem_append, List.mem_singleton] at hcut
  rcases hcut with hc | hc
  · obtain ⟨hne, more, hm⟩ := mem_slashCuts _ _ hc
    rcases List.append_eq_append_iff.mp hm with ⟨a1, h1, h2⟩ | ⟨c1, h1, h2⟩
    · cases a1 with
      | nil =>
        left
        rw [h1, List.append_nil]
        exact hacc
      | cons x a2 =>
        right
        simp only [List.cons_append, List.cons.injEq] at h2
        obtain ⟨hx, h3⟩ := h2
        subst hx
        rcases List.append_eq_append_iff.mp h3 with ⟨t, h4, h5⟩ | ⟨t, h4, h5⟩
        · rw [h1, h4]
          have hWt : W = t ++ '/' :: (more ++ '/' :: V0) := by
            rw [hW, h5]; simp
          exact canon_below cwd home id t hhne hid1 hid2 hid3 hid4
            (head_of_initial t _ W hWt hWh) (dots_of_initial t _ W hWt hdots)
        · cases t with
          | nil =>
            rw [List.append_nil] at h4
            rw [h1, ← h4]
          | cons y t1 =>
            exfalso
            simp only [List.cons_append, List.cons.injEq] at h5
            apply hid1
            rw [h4, ← h5.1]
            simp
    · cases c1 with
      | nil =>
        left
        rw [List.append_nil] at h1
        rw [← h1]
        exact hacc
      | cons y c2 =>
        left
        simp only [List.cons_append, List.cons.injEq] at h2
        rw [← h2.1] at h1
        exact access_on_the_way cwd fs home cut c2 hhome h1 hne
  · right
    rw [hc]
    exact canon_below cwd home id U0 hhne hid1 hid2 hid3 hid4
      (head_of_initial U0 _ W hW hWh) (dots_of_initial U0 V0 W hW hdots)

/-- C12 (as amended). A storage node that receives `uploadf <filename> <destination>` in
which the destination is the node's identifier followed by nothing or by `/...`, neither the
rest of the destination nor the file name has a `..` component, the home directory exists, and
`$HOME/<destination>/<filename>` fits the 512-byte path buffer: every canonical path at which
the file system differs afterwards (each directory made, the file written) is the node's root
`$HOME/<id>` or lies below it. -/
theorem node_put_confined (cfg : NodeCfg) (env : Env) (fs : FS) (c : Conn)
    (args filename args1 destination args2 rest : Bytes)
    (hcfg : cfg = S2 ∨ cfg = S3 ∨ cfg = S4)
    (hfile : strtok args = some (filename, args1))
    (hdest : strtok args1 = some (destination, args2))
    (hd : destination = cfg.id.toList ++ rest)
    (hrest : rest = [] ∨ rest.head? = some '/')
    (hdots : "..".toList ∉ components (rest ++ '/' :: filename))
    (hhome : stat env.cwd fs (home_dir env) = some Node.dir)
    (hfit : (home_dir env ++ '/' :: destination ++ '/' :: filename).length ≤ 511)
    (q : CPath) (hq : (Node.uploadf cfg env fs c args).1.get q ≠ fs.get q) :
    canon env.cwd (home_dir env ++ '/' :: cfg.id.toList) <+: q := by
  have hid1 : '/' ∉ cfg.id.toList := by rcases hcfg with h | h | h <;> (subst h; decide)
  have hid2 : cfg.id.toList ≠ [] := by rcases hcfg with h | h | h <;> (subst h; decide)
  have hid3 : cfg.id.toList ≠ ".".toList := by rcases hcfg with h | h | h <;> (subst h; decide)
  have hid4 : cfg.id.toList ≠ "..".toList := by rcases hcfg with h | h | h <;> (subst h; decide)
  have hhne : home_dir env ≠ [] := by
    obtain ⟨p, hres, -⟩ := stat_dir_inv env.cwd fs _ hhome
    intro h0
    rw [h0] at hres
    simp [resolve] at hres
  subst hd
  have hWh : (rest ++ '/' :: filename).head? = some '/' := by
    rcases hrest with h | h
    · subst h; rfl
    · cases rest with
      | nil => simp at h
      | cons r rest1 => exact h
  have hlen1 : (home_dir env ++ '/' :: (cfg.id.toList ++ rest)).length ≤ 511 := by
    simp only [List.length_append, List.length_cons] at hfit ⊢
    omega
  have hcd : ∀ q, (create_directories env fs (cfg.id.toList ++ rest)).2.get q ≠ fs.get q →
      canon env.cwd (home_dir env ++ '/' :: cfg.id.toList) <+: q := by
    intro q hq
    obtain ⟨U0, V0, htmp, hW⟩ := tmp_shape (home_dir env) cfg.id.toList rest filename hid1 hid2
      hlen1
    unfold create_directories at hq
    simp only at hq
    rw [htmp] at hq
    exact ensure_dirs_changes env.cwd
      (fun q => canon env.cwd (home_dir env ++ '/' :: cfg.id.toList) <+: q) _ fs
      (fun cut hcut => cuts_below env.cwd fs (home_dir env) cfg.id.toList U0 V0 _ hhome
        hid1 hid2 hid3 hid4 hW hWh hdots cut hcut) q hq
  have hlocal : local_path env (cfg.id.toList ++ rest) filename =
      home_dir env ++ '/' :: (cfg.id.toList ++ (rest ++ '/' :: filename)) := by
    unfold local_path snprintf
    rw [List.take_of_length_le (by omega)]
    simp
  have hfilep : canon env.cwd (home_dir env ++ '/' :: cfg.id.toList) <+:
      canon env.cwd (local_path env (cfg.id.toList ++ rest) filename) := by
    rw [hlocal]
    exact canon_below env.cwd _ _ _ hhne hid1 hid2 hid3 hid4 (Or.inr hWh) hdots
  unfold Node.uploadf at hq
  simp only [hfile, hdest] at hq
  split at hq
  · exact absurd rfl hq
  · split at hq
    · exact hcd q hq
    · by_cases hch : (create_directories env fs (cfg.id.toList ++ rest)).2.get q = fs.get q
      · have hrf : (receive_file env.cwd (create_directories env fs (cfg.id.toList ++ rest)).2
            (send_lit env c "READY\n" 6)
            (local_path env (cfg.id.toList ++ rest) filename)).fs.get q ≠
            (create_directories env fs (cfg.id.toList ++ rest)).2.get q := by
          rw [hch]
          split at hq <;> exact hq
        rw [receive_file_changes _ _ _ _ q hrf]
        exact hfilep
      · exact hcd q hch

/-- Witness for `node_put_confined`: S2 stores `a.pdf` under `S2/x`; the path `/h/S2/x/a.pdf`
changes and lies below `/h/S2`. -/
theorem node_put_confined_witness :
    canon exEnv.cwd (home_dir exEnv ++ '/' :: S2.id.toList) <+:
      ["h".toList, "S2".toList, "x".toList, "a.pdf".toList] :=
  node_put_confined S2 exEnv exFS ⟨["5".toList, "hello".toList], [], none⟩
    "a.pdf S2/x".toList "a.pdf".toList "S2/x".toList "S2/x".toList [] "/x".toList
    (Or.inl rfl) (by decide) (by decide) (by decide) (Or.inr (by decide)) (by decide)
    (by decide) (by decide) ["h".toList, "S2".toList, "x".toList, "a.pdf".toList] (by decide)

/-- C12 (counterexample). Node S2 accepts `uploadf a.pdf S3/x` and writes the file to
`/h/S3/x/a.pdf`, and it accepts `uploadf a.pdf S2/../out` and writes `/h/out/a.pdf`: neither
lies under its root `/h/S2`. -/
theorem node_writes_outside_its_root :
    ((Node.prcclient_step S2 exEnv exFS
        ⟨["uploadf a.pdf S3/x".toList, "5".toList, "hello".toList], [], none⟩).2.2.out =
      ["READY\n".toList, "File uploaded successfully to S2.\n".toList] ∧
    (Node.prcclient_step S2 exEnv exFS
        ⟨["uploadf a.pdf S3/x".toList, "5".toList, "hello".toList], [], none⟩).2.1.get
        ["h".toList, "S3".toList, "x".toList, "a.pdf".toList] =
      some (Node.file "hello".toList)) ∧
    ((Node.prcclient_step S2 exEnv exFS
        ⟨["uploadf a.pdf S2/../out".toList, "5".toList, "hello".toList], [], none⟩).2.2.out =
      ["READY\n".toList, "File uploaded successfully to S2.\n".toList] ∧
    (Node.prcclient_step S2 exEnv exFS
        ⟨["uploadf a.pdf S2/../out".toList, "5".toList, "hello".toList], [], none⟩).2.1.get
        ["h".toList, "out".toList, "a.pdf".toList] =
      some (Node.file "hello".toList)) ∧
    exFS.get ["h".toList, "S3".toList, "x".toList, "a.pdf".toList] = none ∧
    exFS.get ["h".toList, "out".toList, "a.pdf".toList] = none := by
  decide

/-! ## `create_directories` -/

/-- The function `create_directories` in terms of the paths it tests. -/
theorem create_directories_eq (env : Env) (fs : FS) (path : Bytes) :
    create_directories env fs path =
      (if (ensure_dirs env.cwd fs (tested_paths env path)).1 then 0 else -1,
        (ensure_dirs env.cwd fs (tested_paths env path)).2) := rfl

/-- When every tested path exists, nothing is made. -/
theorem ensure_dirs_all_exist (cwd : CPath) (fs : FS) (paths : List Bytes)
    (h : ∀ p ∈ paths, access cwd fs p = true) : ensure_dirs cwd fs paths = (true, fs) := by
  induction paths with
  | nil => rfl
  | cons p ps ih =>
    unfold ensure_dirs
    rw [if_pos (h p (List.mem_cons_self _ _))]
    exact ih (fun p1 hp1 => h p1 (List.mem_cons_of_mem _ hp1))

/-- A directory that `mkdir` made exists. -/
theorem mkdir_stat (cwd : CPath) (fs fs1 : FS) (path : Bytes) (h : mkdir cwd fs path = some fs1) :
    stat cwd fs1 path = some Node.dir := by
  have hk := mkdir_keeps cwd fs fs1 path h
  unfold mkdir at h
  split at h
  · exact absurd h (by simp)
  · rename_i p hres
    split at h
    · exact absurd h (by simp)
    · rename_i hnone
      split at h
      · simp only [Option.some.injEq] at h
        have hp : p ≠ [] := by
          intro h0
          subst h0
          simp [FS.get] at hnone
        have hres1 := resolve_mono cwd fs fs1 (fun q hq => hk q _ hq) path p hres
        unfold stat
        rw [hres1, ← h]
        simp only [FS.get_set_same fs p Node.dir hp]
      · exact absurd h (by simp)

/-- After `create_directories` succeeded, every path it tested exists. -/
theorem ensure_dirs_then_exist (cwd : CPath) (paths : List Bytes) (fs : FS)
    (h : (ensure_dirs cwd fs paths).1 = true) :
    ∀ p ∈ paths, access cwd (ensure_dirs cwd fs paths).2 p = true := by
  induction paths generalizing fs with
  | nil => intro p hp; simp at hp
  | cons p0 ps ih =>
    unfold ensure_dirs at h ⊢
    by_cases hacc : access cwd fs p0 = true
    · rw [if_pos hacc] at h ⊢
      intro p hp
      rcases List.mem_cons.mp hp with h1 | h1
      · rw [h1]
        exact access_keeps cwd fs _ (fun q nd hq => ensure_dirs_keeps cwd fs ps q nd hq) p0 hacc
      · exact ih fs h p h1
    · rw [if_neg hacc] at h ⊢
      cases hmk : mkdir cwd fs p0 with
      | none => rw [hmk] at h; exact absurd h (by simp)
      | some fs1 =>
        rw [hmk] at h
        simp only at h ⊢
        intro p hp
        rcases List.mem_cons.mp hp with h1 | h1
        · rw [h1]
          have h2 : access cwd fs1 p0 = true := by
            unfold access
            rw [mkdir_stat cwd fs fs1 p0 hmk]
            rfl
          exact access_keeps cwd fs1 _ (fun q nd hq => ensure_dirs_keeps cwd fs1 ps q nd hq) p0 h2
        · exact ih fs1 h p h1

/-- C21. When every path `create_directories(path)` tests (each segment of `$HOME/<path>`)
exists as a directory, the call returns 0 and leaves the file system as it was; and when a
call returns 0, a second call with the same path on the resulting file system returns 0 and
changes nothing. -/
theorem create_directories_idempotent (env : Env) (fs : FS) (path : Bytes) :
    ((∀ p ∈ tested_paths env path, stat env.cwd fs p = some Node.dir) →
      create_directories env fs path = (0, fs)) ∧
    ((create_directories env fs path).1 = 0 →
      create_directories env (create_directories env fs path).2 path =
        (0, (create_directories env fs path).2)) := by
  constructor
  · intro h
    rw [create_directories_eq, ensure_dirs_all_exist env.cwd fs _
      (fun p hp => by unfold access; rw [h p hp]; rfl)]
    rfl
  · intro h
    have h1 : (ensure_dirs env.cwd fs (tested_paths env path)).1 = true := by
      rw [create_directories_eq] at h
      simp only at h
      by_contra hc
      rw [if_neg hc] at h
      exact absurd h (by decide)
    have h2 := ensure_dirs_then_exist env.cwd (tested_paths env path) fs h1
    rw [create_directories_eq env (create_directories env fs path).2 path]
    have e : (create_directories env fs path).2 =
        (ensure_dirs env.cwd fs (tested_paths env path)).2 := rfl
    rw [e, ensure_dirs_all_exist env.cwd _ _ h2]
    rfl

/-- Witness for `create_directories_idempotent`: in the example file system `/h` and `/h/S1`
are directories, and `create_directories("S1")` returns 0 and changes nothing. -/
theorem create_directories_idempotent_witness :
    (∀ p ∈ tested_paths exEnv "S1".toList, stat exEnv.cwd exFS p = some Node.dir) ∧
      create_directories exEnv exFS "S1".toList = (0, exFS) :=
  ⟨by decide, (create_directories_idempotent exEnv exFS "S1".toList).1 (by decide)⟩

/-- A string without components is empty or ends in a slash. -/
theorem components_eq_nil (s : Bytes) (h : components s = []) :
    s = [] ∨ s.getLast? = some '/' := by
  induction s with
  | nil => exact Or.inl rfl
  | cons ch rest ih =>
    right
    by_cases hc : ch = '/'
    · subst hc
      rw [components_slash] at h
      rcases ih h with h1 | h1
      · subst h1; rfl
      · cases rest with
        | nil => rfl
        | cons r rest1 =>
          rw [List.getLast?_cons_cons]
          exact h1
    · exfalso
      unfold components at h
      rw [splitSlash] at h
      have hne := splitSlash_ne_nil rest
      cases hs : splitSlash rest with
      | nil => exact hne hs
      | cons piece more =>
        rw [hs] at h
        simp only [if_neg hc] at h
        rw [List.filter_cons] at h
        simp at h

/-- A path that leads on to something that exists is a directory. -/
theorem dir_on_the_way (cwd : CPath) (fs : FS) (cut more : Bytes)
    (hacc : access cwd fs (cut ++ '/' :: more) = true) (hne : cut ≠ []) :
    stat cwd fs cut = some Node.dir := by
  unfold access at hacc
  cases hs : stat cwd fs (cut ++ '/' :: more) with
  | none => rw [hs] at hacc; exact absurd hacc (by simp)
  | some nd =>
    have hhead : (cut ++ '/' :: more).head? = cut.head? := by
      cases cut with
      | nil => exact absurd rfl hne
      | cons x xs => rfl
    have hpne : cut ++ '/' :: more ≠ [] := by simp
    have hmid : ∀ p, resolve cwd fs (cut ++ '/' :: more) = some p →
        (components more ≠ [] ∨ fs.get p = some Node.dir) →
        stat cwd fs cut = some Node.dir := by
      intro p hres hor
      unfold resolve at hres
      rw [if_neg hpne, hhead, components_append] at hres
      obtain ⟨m, hm1, hm2⟩ := walk_append fs _ _ _ p hres
      have hmd : fs.get m = some Node.dir := by
        rcases hor with h1 | h1
        · cases hcm : components more with
          | nil => exact absurd hcm h1
          | cons b B =>
            rw [hcm] at hm2
            simp only [walk] at hm2
            split at hm2
            · assumption
            · exact absurd hm2 (by simp)
        · exact walk_start_dir fs m _ p hm2 h1
      unfold stat resolve
      rw [if_neg hne, hm1]
      simp [hmd]
    cases nd with
    | dir =>
      obtain ⟨p, hres, hget⟩ := stat_dir_inv cwd fs _ hs
      exact hmid p hres (Or.inr hget)
    | file d =>
      obtain ⟨p, hres, hget, hts, -⟩ := stat_file_inv cwd fs _ d hs
      refine hmid p hres (Or.inl ?_)
      intro hc
      rcases components_eq_nil more hc with h1 | h1
      · subst h1
        have : trailingSlash (cut ++ ['/']) = true := by
          unfold trailingSlash
          rw [List.getLast?_concat]
          rfl
        rw [this] at hts
        exact absurd hts (by decide)
      · have : trailingSlash (cut ++ '/' :: more) = true := by
          unfold trailingSlash
          have e : (cut ++ '/' :: more).getLast? = more.getLast? := by
            cases more with
            | nil => simp at h1
            | cons x xs =>
              rw [List.getLast?_append, List.getLast?_cons_cons, h1]
              rfl
          rw [e, h1]
          rfl
        rw [this] at hts
        exact absurd hts (by decide)

/-- A regular file found after `create_directories` was there before. -/
theorem ensure_dirs_files (cwd : CPath) (paths : List Bytes) (fs : FS) (q : CPath) (d : Bytes)
    (h : (ensure_dirs cwd fs paths).2.get q = some (Node.file d)) :
    fs.get q = some (Node.file d) := by
  induction paths generalizing fs with
  | nil => exact h
  | cons p ps ih =>
    unfold ensure_dirs at h
    by_cases hacc : access cwd fs p = true
    · rw [if_pos hacc] at h
      exact ih fs h
    · rw [if_neg hacc] at h
      cases hmk : mkdir cwd fs p with
      | none => rw [hmk] at h; exact h
      | some fs1 =>
        rw [hmk] at h
        simp only at h
        have h1 := ih fs1 h
        by_contra hne
        have hch : fs1.get q ≠ fs.get q := by rw [h1]; exact fun e => hne e.symm
        have hq := mkdir_changes cwd fs fs1 p hmk q hch
        have hst := mkdir_stat cwd fs fs1 p hmk
        obtain ⟨p1, hres, hget⟩ := stat_dir_inv cwd fs1 p hst
        rw [← resolve_eq_canon cwd fs1 p p1 hres] at hq
        rw [hq, hget] at h1
        exact absurd h1 (by simp)

/-- C30 (as amended). When `create_directories(path)` returns 0 and `$HOME/<path>` fits the
512-byte buffer: the path the function worked on is `$HOME/<path>` without one trailing slash;
every part of it that ends before a slash exists as a directory afterwards; and the whole path
exists as a directory afterwards when no regular file was stored there before the call. -/
theorem create_directories_postcondition (env : Env) (fs : FS) (path : Bytes)
    (hret : (create_directories env fs path).1 = 0)
    (hfit : (home_dir env ++ '/' :: path).length ≤ 511) :
    create_directories_tmp env path =
      (if (home_dir env ++ '/' :: path).getLast? = some '/'
        then (home_dir env ++ '/' :: path).dropLast else home_dir env ++ '/' :: path) ∧
    (∀ cut more, create_directories_tmp env path = cut ++ '/' :: more → cut ≠ [] →
      stat env.cwd (create_directories env fs path).2 cut = some Node.dir) ∧
    ((∀ d, fs.get (canon env.cwd (create_directories_tmp env path)) ≠ some (Node.file d)) →
      stat env.cwd (create_directories env fs path).2 (create_directories_tmp env path) =
        some Node.dir) := by
  have h1 : (ensure_dirs env.cwd fs (tested_paths env path)).1 = true := by
    rw [create_directories_eq] at hret
    simp only at hret
    by_contra hc
    rw [if_neg hc] at hret
    exact absurd hret (by decide)
  have hacc : access env.cwd (create_directories env fs path).2
      (create_directories_tmp env path) = true :=
    ensure_dirs_then_exist env.cwd (tested_paths env path) fs h1 _
      (by unfold tested_paths; simp)
  refine ⟨?_, ?_, ?_⟩
  · unfold create_directories_tmp snprintf
    rw [List.take_of_length_le (by omega)]
  · intro cut more hcut hne
    rw [hcut] at hacc
    exact dir_on_the_way env.cwd _ cut more hacc hne
  · intro hnf
    unfold access at hacc
    cases hs : stat env.cwd (create_directories env fs path).2
        (create_directories_tmp env path) with
    | none => rw [hs] at hacc; exact absurd hacc (by simp)
    | some nd =>
      cases nd with
      | dir => rfl
      | file d =>
        exfalso
        apply hnf d
        obtain ⟨p, hres, hget, -, -⟩ := stat_file_inv env.cwd _ _ d hs
        rw [← resolve_eq_canon env.cwd _ _ p hres]
        exact ensure_dirs_files env.cwd (tested_paths env path) fs p d hget

/-- Witness for `create_directories_postcondition`: `S1/x/y` in a file system that has
`/h/S1`; `/h/S1/x` and `/h/S1/x/y` are directories afterwards. -/
theorem create_directories_postcondition_witness :
    stat exEnv.cwd (create_directories exEnv exFS "S1/x/y".toList).2 "/h/S1/x".toList =
        some Node.dir ∧
      stat exEnv.cwd (create_directories exEnv exFS "S1/x/y".toList).2 "/h/S1/x/y".toList =
        some Node.dir :=
  ⟨(create_directories_postcondition exEnv exFS "S1/x/y".toList (by decide) (by decide)).2.1
      "/h/S1/x".toList "y".toList (by decide) (by decide),
    (create_directories_postcondition exEnv exFS "S1/x/y".toList (by decide) (by decide)).2.2
      (fun d => by
        rw [show exFS.get (canon exEnv.cwd (create_directories_tmp exEnv "S1/x/y".toList)) = none
          from by decide]
        exact fun h => Option.noConfusion h)⟩

set_option maxRecDepth 1000000 in
/-- C30 (counterexample). Two calls that return 0: for `S1/a.c`, whose last segment is the
regular file `/h/S1/a.c`, which is still a regular file afterwards; and for `longDest` (`S1/`
and three components of 200 bytes), of which only the first 508 bytes fit the buffer after
`/h/`: the directory made for the last component has the first 103 of its 200 bytes, and
`/h/<longDest>` does not exist afterwards. -/
theorem create_directories_returns_0_without_directory :
    ((create_directories exEnv exFS "S1/a.c".toList).1 = 0 ∧
      stat exEnv.cwd (create_directories exEnv exFS "S1/a.c".toList).2 "/h/S1/a.c".toList =
        some (Node.file "old".toList)) ∧
    ((create_directories exEnv exFS longDest).1 = 0 ∧
      (create_directories exEnv exFS longDest).2.get
        ["h".toList, "S1".toList, List.replicate 200 'a', List.replicate 200 'b',
          List.replicate 103 'c'] = some Node.dir ∧
      stat exEnv.cwd (create_directories exEnv exFS longDest).2
        ("/h/".toList ++ longDest) = none) := by
  decide

/-! ## What `receive_file` consumes -/

/-- C27 (as amended). When the first read delivers exactly the decimal token of the length of
a non-empty payload `b` (a length that fits a `long`), the connection then carries `b` followed
by the bytes `more`, split across reads in any way, and the destination can be opened for
writing:
`receive_file` returns 0, the destination holds exactly `b`, and what the connection still
carries afterwards is exactly `more`: the length token and the bytes of `b` were consumed and
nothing else. -/
theorem receive_file_exact_consumption (cwd : CPath) (fs : FS) (c : Conn)
    (filepath b : Bytes) (rest : List Bytes) (more : Bytes)
    (hb : b ≠ []) (hsize : (b.length : Int) ≤ LONG_MAX)
    (hin : c.inp = fmt_ld b.length :: rest)
    (hpay : avail rest = b ++ more)
    (hopen : (fopen_wb cwd fs filepath).isSome = true) :
    (receive_file cwd fs c filepath).ret = 0 ∧
    stat cwd (receive_file cwd fs c filepath).fs filepath = some (Node.file b) ∧
    avail (receive_file cwd fs c filepath).conn.inp = more := by
  obtain ⟨⟨fs1, fp⟩, hfo⟩ := Option.isSome_iff_exists.mp hopen
  obtain ⟨h1, h2, h3⟩ := receive_file_ok cwd fs fs1 c filepath b rest more fp hb hsize hin hpay hfo
  obtain ⟨hts, hres, hnd, hfp, -⟩ := fopen_wb_some cwd fs fs1 filepath fp hfo
  refine ⟨h1, ?_, h3⟩
  rw [h2]
  exact stat_after_write cwd fs filepath fp [] b hts hres hnd hfp

/-- Witness for `receive_file_exact_consumption`: the token `3`, then the reads `ab` and
`cdownlf S1/a.c`; the command that follows the payload is left on the connection. -/
theorem receive_file_exact_consumption_witness :
    (receive_file [] exFS ⟨["3".toList, "ab".toList, "cdownlf S1/a.c".toList], [], none⟩
      "/h/S1/b.c".toList).ret = 0 ∧
    stat [] (receive_file [] exFS
      ⟨["3".toList, "ab".toList, "cdownlf S1/a.c".toList], [], none⟩
      "/h/S1/b.c".toList).fs "/h/S1/b.c".toList = some (Node.file "abc".toList) ∧
    avail (receive_file [] exFS
      ⟨["3".toList, "ab".toList, "cdownlf S1/a.c".toList], [], none⟩
      "/h/S1/b.c".toList).conn.inp = "downlf S1/a.c".toList :=
  receive_file_exact_consumption [] exFS
    ⟨["3".toList, "ab".toList, "cdownlf S1/a.c".toList], [], none⟩ "/h/S1/b.c".toList
    "abc".toList ["ab".toList, "cdownlf S1/a.c".toList] "downlf S1/a.c".toList
    (by decide) (by decide) (by decide) (by decide) (by decide)

/-! ## Replies and side effects of the gateway -/

/-- C29 (divergence of the code). `/h/S1/new` does not exist; the gateway rejects
`uploadf a.exe S1/new` with its unsupported-type error (sent with the terminator of the
literal), and the directory `/h/S1/new` exists afterwards: `create_directories` runs before the
extension is compared with the supported ones. -/
theorem rejected_upload_creates_directory :
    exFS.get ["h".toList, "S1".toList, "new".toList] = none ∧
    (S1.prcclient_step exEnv (nodes_up exEnv) exFS
      ⟨["uploadf a.exe S1/new".toList], [], none⟩).2.conn.out =
      ["ERROR: Unsupported file type.\n".toList ++ [NUL]] ∧
    (S1.prcclient_step exEnv (nodes_up exEnv) exFS
      ⟨["uploadf a.exe S1/new".toList], [], none⟩).2.fs.get
      ["h".toList, "S1".toList, "new".toList] = some Node.dir := by
  decide

/-- C22 (divergence of the code). Three replies of the gateway whose byte count is not the
length of the message: the path error is sent without its newline; the format error of
`uploadf` is followed by the terminator of the literal and one more byte of the program image;
the not-valid error of `removef` is followed by the terminator and ten more bytes. (In the
example environment every byte after a literal is `x`.) -/
theorem reply_counts_differ :
    (S1.prcclient_step exEnv (nodes_up exEnv) exFS
      ⟨["removef docs/a.c".toList], [], none⟩).2.conn.out =
      ["ERROR: Path must start with 'S1/'.".toList] ∧
    (S1.prcclient_step exEnv (nodes_up exEnv) exFS ⟨["uploadf".toList], [], none⟩).2.conn.out =
      ["ERROR: Invalid uploadf command format.\n".toList ++ [NUL, 'x']] ∧
    (S1.prcclient_step exEnv (nodes_up exEnv) exFS
      ⟨["removef S1/none.c".toList], [], none⟩).2.conn.out =
      ["ERROR: Specified path or file is not valid.\n".toList ++
        NUL :: List.replicate 10 'x'] := by
  decide

/-! ## `downltar` in the gateway -/

/-- The `downltar` branch of the gateway when the archive is made and sent. -/
theorem S1.downltar_run (env : Env) (fs fs1 : FS) (c : Conn) (args ft rest data : Bytes)
    (base ext tarname : String)
    (hft : strtok args = some (ft, rest))
    (harch : (if ft = ".c".toList then some ("S1", ".c", "cfiles.tar")
      else if ft = ".pdf".toList then some ("S2", ".pdf", "pdf.tar")
      else if ft = ".txt".toList then some ("S3", ".txt", "text.tar")
      else (none : Option (String × String × String))) = some (base, ext, tarname))
    (hsys : env.system (snprintf 2048 ("find \"".toList ++ home_dir env ++ '/' :: base.toList ++
      "\" -type f -name \"*".toList ++ ext.toList ++ "\" | tar -cf ".toList ++
      snprintf 256 (home_dir env ++ '/' :: tarname.toList) ++ " -T -".toList)) fs = (0, fs1))
    (hstat : stat env.cwd fs1 (snprintf 256 (home_dir env ++ '/' :: tarname.toList)) =
      some (Node.file data))
    (hsize : (data.length : Int) ≤ LONG_MAX) (hw : c.wlim = none) :
    (S1.downltar env fs c args).relay = none ∧
    (S1.downltar env fs c args).conn.sent = c.sent ++ (fmt_ld data.length ++ data) ∧
    (S1.downltar env fs c args).fs =
      fs1.erase (canon env.cwd (snprintf 256 (home_dir env ++ '/' :: tarname.toList))) := by
  obtain ⟨hs0, hs1⟩ := send_file_ok env.cwd fs1 c _ data hstat hsize hw
  obtain ⟨p, hres, hget, hts, hpne⟩ := stat_file_inv env.cwd fs1 _ data hstat
  have hrm := remove_file env.cwd fs1 _ p data hres hget hts hpne
  have hp := resolve_eq_canon env.cwd fs1 _ p hres
  unfold S1.downltar
  simp only [hft, harch, hsys, ne_eq, not_true_eq_false, if_false, hs0, if_true, hrm]
  exact ⟨trivial, hs1, by rw [hp]⟩

/-- C23 (as amended). For `downltar .pdf` and `downltar .txt` the gateway opens no connection:
it runs `find "$HOME/S2" -type f -name "*.pdf" | tar -cf $HOME/pdf.tar -T -` (for `.txt`: `S3`,
`*.txt`, `text.tar`) itself; when that command exits with 0 and leaves a regular file at the
archive path, the client is sent the length of that file and its bytes, and the archive file is
then removed; for `downltar .zip` the gateway answers with its unsupported-filetype error (44
bytes from the literal). The result is the same for every state of the network. -/
theorem downltar_is_local (env : Env) (net : Nat → Option Link) (fs : FS) (c : Conn)
    (args ft rest : Bytes)
    (hcmd : strtok (command_line (recv c 1023).1) = some ("downltar".toList, args))
    (hft : strtok args = some (ft, rest)) :
    (ft = ".zip".toList →
      S1.prcclient_step env net fs c =
        (true, ⟨fs, send_lit env (recv c 1023).2 "ERROR: Unsupported filetype for downltar.\n" 44,
          none⟩)) ∧
    (∀ base ext tarname : String,
      (ft = ".pdf".toList ∧ base = "S2" ∧ ext = ".pdf" ∧ tarname = "pdf.tar") ∨
        (ft = ".txt".toList ∧ base = "S3" ∧ ext = ".txt" ∧ tarname = "text.tar") →
      ∀ (fs1 : FS) (data : Bytes),
        env.system (snprintf 2048 ("find \"".toList ++ home_dir env ++ '/' :: base.toList ++
          "\" -type f -name \"*".toList ++ ext.toList ++ "\" | tar -cf ".toList ++
          snprintf 256 (home_dir env ++ '/' :: tarname.toList) ++ " -T -".toList)) fs =
          (0, fs1) →
        stat env.cwd fs1 (snprintf 256 (home_dir env ++ '/' :: tarname.toList)) =
          some (Node.file data) →
        (data.length : Int) ≤ LONG_MAX → (recv c 1023).2.wlim = none →
        (S1.prcclient_step env net fs c).1 = true ∧
        (S1.prcclient_step env net fs c).2.relay = none ∧
        (S1.prcclient_step env net fs c).2.conn.sent =
          (recv c 1023).2.sent ++ (fmt_ld data.length ++ data) ∧
        (S1.prcclient_step env net fs c).2.fs =
          fs1.erase (canon env.cwd (snprintf 256 (home_dir env ++ '/' :: tarname.toList)))) := by
  have hstep : S1.prcclient_step env net fs c =
      (true, S1.downltar env fs (recv c 1023).2 args) := by
    rw [S1.step_dispatch env net fs c _ args hcmd, if_neg (by decide), if_neg (by decide),
      if_neg (by decide), if_neg (by decide), if_pos rfl]
  refine ⟨?_, ?_⟩
  · intro hz
    subst hz
    rw [hstep]
    unfold S1.downltar
    simp only [hft]
    rfl
  · intro base ext tarname hsel fs1 data hsys hstat hsize hw
    rw [hstep]
    rcases hsel with ⟨h1, h2, h3, h4⟩ | ⟨h1, h2, h3, h4⟩
    · subst h1 h2 h3 h4
      obtain ⟨r1, r2, r3⟩ := S1.downltar_run env fs fs1 (recv c 1023).2 args _ rest data
        "S2" ".pdf" "pdf.tar" hft (by decide) hsys hstat hsize hw
      exact ⟨rfl, r1, r2, r3⟩
    · subst h1 h2 h3 h4
      obtain ⟨r1, r2, r3⟩ := S1.downltar_run env fs fs1 (recv c 1023).2 args _ rest data
        "S3" ".txt" "text.tar" hft (by decide) hsys hstat hsize hw
      exact ⟨rfl, r1, r2, r3⟩

/-- Witness for `downltar_is_local`: `downltar .zip` gets the unsupported-filetype error. -/
theorem downltar_is_local_witness :
    S1.prcclient_step exEnv (nodes_up exEnv) exFS ⟨["downltar .zip".toList], [], none⟩ =
      (true, ⟨exFS, send_lit exEnv (recv ⟨["downltar .zip".toList], [], none⟩ 1023).2
        "ERROR: Unsupported filetype for downltar.\n" 44, none⟩) :=
  (downltar_is_local exEnv (nodes_up exEnv) exFS ⟨["downltar .zip".toList], [], none⟩
    ".zip".toList ".zip".toList [] (by decide) (by decide)).1 rfl

/-- C23 (counterexample). With no storage node reachable, `downltar .pdf` still sends the
client an archive, the file the gateway's own `system` call left at `/h/pdf.tar`; and
`downltar .zip` sends no archive at all but an error (followed by the terminator of the
literal and one more byte). -/
theorem downltar_opens_no_connection :
    (S1.prcclient_step exEnvTar (fun _ => none) exFS
      ⟨["downltar .pdf".toList], [], none⟩).2.conn.sent = "3TAR".toList ∧
    (S1.prcclient_step exEnvTar (nodes_up exEnvTar) exFS
      ⟨["downltar .zip".toList], [], none⟩).2.conn.out =
      ["ERROR: Unsupported filetype for downltar.\n".toList ++ [NUL, 'x']] := by
  decide

/-! ## Physical paths -/

/-- The path `downlf` and `removef` build for an argument under `S1/`. -/
theorem full_filepath_owner (home t e : Bytes)
    (hsup : e = ".c".toList ∨ e = ".pdf".toList ∨ e = ".txt".toList ∨ e = ".zip".toList) :
    S1.full_filepath home ("S1/".toList ++ t) e =
      some (snprintf 512 (home ++ '/' :: ((S1.owner e).toList ++ '/' :: t))) := by
  have hroot : strncmp_eq ("S1/".toList ++ t) "S1/".toList 3 = true := by
    simp [strncmp_eq]
  have hdrop : ("S1/".toList ++ t).drop 3 = t := rfl
  unfold S1.full_filepath
  simp only [hroot, if_true, hdrop]
  rcases hsup with h | h | h | h
  · subst h
    rw [if_pos rfl]
    rfl
  · subst h
    rw [if_neg (by decide), if_pos rfl]
    have : S1.owner ".pdf".toList = "S2" := by decide
    rw [this]
    simp
  · subst h
    rw [if_neg (by decide), if_neg (by decide), if_pos rfl]
    have : S1.owner ".txt".toList = "S3" := by decide
    rw [this]
    simp
  · subst h
    rw [if_neg (by decide), if_neg (by decide), if_neg (by decide), if_pos rfl]
    have : S1.owner ".zip".toList = "S4" := by decide
    rw [this]
    simp

/-- The path at which the gateway stages an upload to `S1/<r>`. -/
theorem local_path_S1 (env : Env) (r f : Bytes) :
    local_path env ("S1/".toList ++ r) f =
      snprintf 512 (home_dir env ++ '/' :: ("S1".toList ++ '/' :: (r ++ '/' :: f))) := by
  unfold local_path
  simp

/-- The path at which a node stores a file relayed for the destination `S1/<r>`. -/
theorem local_path_relayed (env : Env) (sid : String) (r f : Bytes) :
    local_path env (S1.target_dest sid ("S1/".toList ++ r)) f =
      snprintf 512 (home_dir env ++ '/' :: (sid.toList ++ '/' :: (r ++ '/' :: f))) := by
  have htd : S1.target_dest sid ("S1/".toList ++ r) = (sid.toList ++ '/' :: r).take 511 := by
    unfold S1.target_dest
    have h2 : strncmp_eq ("S1/".toList ++ r) "S1".toList 2 = true := by simp [strncmp_eq]
    rw [if_pos h2]
    rfl
  unfold local_path snprintf
  rw [htd]
  have := take_append_take 511 (home_dir env ++ ['/']) (sid.toList ++ '/' :: r) ('/' :: f)
  simp only [List.append_assoc, List.cons_append, List.nil_append, List.singleton_append]
    at this ⊢
  exact this

/-- C25 (as amended). For a supported extension `e` with owner `N` (`S1` for `.c`, `S2` for
`.pdf`, `S3` for `.txt`, `S4` for `.zip`), a rest-of-path `r` and a file name `f` with last
extension `e`, with HOME set to `h`: the path at which an upload of `f` to `S1/<r>` is stored (by
the gateway for `.c`, by the node after the rewritten destination otherwise), the path `downlf`
builds for `S1/<r>/<f>` and the path `removef` builds for it are all the first 511 bytes of
`<h>/<N>/<r>/<f>`, both commands find the extension `e`, and the buffer `dir_path` from which
`dispfnames` reads the group (`S1.group_dir`, filled when `r` fits the buffer `relative`) is the
first 511 bytes of `<h>/<N>/<r>`; the paths are `<h>/<N>/<r>/<f>` itself when that has at most
511 bytes. -/
theorem physical_location (env : Env) (h r f e : Bytes)
    (hhome : env.home = some h)
    (hsup : e = ".c".toList ∨ e = ".pdf".toList ∨ e = ".txt".toList ∨ e = ".zip".toList)
    (hext : strrchr f '.' = some e) :
    (if e = ".c".toList then local_path env ("S1/".toList ++ r) f
      else local_path env (S1.target_dest (S1.owner e) ("S1/".toList ++ r)) f) =
      snprintf 512 (h ++ '/' :: ((S1.owner e).toList ++ '/' :: (r ++ '/' :: f))) ∧
    strrchr ("S1/".toList ++ (r ++ '/' :: f)) '.' = some e ∧
    S1.full_filepath (getenv_HOME env) ("S1/".toList ++ (r ++ '/' :: f)) e =
      some (snprintf 512 (h ++ '/' :: ((S1.owner e).toList ++ '/' :: (r ++ '/' :: f)))) ∧
    S1.full_filepath (home_dir env) ("S1/".toList ++ (r ++ '/' :: f)) e =
      some (snprintf 512 (h ++ '/' :: ((S1.owner e).toList ++ '/' :: (r ++ '/' :: f)))) ∧
    S1.group_dir env r (S1.owner e) =
      snprintf 512 (h ++ '/' :: ((S1.owner e).toList ++ '/' :: r)) ∧
    ((h ++ '/' :: ((S1.owner e).toList ++ '/' :: (r ++ '/' :: f))).length ≤ 511 →
      snprintf 512 (h ++ '/' :: ((S1.owner e).toList ++ '/' :: (r ++ '/' :: f))) =
        h ++ '/' :: ((S1.owner e).toList ++ '/' :: (r ++ '/' :: f))) := by
  have hh : home_dir env = h := by simp [home_dir, hhome]
  have hg : getenv_HOME env = h := by simp [getenv_HOME, hhome]
  refine ⟨?_, ?_, ?_, ?_, ?_, ?_⟩
  · by_cases hc : e = ".c".toList
    · rw [if_pos hc, local_path_S1, hh]
      subst hc
      rfl
    · rw [if_neg hc, local_path_relayed, hh]
  · have e1 : "S1/".toList ++ (r ++ '/' :: f) = ("S1/".toList ++ r ++ ['/']) ++ f := by simp
    rw [e1]
    exact strrchr_append _ f e '.' hext
  · rw [hg]; exact full_filepath_owner h _ e hsup
  · rw [hh]; exact full_filepath_owner h _ e hsup
  · unfold S1.group_dir
    rw [hh]
    simp
  · intro hfit
    unfold snprintf
    exact List.take_of_length_le (by omega)

/-- Witness for `physical_location`: `a.pdf` under `S1/x` with HOME `/h`. -/
theorem physical_location_witness :
    S1.full_filepath (getenv_HOME exEnv) ("S1/".toList ++ ("x".toList ++ '/' :: "a.pdf".toList))
      ".pdf".toList =
      some (snprintf 512 ("/h".toList ++ '/' :: ((S1.owner ".pdf".toList).toList ++
        '/' :: ("x".toList ++ '/' :: "a.pdf".toList)))) :=
  (physical_location exEnv "/h".toList "x".toList "a.pdf".toList ".pdf".toList rfl
    (Or.inr (Or.inl rfl)) (by decide)).2.2.1

set_option maxRecDepth 1000000 in
set_option maxHeartbeats 4000000 in
/-- C25 (counterexample). The upload of `abcdefgh.c` to the destination `longDir` (503 bytes,
no component longer than 200) succeeds, and the file is stored under the name `abcd`:
`/h/<longDir>/abcdefgh.c` has 517 bytes and the path buffer holds 511. Nothing exists at
`/h/<longDir>/abcdefgh.c`. -/
theorem upload_stored_under_cut_name :
    (S1.upload_round exEnv exFS "abcdefgh.c".toList longDir 5 ["hello".toList]).conn.out =
      ["READY\n".toList, "File uploaded successfully in S1.\n".toList] ∧
    stat exEnv.cwd (S1.upload_round exEnv exFS "abcdefgh.c".toList longDir 5
      ["hello".toList]).fs ("/h/".toList ++ longDir ++ "/abcd".toList) =
      some (Node.file "hello".toList) ∧
    stat exEnv.cwd (S1.upload_round exEnv exFS "abcdefgh.c".toList longDir 5
      ["hello".toList]).fs ("/h/".toList ++ longDir ++ "/abcdefgh.c".toList) = none := by
  decide

/-! ## Containment of the gateway's paths -/

/-- The identifier of an owner is `S1`, `S2`, `S3` or `S4`. -/
theorem owner_cases (e : Bytes) :
    S1.owner e = "S1" ∨ S1.owner e = "S2" ∨ S1.owner e = "S3" ∨ S1.owner e = "S4" := by
  unfold S1.owner S1.relay_target
  split_ifs <;> simp

/-- Directories made by `create_directories` for a destination `id ++ rest` without `..`
lie at or below `home/id`. -/
theorem create_directories_below (env : Env) (fs : FS) (id rest filename : Bytes)
    (hid1 : '/' ∉ id) (hid2 : id ≠ []) (hid3 : id ≠ ".".toList) (hid4 : id ≠ "..".toList)
    (hWh : (rest ++ '/' :: filename).head? = some '/')
    (hdots : "..".toList ∉ components (rest ++ '/' :: filename))
    (hhome : stat env.cwd fs (home_dir env) = some Node.dir)
    (hlen1 : (home_dir env ++ '/' :: (id ++ rest)).length ≤ 511)
    (q : CPath) (hq : (create_directories env fs (id ++ rest)).2.get q ≠ fs.get q) :
    canon env.cwd (home_dir env ++ '/' :: id) <+: q := by
  obtain ⟨U0, V0, htmp, hW⟩ := tmp_shape (home_dir env) id rest filename hid1 hid2 hlen1
  unfold create_directories at hq
  simp only at hq
  rw [htmp] at hq
  exact ensure_dirs_changes env.cwd
    (fun q => canon env.cwd (home_dir env ++ '/' :: id) <+: q) _ fs
    (fun cut hcut => cuts_below env.cwd fs (home_dir env) id U0 V0 _ hhome
      hid1 hid2 hid3 hid4 hW hWh hdots cut hcut) q hq

/-- C28 (as amended). With HOME set to an existing directory `h`, for an argument `S1/<t>` in
which `t` has no `..` component, with a supported extension `e` owned by `N`, and
`<h>/<N>/<t>` within the 511 bytes of the path buffer: the path `downlf` and `removef` build
denotes a path at or below `<h>/<N>`, a `removef` of the argument changes the file system only
at or below `<h>/<N>`, and for an upload of `f` to `S1/<r>` with `t = <r>/<f>` the directories
the gateway makes and the path at which it stages the file lie at or below `<h>/S1` and the
path at which the owning node stores the file lies at or below `<h>/<N>`. -/
theorem gateway_path_containment (env : Env) (fs : FS) (h t e : Bytes)
    (hhome : env.home = some h)
    (hdir : stat env.cwd fs h = some Node.dir)
    (hsup : e = ".c".toList ∨ e = ".pdf".toList ∨ e = ".txt".toList ∨ e = ".zip".toList)
    (hext : strrchr ("S1/".toList ++ t) '.' = some e)
    (hdots : "..".toList ∉ components t)
    (hfit : (h ++ '/' :: ((S1.owner e).toList ++ '/' :: t)).length ≤ 511) :
    (∃ path, S1.full_filepath (getenv_HOME env) ("S1/".toList ++ t) e = some path ∧
      S1.full_filepath (home_dir env) ("S1/".toList ++ t) e = some path ∧
      canon env.cwd (h ++ '/' :: (S1.owner e).toList) <+: canon env.cwd path) ∧
    (∀ (c : Conn) (args more : Bytes) (q : CPath),
      strtok args = some ("S1/".toList ++ t, more) →
      (S1.removef env fs c args).fs.get q ≠ fs.get q →
      canon env.cwd (h ++ '/' :: (S1.owner e).toList) <+: q) ∧
    (∀ r f : Bytes, t = r ++ '/' :: f →
      (∀ q, (create_directories env fs ("S1/".toList ++ r)).2.get q ≠ fs.get q →
        canon env.cwd (h ++ "/S1".toList) <+: q) ∧
      canon env.cwd (h ++ "/S1".toList) <+:
        canon env.cwd (local_path env ("S1/".toList ++ r) f) ∧
      canon env.cwd (h ++ '/' :: (S1.owner e).toList) <+:
        canon env.cwd (local_path env (S1.target_dest (S1.owner e) ("S1/".toList ++ r)) f)) := by
  have hh : home_dir env = h := by simp [home_dir, hhome]
  have hg : getenv_HOME env = h := by simp [getenv_HOME, hhome]
  have hhne : h ≠ [] := by
    obtain ⟨p, hres, -⟩ := stat_dir_inv env.cwd fs _ hdir
    intro h0
    rw [h0] at hres
    simp [resolve] at hres
  have hN : ∀ N : String, (N = "S1" ∨ N = "S2" ∨ N = "S3" ∨ N = "S4") →
      '/' ∉ N.toList ∧ N.toList ≠ [] ∧ N.toList ≠ ".".toList ∧ N.toList ≠ "..".toList ∧
        N.toList.length = 2 := by
    intro N hN
    rcases hN with h1 | h1 | h1 | h1 <;> (subst h1; decide)
  obtain ⟨n1, n2, n3, n4, n5⟩ := hN (S1.owner e) (owner_cases e)
  obtain ⟨s1, s2, s3, s4, s5⟩ := hN "S1" (Or.inl rfl)
  have hsn : snprintf 512 (h ++ '/' :: ((S1.owner e).toList ++ '/' :: t)) =
      h ++ '/' :: ((S1.owner e).toList ++ '/' :: t) := by
    unfold snprintf
    exact List.take_of_length_le (by omega)
  have hdots1 : "..".toList ∉ components ('/' :: t) := by
    rw [components_slash]; exact hdots
  have hbelow : canon env.cwd (h ++ '/' :: (S1.owner e).toList) <+:
      canon env.cwd (h ++ '/' :: ((S1.owner e).toList ++ '/' :: t)) :=
    canon_below env.cwd h _ ('/' :: t) hhne n1 n2 n3 n4 (Or.inr rfl) hdots1
  have hpath := full_filepath_owner h t e hsup
  rw [hsn] at hpath
  refine ⟨⟨_, by rw [hg]; exact hpath, by rw [hh]; exact hpath, hbelow⟩, ?_, ?_⟩
  · intro c args more q htok hq
    have hroot : strncmp_eq ("S1/".toList ++ t) "S1/".toList 3 = true := by
      simp [strncmp_eq]
    unfold S1.removef at hq
    simp only [htok, hroot, hext, hh, hpath, Bool.true_eq_false, if_false] at hq
    split at hq
    · split at hq
      · rename_i fs1 hrm
        obtain ⟨hfs1, -⟩ := remove_some _ _ _ _ hrm
        simp only at hq
        rw [hfs1] at hq
        by_cases hqe : q = canon env.cwd (h ++ '/' :: ((S1.owner e).toList ++ '/' :: t))
        · rw [hqe]; exact hbelow
        · exact absurd (FS.get_erase_other fs _ q hqe) hq
      · exact absurd rfl hq
    · exact absurd rfl hq
  · intro r f ht
    subst ht
    have hlenS1 : (h ++ '/' :: ("S1".toList ++ '/' :: (r ++ '/' :: f))).length ≤ 511 := by
      simp only [List.length_append, List.length_cons] at hfit ⊢
      omega
    refine ⟨?_, ?_, ?_⟩
    · intro q hq
      have e1 : "S1/".toList ++ r = "S1".toList ++ ('/' :: r) := rfl
      have e2 : h ++ "/S1".toList = home_dir env ++ '/' :: "S1".toList := by rw [hh]; rfl
      rw [e1] at hq
      rw [e2]
      refine create_directories_below env fs "S1".toList ('/' :: r) f s1 s2 s3 s4 rfl ?_ ?_ ?_
        q hq
      · exact hdots1
      · rw [hh]; exact hdir
      · rw [hh]
        simp only [List.length_append, List.length_cons] at hlenS1 ⊢
        omega
    · rw [local_path_S1, hh]
      unfold snprintf
      rw [List.take_of_length_le (by omega)]
      exact canon_below env.cwd h "S1".toList ('/' :: (r ++ '/' :: f)) hhne s1 s2 s3 s4
        (Or.inr rfl) hdots1
    · rw [local_path_relayed, hh, hsn]
      exact hbelow

/-- Witness for `gateway_path_containment`: `S1/a.c` in the example file system; the path
built for it is `/h/S1/a.c`, below `/h/S1`. -/
theorem gateway_path_containment_witness :
    ∃ path, S1.full_filepath (getenv_HOME exEnv) ("S1/".toList ++ "a.c".toList) ".c".toList =
        some path ∧
      S1.full_filepath (home_dir exEnv) ("S1/".toList ++ "a.c".toList) ".c".toList =
        some path ∧
      canon exEnv.cwd ("/h".toList ++ '/' :: (S1.owner ".c".toList).toList) <+:
        canon exEnv.cwd path :=
  (gateway_path_containment exEnv exFS "/h".toList "a.c".toList ".c".toList rfl (by decide)
    (Or.inl rfl) (by decide) (by decide) (by decide)).1

set_option maxRecDepth 100000 in
/-- C28 (counterexample). With the regular file `/h/x.c` beside the root `/h/S1`: the gateway
accepts `removef S1/../x.c` and deletes `/h/x.c`; it accepts `downlf S1/../x.c` and sends the
contents of `/h/x.c`; it accepts `uploadf x.c S1/..` and overwrites `/h/x.c`. -/
theorem dot_dot_leaves_the_root :
    ((S1.prcclient_step exEnv (nodes_up exEnv) exFS_outside
        ⟨["removef S1/../x.c".toList], [], none⟩).2.conn.out =
      ["File removed successfully.\n".toList ++ [NUL, 'x']] ∧
    (S1.prcclient_step exEnv (nodes_up exEnv) exFS_outside
        ⟨["removef S1/../x.c".toList], [], none⟩).2.fs.get ["h".toList, "x.c".toList] = none) ∧
    (S1.prcclient_step exEnv (nodes_up exEnv) exFS_outside
        ⟨["downlf S1/../x.c".toList], [], none⟩).2.conn.out =
      ["6".toList, "secret".toList] ∧
    ((S1.upload_round exEnv exFS_outside "x.c".toList "S1/..".toList 3 ["new".toList]).conn.out =
      ["READY\n".toList, "File uploaded successfully in S1.\n".toList] ∧
    (S1.upload_round exEnv exFS_outside "x.c".toList "S1/..".toList 3 ["new".toList]).fs.get
      ["h".toList, "x.c".toList] = some (Node.file "new".toList)) := by
  decide

/-! ## The client's batch upload -/

/-- C26 (evaluation). For the input line `uploadf a.c b.c c.c d.c S1/x` the last token is
`S1/x`, and the client builds `uploadf a.c d.c`, `uploadf b.c d.c` and `uploadf c.c d.c`: the
destination it sends is the fourth argument `d.c`. The gateway answers the first of them with
the path error and stores nothing. -/
theorem client_batch_destination :
    (Client.strtok_all [] (Client.uploadf_tmp "uploadf a.c b.c c.c d.c S1/x\n".toList)).getLast? =
      some "S1/x".toList ∧
    Client.uploadf_dest "uploadf a.c b.c c.c d.c S1/x\n".toList = "d.c".toList ∧
    Client.uploadf_percmds "uploadf a.c b.c c.c d.c S1/x\n".toList =
      ["uploadf a.c d.c".toList, "uploadf b.c d.c".toList, "uploadf c.c d.c".toList] ∧
    (S1.prcclient_step exEnv (nodes_up exEnv) exFS
        ⟨["uploadf a.c d.c".toList], [], none⟩).2.conn.out =
      ["ERROR: Path must start with 'S1/'.".toList] ∧
    (S1.prcclient_step exEnv (nodes_up exEnv) exFS
        ⟨["uploadf a.c d.c".toList], [], none⟩).2.fs = exFS := by
  decide

/-! ## Long arguments of `dispfnames` -/

set_option maxRecDepth 1000000 in
set_option maxHeartbeats 4000000 in
/-- C16 (counterexample). The argument `cutArg` has 507 bytes after `S1/` (it fits `relative`)
and names an existing directory, which holds `named.c`.  `/h/<cutArg>` has 513 bytes and the
path buffers hold 511: the gateway accepts the command and answers with the listing of the
directory whose last component is cut to 103 bytes, `cut.c`, not with `named.c`. -/
theorem dispfnames_lists_cut_directory :
    (cutArg.drop 3).length = 507 ∧
    stat exEnv.cwd exFS_cut ("/h/".toList ++ cutArg) = some Node.dir ∧
    exFS_cut.namesWithExt (canon exEnv.cwd ("/h/".toList ++ cutArg)) ".c".toList =
      ["named.c".toList] ∧
    (S1.prcclient_step exEnv (nodes_up exEnv) exFS_cut
      ⟨["dispfnames ".toList ++ cutArg], [], none⟩).2.conn.out = ["cut.c\n".toList] := by
  decide

set_option maxRecDepth 100000 in
/-- C27 (counterexample). The first read delivers the length token `14` alone and the
connection then carries 14 further bytes, but the destination `/h/S1/a.c/b.c` cannot be opened
(`/h/S1/a.c` is a regular file): `receive_file` returns `-1` before it reads any payload, and
the 14 bytes stay on the connection.  The gateway, which staged the upload `uploadf b.c S1/a.c`
there, reads them as its next command and removes `/h/S1/a.c`. -/
theorem receive_file_unopened_leaves_payload :
    (receive_file exEnv.cwd exFS ⟨["14".toList, "removef S1/a.c".toList], [], none⟩
      "/h/S1/a.c/b.c".toList).ret = -1 ∧
    avail (receive_file exEnv.cwd exFS ⟨["14".toList, "removef S1/a.c".toList], [], none⟩
      "/h/S1/a.c/b.c".toList).conn.inp = "removef S1/a.c".toList ∧
    (S1.prcclient exEnv (nodes_up exEnv) exFS
      ⟨["uploadf b.c S1/a.c".toList, "14".toList, "removef S1/a.c".toList], [], none⟩).2.out =
      ["READY\n".toList, "ERROR: Failed to receive .c file.\n".toList,
        "File removed successfully.\n".toList ++ [NUL, 'x']] ∧
    (S1.prcclient exEnv (nodes_up exEnv) exFS
      ⟨["uploadf b.c S1/a.c".toList, "14".toList, "removef S1/a.c".toList], [], none⟩).1.get
      ["h".toList, "S1".toList, "a.c".toList] = none := by
  decide

end DFS
